import Mathlib

/-!
# BioCro: the simultaneous-equation solver library and three modules of the module library

A shallow embedding of

* `newton_raphson_line_search_boost` and `newton_raphson_backtrack_boost::get_next_guess`
  (src/se_solver_library/newton_raphson_backtrack_boost.h),
* `se_solver_factory::create` and `se_solver_factory::get_solvers`
  (src/se_solver_library/se_solver_factory.cpp),
* `c4photoC` (src/module_library/c4photo.cpp),
* `ed_stomata_water_stress_linear::do_operation`
  (src/module_library/ed_stomata_water_stress_linear.h),
* `solar_zenith_angle_michalsky::do_operation`
  (src/module_library/solar_zenith_angle_michalsky.h).

## Conventions of the embedding

* A C++ `double` is an exact rational number: rounding, overflow and underflow are not
  modelled.  Where IEEE arithmetic would leave the finite numbers through a division by
  zero in the line search, the embedding is explicit about it: a component of `lambda_mins`
  whose direction component is zero is `+inf` (the top element of `WithTop ℚ`), and every
  other division by zero ends the run with the outcome `Outcome.nonfinite`, about which
  nothing is stated.
* A vector of length `n` is a function on `Fin n`; all the vectors of one call have the same
  length, as the `std::transform` calls of the source require.
* In `c4photoC` and in the two `do_operation` a quotient is the total quotient of `ℚ` (a zero
  divisor gives `0`, where IEEE arithmetic gives an infinity or a NaN): what is stated about
  these functions either holds whatever the value of such a quotient is, or is stated where
  the divisor is not zero.
* `sqrt`, `pow`, `exp`, `fmod` and the trigonometric functions of `<cmath>` are parameters of
  the embedding; `floor` is the floor of `ℚ` and `fabs` its absolute value.
* A `do ... while` loop is run with fuel: `none` means the fuel ran out.
* The loop of the line search is embedded a second time, in numbers with infinities and NaN
  (`Double`, `ieee.loop`): there the residual function may overflow, a division by zero has
  its IEEE value, and `std::min` and `std::max` hand a NaN on as the source does.  Finite
  numbers are exact rationals there too.  This embedding decides whether the loop is left;
  on finite numbers without a zero divisor it agrees with the first one.
* The debugging `message` string (only printed when `nrb_print` is true, which is the
  constant `false`) is left out.
* A run of the line search carries two ghost lists, which the source does not compute: the
  points at which the residual function was called, and the step fractions that were tried,
  both oldest first.  A run of `c4photoC` carries the ghost list of its loop variables at the
  end of each pass.
-/

namespace BioCro

/-- A vector of `n` doubles. -/
abbrev Vec (n : Nat) := Fin n → ℚ

/-- An `n × n` matrix of doubles, `m i j` being `m(i, j)`. -/
abbrev Mat (n : Nat) := Fin n → Fin n → ℚ

/-- The call `std::inner_product(a.begin(), a.end(), b.begin(), 0.0)`. -/
def inner_product {n : Nat} (a b : Vec n) : ℚ := ∑ i, a i * b i

/-- The call `boost::numeric::ublas::prod(v, m)` of a vector and a matrix: the row vector
`v` times `m`. -/
def prod {n : Nat} (v : Vec n) (m : Mat n) : Vec n := fun j => ∑ i, v i * m i j

/-- What `adjust_bad_guess_limits` leaves behind: its return value, the guess, the
difference vector, and the points at which it called the equations. -/
structure Adjusted (n : Nat) where
  out_of_bounds : Bool
  guess : Vec n
  difference_vector_at_guess : Vec n
  evals : List (Vec n)

/-- Modelled from the spec: `adjust_bad_guess_limits` is declared in
se_solver_helper_functions.h, which is not among the source files.  By section 4.3 step 3
and the boundary property of section 8: a guess is out of bounds when some component lies
strictly outside `[lower_bounds[i], upper_bounds[i]]`; such a guess is clamped to the bound
and the function reports `true`; a guess with every component within the bounds (a bound
itself included) is left alone and the function reports `false`.  The function is handed the
equations and the difference vector: after clamping it evaluates the equations at the
clamped guess. -/
def adjust_bad_guess_limits {n : Nat} (F_vec : Vec n → Vec n) (lower_bounds upper_bounds : Vec n)
    (guess difference_vector_at_guess : Vec n) : Adjusted n :=
  if ∃ i, guess i < lower_bounds i ∨ upper_bounds i < guess i then
    let clamped : Vec n := fun i =>
      if guess i < lower_bounds i then lower_bounds i
      else if upper_bounds i < guess i then upper_bounds i
      else guess i
    { out_of_bounds := true, guess := clamped,
      difference_vector_at_guess := F_vec clamped, evals := [clamped] }
  else
    { out_of_bounds := false, guess := guess,
      difference_vector_at_guess := difference_vector_at_guess, evals := [] }

/-- How a call of `newton_raphson_line_search_boost` ends. -/
inductive Outcome (n : Nat) where
  /-- The statement `throw std::runtime_error(msg)`. -/
  | threw (msg : String)
  /-- A division by zero: IEEE arithmetic leaves the finite numbers; not modelled further. -/
  | nonfinite
  /-- The early `return false` after `adjust_bad_guess_limits` reported `true`. -/
  | out_of_bounds (x_new F_vec_new : Vec n)
  /-- The final `return found_possible_local_min`, with the last value of `lambda`. -/
  | finished (found_possible_local_min : Bool) (lambda : ℚ) (x_new F_vec_new : Vec n)

/-- The value a call returns to its caller, when it returns. -/
def Outcome.ret {n : Nat} : Outcome n → Option Bool
  | .threw _ => none
  | .nonfinite => none
  | .out_of_bounds _ _ => some false
  | .finished b _ _ _ => some b

/-- The output argument `x_new`, when the call returns. -/
def Outcome.x_new? {n : Nat} : Outcome n → Option (Vec n)
  | .threw _ => none
  | .nonfinite => none
  | .out_of_bounds x _ => some x
  | .finished _ _ x _ => some x

/-- The output argument `F_vec_new`, when the call returns. -/
def Outcome.F_vec_new? {n : Nat} : Outcome n → Option (Vec n)
  | .threw _ => none
  | .nonfinite => none
  | .out_of_bounds _ F => some F
  | .finished _ _ _ F => some F

/-- A finished call: its outcome and the two ghost lists. -/
structure Run (n : Nat) where
  outcome : Outcome n
  /-- The points at which the residual function was called, oldest first. -/
  evals : List (Vec n)
  /-- The step fractions tried by the loop, oldest first. -/
  lambdas : List ℚ

/-- The vector `lambda_mins` (lines 133 to 135):
`min_step_factor * std::max(fabs(x_i), 1.0) / fabs(d_i)`, which IEEE arithmetic evaluates to
`+inf` when `d_i` is zero and the numerator is positive. -/
def lambda_mins {n : Nat} (min_step_factor : ℚ) (direction x_old : Vec n) : Fin n → WithTop ℚ :=
  fun i =>
    if direction i = 0 then ⊤
    else ((min_step_factor * max |x_old i| 1 / |direction i| : ℚ) : WithTop ℚ)

/-- Whether every component of `lambda_mins` is a number or `+inf`: a zero `d_i` needs a
positive numerator (otherwise IEEE arithmetic gives `-inf` or NaN). -/
def lambda_mins_defined {n : Nat} (min_step_factor : ℚ) (direction x_old : Vec n) : Prop :=
  ∀ i, direction i = 0 → 0 < min_step_factor * max |x_old i| 1

instance {n : Nat} (min_step_factor : ℚ) (direction x_old : Vec n) :
    Decidable (lambda_mins_defined min_step_factor direction x_old) := by
  unfold lambda_mins_defined; infer_instance

/-- The value `*std::min_element(lambda_mins.begin(), lambda_mins.end())` (line 144).  It is
only computed after `slope < 0` was seen, which needs `n > 0`. -/
def lambda_min {n : Nat} (min_step_factor : ℚ) (direction x_old : Vec n) : WithTop ℚ :=
  Finset.univ.inf (lambda_mins min_step_factor direction x_old)

/-- The coefficient `a` of Equation 9.7.13 (line 238). -/
def coefficient_a (rhs1 rhs2 lambda lambda_2 : ℚ) : ℚ :=
  (rhs1 / (lambda * lambda) - rhs2 / (lambda_2 * lambda_2)) / (lambda - lambda_2)

/-- The coefficient `b` of Equation 9.7.13 (line 239). -/
def coefficient_b (rhs1 rhs2 lambda lambda_2 : ℚ) : ℚ :=
  (-lambda_2 * rhs1 / (lambda * lambda) + lambda * rhs2 / (lambda_2 * lambda_2)) /
    (lambda - lambda_2)

/-- The minimum of the cubic (lines 243 to 264), before it is capped by `0.5 * lambda`;
`none` when a divisor is zero. -/
def cubic_minimum (sqrt : ℚ → ℚ) (slope a b lambda : ℚ) : Option ℚ :=
  if a = 0 then
    if 2 * b = 0 then none else some (-slope / (2 * b))
  else
    let disc := b * b - 3 * a * slope
    if disc < 0 then some (0.5 * lambda)
    else if b ≤ 0 then some ((-b + sqrt disc) / (3 * a))
    else if b + sqrt disc = 0 then none
    else some (-slope / (b + sqrt disc))

/-- The value of `temporary_lambda` (lines 224 to 268) after a rejected candidate; `none` when
a divisor is zero. -/
def temporary_lambda (sqrt : ℚ → ℚ) (slope f_scalar_old f_scalar_new f_scalar_2 lambda lambda_2 : ℚ) :
    Option ℚ :=
  if lambda = 1 then
    if 2 * (f_scalar_new - f_scalar_old - slope) = 0 then none
    else some (-slope / (2 * (f_scalar_new - f_scalar_old - slope)))
  else
    if lambda * lambda = 0 ∨ lambda_2 * lambda_2 = 0 ∨ lambda - lambda_2 = 0 then none
    else
      let rhs1 := f_scalar_new - f_scalar_old - lambda * slope
      let rhs2 := f_scalar_2 - f_scalar_old - lambda_2 * slope
      let a := coefficient_a rhs1 rhs2 lambda lambda_2
      let b := coefficient_b rhs1 rhs2 lambda lambda_2
      (cubic_minimum sqrt slope a b lambda).map (fun t => min t (0.5 * lambda))

/-- The local variables of the loop that live across iterations, and the ghost lists. -/
structure LoopState (n : Nat) where
  lambda : ℚ
  lambda_2 : ℚ
  f_scalar_2 : ℚ
  x_new : Vec n
  F_vec_new : Vec n
  evals : List (Vec n)
  lambdas : List ℚ

/-- What one pass through the `do` body ends in. -/
inductive Step (n : Nat) where
  /-- Neither flag was set: the loop condition holds and the body runs again. -/
  | again (s : LoopState n)
  /-- One of the flags was set (or a division by zero occurred): the loop is left. -/
  | done (r : Run n)

/-- The value `0.5 * std::inner_product(F.begin(), F.end(), F.begin(), 0.0)` of the scalar
function `f_scalar = 0.5 * |F_vec|^2` (lines 150 and 192). -/
def f_scalar {n : Nat} (F : Vec n) : ℚ := 0.5 * inner_product F F

/-- The guess of one pass (lines 178 to 181): `x_old + lambda * direction` when `lambda < 1.0`,
and the content of `x_new` as it is otherwise. -/
def candidate {n : Nat} (x_old direction : Vec n) (lambda : ℚ) (x_new : Vec n) : Vec n :=
  if lambda < 1 then fun i => x_old i + lambda * direction i else x_new

/-- One pass through the body of the `do ... while` loop (lines 171 to 281). -/
def loop_body {n : Nat} (sqrt : ℚ → ℚ) (F_vec : Vec n → Vec n) (x_old direction : Vec n)
    (lambda_min : WithTop ℚ) (f_scalar_old slope f_decrease_factor : ℚ) (s : LoopState n) :
    Step n :=
  let x_new := candidate x_old direction s.lambda s.x_new
  let F_vec_new := F_vec x_new
  let f_scalar_new := f_scalar F_vec_new
  let evals := s.evals ++ [x_new]
  let lambdas := s.lambdas ++ [s.lambda]
  if (s.lambda : WithTop ℚ) < lambda_min then
    .done { outcome := .finished true s.lambda x_new F_vec_new, evals := evals, lambdas := lambdas }
  else if f_scalar_new ≤ f_scalar_old + f_decrease_factor * s.lambda * slope then
    .done { outcome := .finished false s.lambda x_new F_vec_new, evals := evals, lambdas := lambdas }
  else
    match temporary_lambda sqrt slope f_scalar_old f_scalar_new s.f_scalar_2 s.lambda s.lambda_2 with
    | none => .done { outcome := .nonfinite, evals := evals, lambdas := lambdas }
    | some t =>
      .again { lambda := max t (0.1 * s.lambda), lambda_2 := s.lambda, f_scalar_2 := f_scalar_new,
               x_new := x_new, F_vec_new := F_vec_new, evals := evals, lambdas := lambdas }

/-- The `do ... while` loop, run for at most `fuel` passes. -/
def loop {n : Nat} (sqrt : ℚ → ℚ) (F_vec : Vec n → Vec n) (x_old direction : Vec n)
    (lambda_min : WithTop ℚ) (f_scalar_old slope f_decrease_factor : ℚ) :
    Nat → LoopState n → Option (Run n)
  | 0, _ => none
  | fuel + 1, s =>
    match loop_body sqrt F_vec x_old direction lambda_min f_scalar_old slope f_decrease_factor s with
    | .done r => some r
    | .again s1 =>
      loop sqrt F_vec x_old direction lambda_min f_scalar_old slope f_decrease_factor fuel s1

/-- The message of the exception thrown at line 109. -/
def roundoff_message : String :=
  "Thrown by newton_raphson_line_search: roundoff problem occurred."

/-- The directional derivative `slope` (lines 85 and 98): `direction` dotted with
`grad_f_scalar_old = prod(F_vec_old, jacobian)`. -/
def slope_of {n : Nat} (direction F_vec_old : Vec n) (jacobian : Mat n) : ℚ :=
  inner_product direction (prod F_vec_old jacobian)

/-- The first guess `x_old + direction` of lines 69 and 70 (the step with `lambda = 1`). -/
def full_step {n : Nat} (x_old direction : Vec n) : Vec n := fun i => x_old i + direction i

/-- Every component of `x` lies in `[lower_bounds[i], upper_bounds[i]]`, the bounds
included. -/
def within_bounds {n : Nat} (lower_bounds upper_bounds x : Vec n) : Prop :=
  ∀ i, lower_bounds i ≤ x i ∧ x i ≤ upper_bounds i

/-- The local variables as the loop is entered (lines 157 to 162): `lambda = 1.0`,
`lambda_2 = 0.0`, `f_scalar_2 = 0.0`, and `x_new` holding the full step. -/
def initial_state {n : Nat} (x_old direction F_vec_new : Vec n) : LoopState n :=
  { lambda := 1, lambda_2 := 0, f_scalar_2 := 0, x_new := full_step x_old direction,
    F_vec_new := F_vec_new, evals := [], lambdas := [] }

/-- The function `newton_raphson_line_search_boost`.  The argument `F_vec_new` is the content
of the output argument of that name on entry; the content of `x_new` on entry is overwritten
at line 69 and is no argument here. -/
def newton_raphson_line_search_boost {n : Nat} (sqrt : ℚ → ℚ) (fuel : Nat)
    (lower_bounds upper_bounds : Vec n) (min_step_factor f_decrease_factor : ℚ)
    (direction F_vec_old : Vec n) (jacobian : Mat n) (F_vec : Vec n → Vec n)
    (x_old F_vec_new : Vec n) : Option (Run n) :=
  let adj := adjust_bad_guess_limits F_vec lower_bounds upper_bounds
    (full_step x_old direction) F_vec_new
  if adj.out_of_bounds then
    some { outcome := .out_of_bounds adj.guess adj.difference_vector_at_guess,
           evals := adj.evals, lambdas := [] }
  else
    let slope := slope_of direction F_vec_old jacobian
    if slope ≥ 0 then
      some { outcome := .threw roundoff_message, evals := adj.evals, lambdas := [] }
    else if ¬ lambda_mins_defined min_step_factor direction x_old then
      some { outcome := .nonfinite, evals := adj.evals, lambdas := [] }
    else
      let f_scalar_old := f_scalar F_vec_old
      loop sqrt F_vec x_old direction (lambda_min min_step_factor direction x_old)
        f_scalar_old slope f_decrease_factor fuel
        { initial_state x_old direction adj.difference_vector_at_guess with
          x_new := adj.guess, evals := adj.evals }

/-- The member function `newton_raphson_backtrack_boost::get_next_guess`, with
`min_step_factor = 1.0e-7` and `f_decrease_factor = 1.0e-4`.  The functions
`calculate_jacobian_nt` (numerical_jacobian.h) and `get_newton_raphson_step_boost`
(newton_raphson_boost.h) are not among the source files and are parameters. -/
def get_next_guess {n : Nat} (sqrt : ℚ → ℚ) (fuel : Nat)
    (calculate_jacobian_nt : (Vec n → Vec n) → Vec n → Vec n → Mat n)
    (get_newton_raphson_step_boost : Vec n → Mat n → Vec n)
    (se : Vec n → Vec n) (lower_bounds upper_bounds input_guess
      difference_vector_at_input_guess : Vec n) : Option (Run n) :=
  let jacobian := calculate_jacobian_nt se input_guess difference_vector_at_input_guess
  let function_value := difference_vector_at_input_guess
  let dx := get_newton_raphson_step_boost function_value jacobian
  newton_raphson_line_search_boost sqrt fuel lower_bounds upper_bounds 1.0e-7 1.0e-4 dx
    function_value jacobian se input_guess difference_vector_at_input_guess

/-! ## The solver factory (se_solver_factory.cpp) -/

/-- A failed call: an exception of the class `std::out_of_range` with its message. -/
inductive Failure where
  | out_of_range (what : String)
  deriving DecidableEq

/-- The type `se_solver_creator`: a function of `rel_error_tol`, `abs_error_tol` and `max_it`
that constructs a solver.  The solver classes are not among the source files; `Solver` stands
for `std::unique_ptr<se_solver>`, and a creator is a total function (a constructor that
returns). -/
abbrev se_solver_creator (Solver : Type) := ℚ → ℚ → Int → Solver

/-- The table `se_solver_factory::se_solver_creators` (lines 4 to 6), its one entry being
`create_se_solver<fixed_point>`, which is an argument here. -/
def se_solver_creators {Solver : Type} (create_fixed_point : se_solver_creator Solver) :
    List (String × se_solver_creator Solver) :=
  [("fixed_point", create_fixed_point)]

/-- The function `se_solver_factory::create` (lines 8 to 24); `List.lookup` is the member
function `at` of `std::map`, whose `std::out_of_range` is caught and thrown again with the
message of lines 17 to 20. -/
def create {Solver : Type} (create_fixed_point : se_solver_creator Solver)
    (se_solver_name : String) (rel_error_tol abs_error_tol : ℚ) (max_it : Int) :
    Except Failure Solver :=
  match (se_solver_creators create_fixed_point).lookup se_solver_name with
  | some creator => .ok (creator rel_error_tol abs_error_tol max_it)
  | none =>
    .error (.out_of_range ("\"" ++ se_solver_name ++ "\"" ++ " was given as an se_solver name, "
      ++ "but no se_solver with that name could be found.\n."))

/-- The function `se_solver_factory::get_solvers` (lines 26 to 33): the keys of the table. -/
def get_solvers {Solver : Type} (create_fixed_point : se_solver_creator Solver) : List String :=
  (se_solver_creators create_fixed_point).map (fun x => x.1)

/-- The name that the class `newton_raphson_backtrack_boost` passes to the constructor of
`se_solver` (line 303 of newton_raphson_backtrack_boost.h). -/
def newton_raphson_backtrack_boost_name : String := "newton_raphson_backtrack_boost"

/-! ## The C4 photosynthesis loop (c4photo.cpp) -/

/-- The struct `c4_str` (c4photo.h, not among the source files), with the fields that line 133
to 140 initialise. -/
structure c4_str where
  Assim : ℚ
  Gs : ℚ
  Ci : ℚ
  GrossAssim : ℚ
  Assim_conductance : ℚ
  iterations : Nat

/-- What `c4photoC` uses and the source files do not define: `pow`, `exp` and `sqrt` of
`<cmath>`, the functions `ball_berry` (ball_berry.hpp) and `conductance_limited_assim`
(conductance_limited_assim.h), taken as functions that return, and the constants `dr_boundary`
and `dr_stomata` (framework/constants.h). -/
structure c4photo_externals where
  pow : ℚ → ℚ → ℚ
  exp : ℚ → ℚ
  sqrt : ℚ → ℚ
  ball_berry : ℚ → ℚ → ℚ → ℚ → ℚ → ℚ → ℚ
  conductance_limited_assim : ℚ → ℚ → ℚ → ℚ
  dr_boundary : ℚ
  dr_stomata : ℚ

/-- The arguments of `c4photoC` (lines 12 to 30), in the order of the source. -/
structure c4photoC_arguments where
  Qp : ℚ
  leaf_temperature : ℚ
  relative_humidity : ℚ
  vmax : ℚ
  alpha : ℚ
  kparm : ℚ
  theta : ℚ
  beta : ℚ
  Rd : ℚ
  bb0 : ℚ
  bb1 : ℚ
  Gs_min : ℚ
  StomaWS : ℚ
  Ca : ℚ
  atmospheric_pressure : ℚ
  water_stress_approach : Int
  upperT : ℚ
  lowerT : ℚ
  gbw : ℚ

/-- The variables of `c4photoC` that the loop changes (lines 62 to 69).  `diff` is not
initialised by the source; every pass assigns it before the loop condition reads it. -/
structure c4_vars where
  InterCellularCO2 : ℚ
  Assim : ℚ
  Gs : ℚ
  an_conductance : ℚ
  OldAssim : ℚ
  diff : ℚ
  iterCounter : Nat

/-- The constant `max_iterations` (line 70). -/
def max_iterations : Nat := 50

/-- The constant `Tol` (line 68). -/
def Tol : ℚ := 0.1

/-- The value `Ca_pa` (line 35). -/
def Ca_pa (a : c4photoC_arguments) : ℚ := a.Ca * 1e-6 * a.atmospheric_pressure

/-- The value `kT` (line 37), with `k_Q10 = 2`. -/
def kT (e : c4photo_externals) (a : c4photoC_arguments) : ℚ :=
  a.kparm * e.pow 2 ((a.leaf_temperature - 25.0) / 10.0)

/-- The value `VT` (lines 40 to 42). -/
def VT (e : c4photo_externals) (a : c4photoC_arguments) : ℚ :=
  let Vtn := a.vmax * e.pow 2 ((a.leaf_temperature - 25.0) / 10.0)
  let Vtd := (1 + e.exp (0.3 * (a.lowerT - a.leaf_temperature))) *
    (1 + e.exp (0.3 * (a.leaf_temperature - a.upperT)))
  Vtn / Vtd

/-- The value `RT` (lines 45 to 47). -/
def RT (e : c4photo_externals) (a : c4photoC_arguments) : ℚ :=
  let Rtn := a.Rd * e.pow 2 ((a.leaf_temperature - 25) / 10)
  let Rtd := 1 + e.exp (1.3 * (a.leaf_temperature - 55))
  Rtn / Rtd

/-- The value `M`, the smaller root (lines 50 to 58). -/
def M (e : c4photo_externals) (a : c4photoC_arguments) : ℚ :=
  let b0 := VT e a * a.alpha * a.Qp
  let b1 := VT e a + a.alpha * a.Qp
  let b2 := a.theta
  let M1 := (b1 + e.sqrt (b1 * b1 - 4 * b0 * b2)) / 2 / b2
  let M2 := (b1 - e.sqrt (b1 * b1 - 4 * b0 * b2)) / 2 / b2
  if M1 < M2 then M1 else M2

/-- One pass through the body of the loop of `c4photoC` (lines 72 to 125); `iterCounter` is
left as it is. -/
def c4_body (e : c4photo_externals) (a : c4photoC_arguments) (v : c4_vars) : c4_vars :=
  let kT_IC_P := kT e a * v.InterCellularCO2 / a.atmospheric_pressure * 1e6
  let a_ := M e a * kT_IC_P
  let b := M e a + kT_IC_P
  let c := a.beta
  let gross_assim := (b - e.sqrt (b * b - 4 * a_ * c)) / 2 / c
  let Assim0 := gross_assim - RT e a
  let an_conductance := e.conductance_limited_assim a.Ca a.gbw (v.Gs * 1e-3)
  let Assim1 := min Assim0 an_conductance
  let Assim := if a.water_stress_approach = 0 then Assim1 * a.StomaWS else Assim1
  let Gs0 := e.ball_berry (Assim * 1e-6) (a.Ca * 1e-6) a.relative_humidity a.bb0 a.bb1 a.gbw
  let Gs1 := if a.water_stress_approach = 1 then a.Gs_min + a.StomaWS * (Gs0 - a.Gs_min) else Gs0
  let Gs := if v.iterCounter > max_iterations - 10 then a.bb0 * 1e3 else Gs1
  let InterCellularCO2 := Ca_pa a - a.atmospheric_pressure * (Assim * 1e-6) *
    (e.dr_boundary / a.gbw + e.dr_stomata / (Gs * 1e-3))
  let diff := |v.OldAssim - Assim|
  { InterCellularCO2 := InterCellularCO2, Assim := Assim, Gs := Gs,
    an_conductance := an_conductance, OldAssim := Assim, diff := diff,
    iterCounter := v.iterCounter }

/-- The loop `do ... while (diff >= Tol && ++iterCounter < max_iterations)` (lines 71 to 127),
run for at most `fuel` passes.  The result is the variables as the loop is left, and the ghost
list of the variables at the end of each pass, oldest first. -/
def c4_loop (e : c4photo_externals) (a : c4photoC_arguments) :
    Nat → c4_vars → Option (c4_vars × List c4_vars)
  | 0, _ => none
  | fuel + 1, v =>
    let v1 := c4_body e a v
    if Tol ≤ v1.diff then
      let v2 := { v1 with iterCounter := v1.iterCounter + 1 }
      if v2.iterCounter < max_iterations then
        (c4_loop e a fuel v2).map (fun r => (r.1, v1 :: r.2))
      else some (v2, [v1])
    else some (v1, [v1])

/-- The variables as the loop of `c4photoC` is entered (lines 62 to 69). -/
def c4_initial (a : c4photoC_arguments) : c4_vars :=
  { InterCellularCO2 := 0.4 * Ca_pa a, Assim := 0, Gs := 1e6, an_conductance := 0,
    OldAssim := 0.0, diff := 0, iterCounter := 0 }

/-- A finished call of `c4photoC`: the struct it returns, and the ghost list of the loop
variables at the end of each pass, oldest first. -/
structure c4_run where
  result : c4_str
  passes : List c4_vars

/-- The function `c4photoC`, its loop run for at most `fuel` passes. -/
def c4photoC (e : c4photo_externals) (fuel : Nat) (a : c4photoC_arguments) : Option c4_run :=
  (c4_loop e a fuel (c4_initial a)).map (fun r =>
    let v := r.1
    let Ci := v.InterCellularCO2 / a.atmospheric_pressure * 1e6
    { result := { Assim := v.Assim, Gs := v.Gs, Ci := Ci, GrossAssim := v.Assim + RT e a,
                  Assim_conductance := v.an_conductance, iterations := v.iterCounter },
      passes := r.2 })

/-- The net assimilation before pass `k`: `old` before the first pass (the initial value of
`OldAssim`), and after that the `Assim` of the pass before. -/
def assim_before (old : ℚ) (passes : List c4_vars) : Nat → ℚ
  | 0 => old
  | k + 1 => (passes.get? k).elim 0 (fun p => p.Assim)

/-! ## The linear water stress factor (ed_stomata_water_stress_linear.h) -/

/-- The member function `ed_stomata_water_stress_linear::do_operation` (lines 73 to 94): the
four inputs are read through their pointers, and the value handed to `update` is the
result. -/
def ed_stomata_water_stress_linear.do_operation
    (soil_field_capacity soil_wilting_point soil_water_content StomataWS_min : ℚ) : ℚ :=
  if soil_water_content < soil_wilting_point then
    StomataWS_min
  else if soil_water_content < soil_field_capacity then
    let slope := (1.0 - StomataWS_min) / (soil_field_capacity - soil_wilting_point)
    let intercept := 1.0 - soil_field_capacity * slope
    slope * soil_water_content + intercept
  else
    1.0

/-! ## The solar zenith angle (solar_zenith_angle_michalsky.h) -/

/-- What `solar_zenith_angle_michalsky::do_operation` uses and the source files do not define:
the constant `math_constants::pi` (constants.h), and `fmod`, `sin`, `cos`, `tan`, `asin`,
`acos`, `atan2` and `pow` of `<cmath>`. -/
structure solar_externals where
  pi : ℚ
  fmod : ℚ → ℚ → ℚ
  sin : ℚ → ℚ
  cos : ℚ → ℚ
  tan : ℚ → ℚ
  asin : ℚ → ℚ
  acos : ℚ → ℚ
  atan2 : ℚ → ℚ → ℚ
  pow : ℚ → ℚ → ℚ

/-- The output quantities of `solar_zenith_angle_michalsky` (lines 95 to 113), with the values
that lines 207 to 220 hand to `update`. -/
structure solar_outputs where
  cosine_zenith_angle : ℚ
  julian_date : ℚ
  solar_L : ℚ
  solar_g : ℚ
  solar_ell : ℚ
  solar_ep : ℚ
  solar_ra : ℚ
  solar_dec : ℚ
  gmst : ℚ
  lmst : ℚ
  lha : ℚ
  solar_refraction_correction : ℚ
  solar_zenith_angle : ℚ
  solar_elevation_angle : ℚ

/-- The constant `jd_ref_1948` (line 125): the Julian date at midnight on 31 December 1948. -/
def solar_zenith_angle_michalsky.jd_ref_1948 : ℚ := 2432916.5

/-- The constant `jd_ref_2000` (line 126): the Julian date at noon on 1 January 2000. -/
def solar_zenith_angle_michalsky.jd_ref_2000 : ℚ := 2451545.0

/-- The constant `HPD` (line 122): hours per day. -/
def solar_zenith_angle_michalsky.HPD : ℚ := 24.0

/-- The value `time_utc` (line 129). -/
def solar_zenith_angle_michalsky.time_utc (time time_zone_offset : ℚ) : ℚ :=
  time - time_zone_offset / HPD

/-- The value `doy_utc` (line 130), `floor` being the one of `<cmath>`. -/
def solar_zenith_angle_michalsky.doy_utc (time time_zone_offset : ℚ) : ℚ :=
  ((Int.floor (time_utc time time_zone_offset) : Int) : ℚ)

/-- The value `hour_utc` (line 131). -/
def solar_zenith_angle_michalsky.hour_utc (time time_zone_offset : ℚ) : ℚ :=
  HPD * (time_utc time time_zone_offset - doy_utc time time_zone_offset)

/-- The value `jd` (lines 134 to 136). -/
def solar_zenith_angle_michalsky.jd (time time_zone_offset year : ℚ) : ℚ :=
  let delta := year - 1949.0
  let leap : ℚ := ((Int.floor (0.25 * delta) : Int) : ℚ)
  jd_ref_1948 + delta * 365.0 + leap + doy_utc time time_zone_offset +
    hour_utc time time_zone_offset / HPD

/-- The value `n` (line 141): the days since noon on 1 January 2000. -/
def solar_zenith_angle_michalsky.n (time time_zone_offset year : ℚ) : ℚ :=
  jd time time_zone_offset year - jd_ref_2000

/-- The member function `solar_zenith_angle_michalsky::do_operation` (lines 115 to 221): the
five inputs are read through their references, and the values handed to `update` are the
result. -/
def solar_zenith_angle_michalsky.do_operation (e : solar_externals)
    (lat longitude time time_zone_offset year : ℚ) : solar_outputs :=
  let DTR := e.pi / 180.0
  let RTD := 180.0 / e.pi
  let DTH : ℚ := 1.0 / 15.0
  let HTD : ℚ := 15.0
  let DPC : ℚ := 360.0
  let hour_utc := hour_utc time time_zone_offset
  let jd := jd time time_zone_offset year
  let n := n time time_zone_offset year
  let L := e.fmod (280.460 + 0.9856474 * n) DPC
  let g := e.fmod (357.528 + 0.9856003 * n) DPC
  let ell := e.fmod (L + 1.915 * e.sin (g * DTR) + 0.020 * e.sin (2 * g * DTR)) DPC
  let ep := 23.439 - 0.0000004 * n
  let ra := e.atan2 (e.cos (ep * DTR) * e.sin (ell * DTR)) (e.cos (ell * DTR)) * RTD
  let dec := e.asin (e.sin (ep * DTR) * e.sin (ell * DTR)) * RTD
  let gmst := e.fmod (6.697375 + 0.0657098242 * n + hour_utc) HPD
  let lmst := e.fmod (gmst + longitude * DTH) HPD
  let lha := e.fmod (lmst * HTD - ra) DPC
  let za := e.acos (e.sin (dec * DTR) * e.sin (lat * DTR) +
    e.cos (dec * DTR) * e.cos (lat * DTR) * e.cos (lha * DTR)) * RTD
  let ea := 90.0 - za
  let refraction_correction : ℚ :=
    if ea ≥ 15 then 0.00452 * 3.51561 / e.tan (ea * DTR)
    else if ea ≤ -3 then 0.0
    else 3.51561 * (0.1594 + 0.0196 * ea + 0.0002 * e.pow ea 2) /
      (1 + 0.505 * ea + 0.0845 * e.pow ea 2)
  let cosine_zenith_angle := e.cos ((za - refraction_correction) * DTR)
  { cosine_zenith_angle := cosine_zenith_angle, julian_date := jd, solar_L := L, solar_g := g,
    solar_ell := ell, solar_ep := ep, solar_ra := ra, solar_dec := dec, gmst := gmst,
    lmst := lmst, lha := lha, solar_refraction_correction := refraction_correction,
    solar_zenith_angle := za - refraction_correction,
    solar_elevation_angle := ea + refraction_correction }

/-! ## The loop of the line search in numbers with infinities and NaN -/

/-- A `double` with its non-finite values: a finite number (an exact rational: rounding and
overflow of the arithmetic are not modelled, and zero has no sign), `+inf`, `-inf`, or NaN. -/
inductive Double where
  /-- A finite number. -/
  | finite (q : ℚ)
  /-- The value `+inf`. -/
  | pos_inf
  /-- The value `-inf`. -/
  | neg_inf
  /-- Not a number. -/
  | nan

/-- The unary minus of IEEE arithmetic. -/
def Double.neg : Double → Double
  | .finite q => .finite (-q)
  | .pos_inf => .neg_inf
  | .neg_inf => .pos_inf
  | .nan => .nan

/-- The sum of IEEE arithmetic: `inf + (-inf)` is NaN. -/
def Double.add : Double → Double → Double
  | .nan, _ => .nan
  | _, .nan => .nan
  | .finite a, .finite b => .finite (a + b)
  | .pos_inf, .neg_inf => .nan
  | .neg_inf, .pos_inf => .nan
  | .pos_inf, _ => .pos_inf
  | _, .pos_inf => .pos_inf
  | .neg_inf, _ => .neg_inf
  | _, .neg_inf => .neg_inf

/-- The difference of IEEE arithmetic. -/
def Double.sub (a b : Double) : Double := a.add b.neg

/-- An infinity with the sign of a non-zero rational. -/
def Double.signed_inf (positive : Bool) : Double :=
  if positive then .pos_inf else .neg_inf

/-- The product of IEEE arithmetic: `0 * inf` is NaN. -/
def Double.mul : Double → Double → Double
  | .nan, _ => .nan
  | _, .nan => .nan
  | .finite a, .finite b => .finite (a * b)
  | .finite a, .pos_inf => if a = 0 then .nan else Double.signed_inf (decide (0 < a))
  | .finite a, .neg_inf => if a = 0 then .nan else Double.signed_inf (decide (a < 0))
  | .pos_inf, .finite b => if b = 0 then .nan else Double.signed_inf (decide (0 < b))
  | .neg_inf, .finite b => if b = 0 then .nan else Double.signed_inf (decide (b < 0))
  | .pos_inf, .pos_inf => .pos_inf
  | .neg_inf, .neg_inf => .pos_inf
  | .pos_inf, .neg_inf => .neg_inf
  | .neg_inf, .pos_inf => .neg_inf

/-- The quotient of IEEE arithmetic: a non-zero number over zero is an infinity with the sign
of the dividend (the zero having no sign here), `0 / 0` and `inf / inf` are NaN, and a finite
number over an infinity is zero. -/
def Double.div : Double → Double → Double
  | .nan, _ => .nan
  | _, .nan => .nan
  | .finite a, .finite b =>
    if b = 0 then (if a = 0 then .nan else Double.signed_inf (decide (0 < a)))
    else .finite (a / b)
  | .finite _, .pos_inf => .finite 0
  | .finite _, .neg_inf => .finite 0
  | .pos_inf, .finite b => Double.signed_inf (decide (0 ≤ b))
  | .neg_inf, .finite b => Double.signed_inf (decide (b < 0))
  | .pos_inf, .pos_inf => .nan
  | .pos_inf, .neg_inf => .nan
  | .neg_inf, .pos_inf => .nan
  | .neg_inf, .neg_inf => .nan

/-- The comparison `<`: false when either side is NaN. -/
def Double.lt : Double → Double → Bool
  | .finite a, .finite b => decide (a < b)
  | .finite _, .pos_inf => true
  | .neg_inf, .finite _ => true
  | .neg_inf, .pos_inf => true
  | _, _ => false

/-- The comparison `<=`: false when either side is NaN. -/
def Double.le : Double → Double → Bool
  | .finite a, .finite b => decide (a ≤ b)
  | .finite _, .pos_inf => true
  | .neg_inf, .finite _ => true
  | .neg_inf, .pos_inf => true
  | .pos_inf, .pos_inf => true
  | .neg_inf, .neg_inf => true
  | _, _ => false

/-- The comparison `==`: false when either side is NaN. -/
def Double.eq : Double → Double → Bool
  | .finite a, .finite b => decide (a = b)
  | .pos_inf, .pos_inf => true
  | .neg_inf, .neg_inf => true
  | _, _ => false

/-- The function `std::min(a, b)`: `(b < a) ? b : a`. -/
def Double.min (a b : Double) : Double := if b.lt a then b else a

/-- The function `std::max(a, b)`: `(a < b) ? b : a`. -/
def Double.max (a b : Double) : Double := if a.lt b then b else a

/-- A vector of `n` doubles that may be non-finite. -/
abbrev VecD (n : Nat) := Fin n → Double

/-- The value `std::inner_product(a.begin(), a.end(), b.begin(), 0.0)`, accumulated in the
order of the components. -/
def ieee.inner_product {n : Nat} (a b : VecD n) : Double :=
  (List.finRange n).foldl (fun acc i => acc.add ((a i).mul (b i))) (.finite 0.0)

/-- The value `0.5 * std::inner_product(F.begin(), F.end(), F.begin(), 0.0)` (line 192). -/
def ieee.f_scalar {n : Nat} (F : VecD n) : Double :=
  (Double.finite 0.5).mul (ieee.inner_product F F)

/-- The guess of one pass (lines 178 to 181), see `candidate`. -/
def ieee.candidate {n : Nat} (x_old direction : VecD n) (lambda : Double) (x_new : VecD n) :
    VecD n :=
  if lambda.lt (.finite 1.0) then fun i => (x_old i).add (lambda.mul (direction i)) else x_new

/-- The value of `temporary_lambda` (lines 224 to 268) after a rejected candidate, see
`temporary_lambda`: here a division by zero has a value, as in IEEE arithmetic. -/
def ieee.temporary_lambda (sqrt : Double → Double)
    (slope f_scalar_old f_scalar_new f_scalar_2 lambda lambda_2 : Double) : Double :=
  if lambda.eq (.finite 1.0) then
    slope.neg.div ((Double.finite 2.0).mul ((f_scalar_new.sub f_scalar_old).sub slope))
  else
    let rhs1 := (f_scalar_new.sub f_scalar_old).sub (lambda.mul slope)
    let rhs2 := (f_scalar_2.sub f_scalar_old).sub (lambda_2.mul slope)
    let a := ((rhs1.div (lambda.mul lambda)).sub (rhs2.div (lambda_2.mul lambda_2))).div
      (lambda.sub lambda_2)
    let b := (((lambda_2.neg.mul rhs1).div (lambda.mul lambda)).add
      ((lambda.mul rhs2).div (lambda_2.mul lambda_2))).div (lambda.sub lambda_2)
    let t :=
      if a.eq (.finite 0.0) then slope.neg.div ((Double.finite 2.0).mul b)
      else
        let disc := (b.mul b).sub (((Double.finite 3.0).mul a).mul slope)
        if disc.lt (.finite 0.0) then (Double.finite 0.5).mul lambda
        else if b.le (.finite 0.0) then (b.neg.add (sqrt disc)).div ((Double.finite 3.0).mul a)
        else slope.neg.div (b.add (sqrt disc))
    Double.min t ((Double.finite 0.5).mul lambda)

/-- The local variables of the loop that live across iterations, and the ghost lists, see
`LoopState`. -/
structure ieee.LoopState (n : Nat) where
  lambda : Double
  lambda_2 : Double
  f_scalar_2 : Double
  x_new : VecD n
  F_vec_new : VecD n
  evals : List (VecD n)
  lambdas : List Double

/-- What the loop leaves when it is left: the value returned by line 290, the last
`lambda`, the two output arguments, and the ghost lists. -/
structure ieee.Run (n : Nat) where
  found_possible_local_min : Bool
  lambda : Double
  x_new : VecD n
  F_vec_new : VecD n
  evals : List (VecD n)
  lambdas : List Double

/-- What one pass through the `do` body ends in, see `Step`. -/
inductive ieee.Step (n : Nat) where
  /-- Neither flag was set: the loop condition holds and the body runs again. -/
  | again (s : ieee.LoopState n)
  /-- One of the flags was set: the loop is left. -/
  | done (r : ieee.Run n)

/-- One pass through the body of the `do ... while` loop (lines 171 to 281), see
`loop_body`. -/
def ieee.loop_body {n : Nat} (sqrt : Double → Double) (F_vec : VecD n → VecD n)
    (x_old direction : VecD n) (lambda_min f_scalar_old slope f_decrease_factor : Double)
    (s : ieee.LoopState n) : ieee.Step n :=
  let x_new := ieee.candidate x_old direction s.lambda s.x_new
  let F_vec_new := F_vec x_new
  let f_scalar_new := ieee.f_scalar F_vec_new
  let evals := s.evals ++ [x_new]
  let lambdas := s.lambdas ++ [s.lambda]
  if s.lambda.lt lambda_min then
    .done { found_possible_local_min := true, lambda := s.lambda, x_new := x_new,
            F_vec_new := F_vec_new, evals := evals, lambdas := lambdas }
  else if f_scalar_new.le (f_scalar_old.add ((f_decrease_factor.mul s.lambda).mul slope)) then
    .done { found_possible_local_min := false, lambda := s.lambda, x_new := x_new,
            F_vec_new := F_vec_new, evals := evals, lambdas := lambdas }
  else
    let temporary_lambda := ieee.temporary_lambda sqrt slope f_scalar_old f_scalar_new
      s.f_scalar_2 s.lambda s.lambda_2
    .again { lambda := Double.max temporary_lambda ((Double.finite 0.1).mul s.lambda),
             lambda_2 := s.lambda, f_scalar_2 := f_scalar_new, x_new := x_new,
             F_vec_new := F_vec_new, evals := evals, lambdas := lambdas }

/-- The `do ... while` loop, run for at most `fuel` passes, see `loop`. -/
def ieee.loop {n : Nat} (sqrt : Double → Double) (F_vec : VecD n → VecD n)
    (x_old direction : VecD n) (lambda_min f_scalar_old slope f_decrease_factor : Double) :
    Nat → ieee.LoopState n → Option (ieee.Run n)
  | 0, _ => none
  | fuel + 1, s =>
    match ieee.loop_body sqrt F_vec x_old direction lambda_min f_scalar_old slope
        f_decrease_factor s with
    | .done r => some r
    | .again s1 =>
      ieee.loop sqrt F_vec x_old direction lambda_min f_scalar_old slope f_decrease_factor
        fuel s1

/-- The local variables as the loop is entered (lines 157 to 162), see `initial_state`. -/
def ieee.initial_state {n : Nat} (x_old direction F_vec_new : VecD n) : ieee.LoopState n :=
  { lambda := .finite 1.0, lambda_2 := .finite 0.0, f_scalar_2 := .finite 0.0,
    x_new := fun i => (x_old i).add (direction i), F_vec_new := F_vec_new, evals := [],
    lambdas := [] }

/-- The invariant behind the consistency of the outputs: the step fraction is positive; a
step fraction of `1` or more finds the full step in `x_new`; and a step fraction above `1`
only follows a full step that was neither below the floor nor accepted, for a positive
`f_decrease_factor`. -/
def ConsistentState {n : Nat} (F_vec : Vec n → Vec n) (x_old direction : Vec n)
    (lambda_min : WithTop ℚ) (f_scalar_old slope c : ℚ) (s : LoopState n) : Prop :=
  0 < s.lambda ∧ (1 ≤ s.lambda → s.x_new = full_step x_old direction) ∧
  (1 < s.lambda → ¬ (1 : WithTop ℚ) < lambda_min ∧
    ¬ f_scalar (F_vec (full_step x_old direction)) ≤ f_scalar_old + c * 1 * slope ∧ 0 < c)

/-- A later backtrack, as lines 235 to 275 compute it: from the candidate `x` just rejected at
the step fraction `lambda` and the candidate `x_2` rejected at `lambda_2`, the interpolation
of `temporary_lambda` has a value `t`, and the step fraction handed on is
`max(t, 0.1 * lambda)`. -/
def Fitted {n : Nat} (sqrt : ℚ → ℚ) (F_vec : Vec n → Vec n) (f_scalar_old slope : ℚ)
    (lambda_2 lambda lambda_next : ℚ) (x_2 x : Vec n) : Prop :=
  ∃ t : ℚ, temporary_lambda sqrt slope f_scalar_old (f_scalar (F_vec x)) (f_scalar (F_vec x_2))
    lambda lambda_2 = some t ∧ lambda_next = max t (0.1 * lambda)

/-- The step fractions tried and the points evaluated, oldest first, fit together: the first
step fraction is `1` and its point is the full step; the point of a step fraction below `1` is
`x_old + lambda * direction`; and whenever a step fraction other than `1` is followed by
another one, that one came from the later backtrack through the point of this step fraction
and the point of the step fraction just before it. -/
def FittedTrace {n : Nat} (sqrt : ℚ → ℚ) (F_vec : Vec n → Vec n) (x_old direction : Vec n)
    (f_scalar_old slope : ℚ) (lambdas : List ℚ) (evals : List (Vec n)) : Prop :=
  (∀ (lambda : ℚ) (x : Vec n), lambdas.get? 0 = some lambda → evals.get? 0 = some x →
    lambda = 1 ∧ x = full_step x_old direction) ∧
  (∀ (k : Nat) (lambda : ℚ) (x : Vec n), lambdas.get? k = some lambda → evals.get? k = some x →
    lambda < 1 → x = fun i => x_old i + lambda * direction i) ∧
  ∀ (k : Nat) (lambda_2 lambda lambda_next : ℚ) (x_2 x : Vec n),
    lambdas.get? k = some lambda_2 → lambdas.get? (k + 1) = some lambda →
    lambdas.get? (k + 2) = some lambda_next →
    evals.get? k = some x_2 → evals.get? (k + 1) = some x → lambda ≠ 1 →
    Fitted sqrt F_vec f_scalar_old slope lambda_2 lambda lambda_next x_2 x

/-- The invariant behind `FittedTrace`: there is one point for each step fraction tried, the
trace with the pass about to run fits together, and after the first pass `lambda_2` and `f_scalar_2` hold the step fraction and the merit
value of the pass before. -/
def FittedState {n : Nat} (sqrt : ℚ → ℚ) (F_vec : Vec n → Vec n) (x_old direction : Vec n)
    (f_scalar_old slope : ℚ) (s : LoopState n) : Prop :=
  s.evals.length = s.lambdas.length ∧
  FittedTrace sqrt F_vec x_old direction f_scalar_old slope (s.lambdas ++ [s.lambda])
    (s.evals ++ [candidate x_old direction s.lambda s.x_new]) ∧
  ∀ (k : Nat) (lambda : ℚ) (x : Vec n), k + 1 = s.lambdas.length →
    s.lambdas.get? k = some lambda → s.evals.get? k = some x →
    s.lambda_2 = lambda ∧ s.f_scalar_2 = f_scalar (F_vec x)

/-! ## Inputs of the examples -/

/-- Scenario A of the specification: the equation `F(x) = x - 5`. -/
def scenario_A : Vec 1 → Vec 1 := fun x => ![x 0 - 5]

/-- An equation with a kink at its starting point: `F(x) = 1 + 10^8 * |x|`. -/
def steep_equation : Vec 1 → Vec 1 := fun x => ![1 + 100000000 * |x 0|]

/-- Modelled from the spec: `calculate_jacobian_nt` is declared in numerical_jacobian.h, which
is not among the source files.  By section 4.2 the column `j` of the Jacobian is the forward
difference of the residual for a perturbation of `guess[j]`; the size `h` of the perturbation
is an argument here. -/
def forward_difference_jacobian {n : Nat} (h : ℚ) (se : Vec n → Vec n)
    (guess difference_vector_at_guess : Vec n) : Mat n :=
  fun i j => (se (fun k => if k = j then guess k + h else guess k) i
    - difference_vector_at_guess i) / h

/-- The Newton-Raphson step of a system with one unknown: the solution `dx` of
`jacobian * dx = -function_value` (section 4.3 step 2). -/
def newton_step_1 (function_value : Vec 1) (jacobian : Mat 1) : Vec 1 :=
  ![-(function_value 0) / jacobian 0 0]

/-- An equation whose full Newton step from `0` lowers the merit value by less than the
sufficient decrease: `F(x) = 1 + x + 0.99995 * x^2`, with `F(0) = 1`, `F'(0) = 1` and
`F(-1) = 0.99995`. -/
def slow_equation : Vec 1 → Vec 1 := fun x => ![1 + x 0 + 19999 / 20000 * x 0 ^ 2]

/-- Stand-ins for what `c4photoC` takes from outside the source files, for the examples:
`pow(2, x) = 1`, `exp(x) = 0`, `sqrt(x) = 0`, a stomatal conductance that grows with the
assimilation, a conductance-limited assimilation of `30`, and diffusivity ratios `1.37` and
`1.6`. -/
def example_externals : c4photo_externals :=
  { pow := fun _ _ => 1, exp := fun _ => 0, sqrt := fun _ => 0,
    ball_berry := fun assimilation _ _ _ _ _ => 100 + 1000000 * assimilation,
    conductance_limited_assim := fun _ _ _ => 30,
    dr_boundary := 1.37, dr_stomata := 1.6 }

/-- Arguments of `c4photoC` for the examples. -/
def example_arguments : c4photoC_arguments :=
  { Qp := 1000, leaf_temperature := 25, relative_humidity := 0.7, vmax := 39, alpha := 0.04,
    kparm := 0.7, theta := 0.83, beta := 0.93, Rd := 0.8, bb0 := 0.08, bb1 := 3, Gs_min := 1,
    StomaWS := 1, Ca := 400, atmospheric_pressure := 101325, water_stress_approach := 1,
    upperT := 37.5, lowerT := 3, gbw := 1.2 }

/-- Stand-ins for the examples of a call of `c4photoC` that keeps oscillating: `pow(2, x) = 1`
(the value at the exponent `0` of the leaf temperature `25`), `exp(x) = 0`, the exact square
root of a rational square, a stomatal conductance of `200`, a conductance-limited assimilation
of `1000`, and diffusivity ratios `1.37` and `1.6`. -/
def oscillating_externals : c4photo_externals :=
  { pow := fun _ _ => 1, exp := fun _ => 0, sqrt := Rat.sqrt,
    ball_berry := fun _ _ _ _ _ _ => 200,
    conductance_limited_assim := fun _ _ _ => 1000,
    dr_boundary := 1.37, dr_stomata := 1.6 }

/-- Arguments of `c4photoC` for which, with `oscillating_externals`, the net assimilation
alternates between `38.2` and `11.8`. -/
def oscillating_arguments : c4photoC_arguments :=
  { Qp := 1000, leaf_temperature := 25, relative_humidity := 0.7, vmax := 39, alpha := 0.04,
    kparm := 0.7, theta := 1, beta := 1, Rd := 0.8, bb0 := 0.08, bb1 := 3, Gs_min := 1,
    StomaWS := 1, Ca := 400, atmospheric_pressure := 100000, water_stress_approach := 1,
    upperT := 37.5, lowerT := 3, gbw := 0.685 }

/-- The loop variables of the oscillating example before a pass: the first pass, a pass after
the high assimilation, or a pass after the low one. -/
def OscillatingState (v : c4_vars) : Prop :=
  (v.InterCellularCO2 = 16 ∧ v.OldAssim = 0) ∨
  (v.InterCellularCO2 = 1.8 ∧ v.OldAssim = 38.2) ∨
  (v.InterCellularCO2 = 28.2 ∧ v.OldAssim = 11.8)

/-- The residual `2 + x + 10*x^2` of the example of two backtracks. -/
def curved_equation : Vec 1 → Vec 1 := fun x => ![2 + x 0 + 10 * x 0 ^ 2]

section LoopLemmas
variable {n : Nat} (sqrt : ℚ → ℚ) (F_vec : Vec n → Vec n) (x_old direction : Vec n)
  (lambda_min : WithTop ℚ) (f_scalar_old slope f_decrease_factor : ℚ)

/-- An invariant of the loop body gives a property of every finished run. -/
theorem loop_invariant (Inv : LoopState n → Prop) (Post : Run n → Prop)
    (hdone : ∀ s r, Inv s →
      loop_body sqrt F_vec x_old direction lambda_min f_scalar_old slope f_decrease_factor s
        = .done r → Post r)
    (hagain : ∀ s s1, Inv s →
      loop_body sqrt F_vec x_old direction lambda_min f_scalar_old slope f_decrease_factor s
        = .again s1 → Inv s1) :
    ∀ (fuel : Nat) (s : LoopState n) (r : Run n), Inv s →
      loop sqrt F_vec x_old direction lambda_min f_scalar_old slope f_decrease_factor fuel s
        = some r → Post r := by
  intro fuel
  induction fuel with
  | zero => intro s r _ h; simp [loop] at h
  | succ k ih =>
    intro s r hs h
    rw [loop] at h
    cases hb : loop_body sqrt F_vec x_old direction lambda_min f_scalar_old slope
        f_decrease_factor s with
    | done r1 =>
      rw [hb] at h
      simp only [Option.some.injEq] at h
      subst h
      exact hdone s r1 hs hb
    | again s1 =>
      rw [hb] at h
      exact ih s1 r (hagain s s1 hs hb) h

/-- The four ways through the loop body. -/
theorem loop_body_cases (s : LoopState n) :
    ((s.lambda : WithTop ℚ) < lambda_min ∧
      loop_body sqrt F_vec x_old direction lambda_min f_scalar_old slope f_decrease_factor s =
        .done { outcome := .finished true s.lambda (candidate x_old direction s.lambda s.x_new)
                  (F_vec (candidate x_old direction s.lambda s.x_new)),
                evals := s.evals ++ [candidate x_old direction s.lambda s.x_new],
                lambdas := s.lambdas ++ [s.lambda] }) ∨
    (¬ (s.lambda : WithTop ℚ) < lambda_min ∧
      f_scalar (F_vec (candidate x_old direction s.lambda s.x_new)) ≤
        f_scalar_old + f_decrease_factor * s.lambda * slope ∧
      loop_body sqrt F_vec x_old direction lambda_min f_scalar_old slope f_decrease_factor s =
        .done { outcome := .finished false s.lambda (candidate x_old direction s.lambda s.x_new)
                  (F_vec (candidate x_old direction s.lambda s.x_new)),
                evals := s.evals ++ [candidate x_old direction s.lambda s.x_new],
                lambdas := s.lambdas ++ [s.lambda] }) ∨
    (¬ (s.lambda : WithTop ℚ) < lambda_min ∧
      ¬ f_scalar (F_vec (candidate x_old direction s.lambda s.x_new)) ≤
        f_scalar_old + f_decrease_factor * s.lambda * slope ∧
      temporary_lambda sqrt slope f_scalar_old
        (f_scalar (F_vec (candidate x_old direction s.lambda s.x_new)))
        s.f_scalar_2 s.lambda s.lambda_2 = none ∧
      loop_body sqrt F_vec x_old direction lambda_min f_scalar_old slope f_decrease_factor s =
        .done { outcome := .nonfinite,
                evals := s.evals ++ [candidate x_old direction s.lambda s.x_new],
                lambdas := s.lambdas ++ [s.lambda] }) ∨
    (∃ t : ℚ, ¬ (s.lambda : WithTop ℚ) < lambda_min ∧
      ¬ f_scalar (F_vec (candidate x_old direction s.lambda s.x_new)) ≤
        f_scalar_old + f_decrease_factor * s.lambda * slope ∧
      temporary_lambda sqrt slope f_scalar_old
        (f_scalar (F_vec (candidate x_old direction s.lambda s.x_new)))
        s.f_scalar_2 s.lambda s.lambda_2 = some t ∧
      loop_body sqrt F_vec x_old direction lambda_min f_scalar_old slope f_decrease_factor s =
        .again { lambda := max t (0.1 * s.lambda), lambda_2 := s.lambda,
                 f_scalar_2 := f_scalar (F_vec (candidate x_old direction s.lambda s.x_new)),
                 x_new := candidate x_old direction s.lambda s.x_new,
                 F_vec_new := F_vec (candidate x_old direction s.lambda s.x_new),
                 evals := s.evals ++ [candidate x_old direction s.lambda s.x_new],
                 lambdas := s.lambdas ++ [s.lambda] }) := by
  by_cases h1 : (s.lambda : WithTop ℚ) < lambda_min
  · left
    exact ⟨h1, by simp [loop_body, h1]⟩
  · right
    by_cases h2 : f_scalar (F_vec (candidate x_old direction s.lambda s.x_new)) ≤
        f_scalar_old + f_decrease_factor * s.lambda * slope
    · left
      exact ⟨h1, h2, by simp [loop_body, h1, h2]⟩
    · right
      cases h3 : temporary_lambda sqrt slope f_scalar_old
          (f_scalar (F_vec (candidate x_old direction s.lambda s.x_new)))
          s.f_scalar_2 s.lambda s.lambda_2 with
      | none =>
        left
        exact ⟨h1, h2, rfl, by simp [loop_body, h1, h2, h3]⟩
      | some t =>
        right
        exact ⟨t, h1, h2, rfl, by simp [loop_body, h1, h2, h3]⟩

end LoopLemmas

section AdjustLemmas
variable {n : Nat} (F_vec : Vec n → Vec n) (lower_bounds upper_bounds guess dv : Vec n)

/-- A guess is not within the bounds exactly when one of its components is strictly outside. -/
theorem not_within_bounds_iff :
    ¬ within_bounds lower_bounds upper_bounds guess ↔
      ∃ i, guess i < lower_bounds i ∨ upper_bounds i < guess i := by
  unfold within_bounds
  constructor
  · intro h
    by_contra hc
    apply h
    intro i
    constructor
    · by_contra h1
      exact hc ⟨i, Or.inl (lt_of_not_le h1)⟩
    · by_contra h1
      exact hc ⟨i, Or.inr (lt_of_not_le h1)⟩
  · rintro ⟨i, hi⟩ h
    rcases hi with hi | hi
    · exact absurd (h i).1 (not_le_of_lt hi)
    · exact absurd (h i).2 (not_le_of_lt hi)

/-- A guess within the bounds is left alone. -/
theorem adjust_within (h : within_bounds lower_bounds upper_bounds guess) :
    adjust_bad_guess_limits F_vec lower_bounds upper_bounds guess dv =
      { out_of_bounds := false, guess := guess, difference_vector_at_guess := dv, evals := [] } := by
  have h1 : ¬ ∃ i, guess i < lower_bounds i ∨ upper_bounds i < guess i := by
    rw [← not_within_bounds_iff]; exact not_not.mpr h
  simp only [adjust_bad_guess_limits, h1, if_false]

/-- A guess with a component outside the bounds is clamped. -/
theorem adjust_outside (h : ¬ within_bounds lower_bounds upper_bounds guess) :
    ∃ clamped : Vec n,
      (∀ i, clamped i =
        if guess i < lower_bounds i then lower_bounds i
        else if upper_bounds i < guess i then upper_bounds i else guess i) ∧
      adjust_bad_guess_limits F_vec lower_bounds upper_bounds guess dv =
        { out_of_bounds := true, guess := clamped,
          difference_vector_at_guess := F_vec clamped, evals := [clamped] } := by
  have h1 : ∃ i, guess i < lower_bounds i ∨ upper_bounds i < guess i :=
    (not_within_bounds_iff lower_bounds upper_bounds guess).mp h
  refine ⟨_, fun i => rfl, ?_⟩
  simp only [adjust_bad_guess_limits, h1, if_true]

end AdjustLemmas

section SearchLemmas
variable {n : Nat} (sqrt : ℚ → ℚ) (fuel : Nat) (lower_bounds upper_bounds : Vec n)
  (min_step_factor f_decrease_factor : ℚ) (direction F_vec_old : Vec n) (jacobian : Mat n)
  (F_vec : Vec n → Vec n) (x_old F_vec_new : Vec n)

/-- The call with the full step out of bounds. -/
theorem search_outside (h : ¬ within_bounds lower_bounds upper_bounds (full_step x_old direction)) :
    ∃ clamped : Vec n,
      (∀ i, clamped i =
        if full_step x_old direction i < lower_bounds i then lower_bounds i
        else if upper_bounds i < full_step x_old direction i then upper_bounds i
        else full_step x_old direction i) ∧
      newton_raphson_line_search_boost sqrt fuel lower_bounds upper_bounds min_step_factor
        f_decrease_factor direction F_vec_old jacobian F_vec x_old F_vec_new =
        some { outcome := .out_of_bounds clamped (F_vec clamped), evals := [clamped],
               lambdas := [] } := by
  obtain ⟨clamped, hc, he⟩ := adjust_outside F_vec lower_bounds upper_bounds
    (full_step x_old direction) F_vec_new h
  refine ⟨clamped, hc, ?_⟩
  simp only [newton_raphson_line_search_boost, he, if_true]

/-- The call with the full step within the bounds and a non-negative slope. -/
theorem search_roundoff (h : within_bounds lower_bounds upper_bounds (full_step x_old direction))
    (hs : 0 ≤ slope_of direction F_vec_old jacobian) :
    newton_raphson_line_search_boost sqrt fuel lower_bounds upper_bounds min_step_factor
      f_decrease_factor direction F_vec_old jacobian F_vec x_old F_vec_new =
      some { outcome := .threw roundoff_message, evals := [], lambdas := [] } := by
  have he := adjust_within F_vec lower_bounds upper_bounds (full_step x_old direction) F_vec_new h
  simp [newton_raphson_line_search_boost, he, hs]

/-- The call with the full step within the bounds, a negative slope, and a component of
`lambda_mins` that is no number. -/
theorem search_nonfinite (h : within_bounds lower_bounds upper_bounds (full_step x_old direction))
    (hs : slope_of direction F_vec_old jacobian < 0)
    (hd : ¬ lambda_mins_defined min_step_factor direction x_old) :
    newton_raphson_line_search_boost sqrt fuel lower_bounds upper_bounds min_step_factor
      f_decrease_factor direction F_vec_old jacobian F_vec x_old F_vec_new =
      some { outcome := .nonfinite, evals := [], lambdas := [] } := by
  have he := adjust_within F_vec lower_bounds upper_bounds (full_step x_old direction) F_vec_new h
  simp [newton_raphson_line_search_boost, he, not_le.mpr hs, hd]

/-- The call that enters the loop. -/
theorem search_loop (h : within_bounds lower_bounds upper_bounds (full_step x_old direction))
    (hs : slope_of direction F_vec_old jacobian < 0)
    (hd : lambda_mins_defined min_step_factor direction x_old) :
    newton_raphson_line_search_boost sqrt fuel lower_bounds upper_bounds min_step_factor
      f_decrease_factor direction F_vec_old jacobian F_vec x_old F_vec_new =
      loop sqrt F_vec x_old direction (lambda_min min_step_factor direction x_old)
        (f_scalar F_vec_old) (slope_of direction F_vec_old jacobian) f_decrease_factor fuel
        (initial_state x_old direction F_vec_new) := by
  have he := adjust_within F_vec lower_bounds upper_bounds (full_step x_old direction) F_vec_new h
  simp [newton_raphson_line_search_boost, he, not_le.mpr hs, hd, initial_state]

end SearchLemmas

section BoxLemmas
variable {n : Nat} (lower_bounds upper_bounds x_old direction : Vec n)

/-- A clamped guess lies within the bounds. -/
theorem clamped_within (hb : ∀ i, lower_bounds i ≤ upper_bounds i) (guess clamped : Vec n)
    (hc : ∀ i, clamped i =
      if guess i < lower_bounds i then lower_bounds i
      else if upper_bounds i < guess i then upper_bounds i else guess i) :
    within_bounds lower_bounds upper_bounds clamped := by
  intro i
  rw [hc i]
  split
  · exact ⟨le_refl _, hb i⟩
  · split
    · exact ⟨hb i, le_refl _⟩
    · constructor
      · exact not_lt.mp (by assumption)
      · exact not_lt.mp (by assumption)

/-- A candidate of the loop lies within the bounds when `lambda` is positive: it is a point
of the segment from `x_old` to the full step. -/
theorem candidate_within (hx : within_bounds lower_bounds upper_bounds x_old)
    (hf : within_bounds lower_bounds upper_bounds (full_step x_old direction))
    (lambda : ℚ) (hl : 0 < lambda) (x_new : Vec n)
    (hn : within_bounds lower_bounds upper_bounds x_new) :
    within_bounds lower_bounds upper_bounds (candidate x_old direction lambda x_new) := by
  unfold candidate
  split
  · rename_i h1
    intro i
    have h2 := hx i
    have h3 := hf i
    simp only [full_step] at h3
    constructor
    · show lower_bounds i ≤ x_old i + lambda * direction i
      nlinarith [mul_nonneg hl.le (sub_nonneg.mpr h3.1),
        mul_nonneg (sub_nonneg.mpr h1.le) (sub_nonneg.mpr h2.1)]
    · show x_old i + lambda * direction i ≤ upper_bounds i
      nlinarith [mul_nonneg hl.le (sub_nonneg.mpr h3.2),
        mul_nonneg (sub_nonneg.mpr h1.le) (sub_nonneg.mpr h2.2)]
  · exact hn

end BoxLemmas

section FirstPass
variable {n : Nat} (sqrt : ℚ → ℚ) (fuel : Nat) (lower_bounds upper_bounds : Vec n)
  (min_step_factor f_decrease_factor : ℚ) (direction F_vec_old : Vec n) (jacobian : Mat n)
  (F_vec : Vec n → Vec n) (x_old F_vec_new : Vec n)

/-- In the first pass (`lambda = 1`) the guess is the content of `x_new` as it is. -/
theorem candidate_one (x_new : Vec n) : candidate x_old direction 1 x_new = x_new := by
  simp [candidate]

/-- The call whose first pass stalls: the full step is the output. -/
theorem search_stall_full_step
    (h : within_bounds lower_bounds upper_bounds (full_step x_old direction))
    (hs : slope_of direction F_vec_old jacobian < 0)
    (hd : lambda_mins_defined min_step_factor direction x_old)
    (hm : (1 : WithTop ℚ) < lambda_min min_step_factor direction x_old) :
    newton_raphson_line_search_boost sqrt (fuel + 1) lower_bounds upper_bounds min_step_factor
      f_decrease_factor direction F_vec_old jacobian F_vec x_old F_vec_new =
      some { outcome := .finished true 1 (full_step x_old direction)
               (F_vec (full_step x_old direction)),
             evals := [full_step x_old direction], lambdas := [1] } := by
  rw [search_loop sqrt (fuel + 1) lower_bounds upper_bounds min_step_factor f_decrease_factor
    direction F_vec_old jacobian F_vec x_old F_vec_new h hs hd, loop]
  simp [loop_body, initial_state, candidate_one, hm]

/-- The call whose first pass accepts the full step. -/
theorem search_accept_full_step
    (h : within_bounds lower_bounds upper_bounds (full_step x_old direction))
    (hs : slope_of direction F_vec_old jacobian < 0)
    (hd : lambda_mins_defined min_step_factor direction x_old)
    (hm : ¬ (1 : WithTop ℚ) < lambda_min min_step_factor direction x_old)
    (ha : f_scalar (F_vec (full_step x_old direction)) ≤
      f_scalar F_vec_old + f_decrease_factor * 1 * slope_of direction F_vec_old jacobian) :
    newton_raphson_line_search_boost sqrt (fuel + 1) lower_bounds upper_bounds min_step_factor
      f_decrease_factor direction F_vec_old jacobian F_vec x_old F_vec_new =
      some { outcome := .finished false 1 (full_step x_old direction)
               (F_vec (full_step x_old direction)),
             evals := [full_step x_old direction], lambdas := [1] } := by
  rw [search_loop sqrt (fuel + 1) lower_bounds upper_bounds min_step_factor f_decrease_factor
    direction F_vec_old jacobian F_vec x_old F_vec_new h hs hd, loop]
  simp only [mul_one] at ha
  simp [loop_body, initial_state, candidate_one, hm, ha]

end FirstPass

section Decrease
variable {n : Nat} (sqrt : ℚ → ℚ) (fuel : Nat) (lower_bounds upper_bounds : Vec n)
  (min_step_factor f_decrease_factor : ℚ) (direction F_vec_old : Vec n) (jacobian : Mat n)
  (F_vec : Vec n → Vec n) (x_old F_vec_new : Vec n)

/-- The step fraction handed to the next pass is positive when this pass had a positive one. -/
theorem next_lambda_pos (t lambda : ℚ) (hl : 0 < lambda) : 0 < max t (0.1 * lambda) := by
  have : 0 < 0.1 * lambda := by linarith
  exact lt_of_lt_of_le this (le_max_right _ _)

/-- A run that ends in `finished` went through the loop: the slope was negative, the last
step fraction is positive, and an accepted candidate met the test of line 215. -/
theorem finished_run (r : Run n) (b : Bool) (lambda : ℚ) (x_new F_new : Vec n)
    (hr : newton_raphson_line_search_boost sqrt fuel lower_bounds upper_bounds min_step_factor
      f_decrease_factor direction F_vec_old jacobian F_vec x_old F_vec_new = some r)
    (hf : r.outcome = .finished b lambda x_new F_new) :
    slope_of direction F_vec_old jacobian < 0 ∧ 0 < lambda ∧
    (b = false → f_scalar F_new ≤ f_scalar F_vec_old +
      f_decrease_factor * lambda * slope_of direction F_vec_old jacobian) := by
  by_cases hw : within_bounds lower_bounds upper_bounds (full_step x_old direction)
  · by_cases hs : slope_of direction F_vec_old jacobian < 0
    · by_cases hd : lambda_mins_defined min_step_factor direction x_old
      · rw [search_loop sqrt fuel lower_bounds upper_bounds min_step_factor f_decrease_factor
          direction F_vec_old jacobian F_vec x_old F_vec_new hw hs hd] at hr
        refine ⟨hs, ?_⟩
        refine loop_invariant sqrt F_vec x_old direction
          (lambda_min min_step_factor direction x_old) (f_scalar F_vec_old)
          (slope_of direction F_vec_old jacobian) f_decrease_factor
          (fun s => 0 < s.lambda)
          (fun r => ∀ b lambda x_new F_new, r.outcome = .finished b lambda x_new F_new →
            0 < lambda ∧ (b = false → f_scalar F_new ≤ f_scalar F_vec_old +
              f_decrease_factor * lambda * slope_of direction F_vec_old jacobian))
          ?_ ?_ fuel (initial_state x_old direction F_vec_new) r ?_ hr b lambda x_new F_new hf
        · intro s r1 hl hbody b1 l1 x1 F1 h1
          rcases loop_body_cases sqrt F_vec x_old direction
            (lambda_min min_step_factor direction x_old) (f_scalar F_vec_old)
            (slope_of direction F_vec_old jacobian) f_decrease_factor s with
            ⟨_, h⟩ | ⟨_, ha, h⟩ | ⟨_, _, _, h⟩ | ⟨t, _, _, _, h⟩
          · rw [h] at hbody
            cases hbody
            cases h1
            exact ⟨hl, fun hc => by cases hc⟩
          · rw [h] at hbody
            cases hbody
            cases h1
            exact ⟨hl, fun _ => ha⟩
          · rw [h] at hbody
            cases hbody
            cases h1
          · rw [h] at hbody
            cases hbody
        · intro s s1 hl hbody
          rcases loop_body_cases sqrt F_vec x_old direction
            (lambda_min min_step_factor direction x_old) (f_scalar F_vec_old)
            (slope_of direction F_vec_old jacobian) f_decrease_factor s with
            ⟨_, h⟩ | ⟨_, _, h⟩ | ⟨_, _, _, h⟩ | ⟨t, _, _, _, h⟩
          all_goals rw [h] at hbody
          all_goals cases hbody
          exact next_lambda_pos t s.lambda hl
        · simp [initial_state]
      · rw [search_nonfinite sqrt fuel lower_bounds upper_bounds min_step_factor
          f_decrease_factor direction F_vec_old jacobian F_vec x_old F_vec_new hw hs hd] at hr
        cases hr
        cases hf
    · rw [search_roundoff sqrt fuel lower_bounds upper_bounds min_step_factor f_decrease_factor
        direction F_vec_old jacobian F_vec x_old F_vec_new hw (not_lt.mp hs)] at hr
      cases hr
      cases hf
  · obtain ⟨clamped, _, he⟩ := search_outside sqrt fuel lower_bounds upper_bounds
      min_step_factor f_decrease_factor direction F_vec_old jacobian F_vec x_old F_vec_new hw
    rw [he] at hr
    cases hr
    cases hf

end Decrease

section Outcomes
variable {n : Nat} (sqrt : ℚ → ℚ) (F_vec : Vec n → Vec n) (x_old direction : Vec n)
  (lambda_min : WithTop ℚ) (f_scalar_old slope f_decrease_factor : ℚ)

/-- A run of the loop ends with a division by zero or in `finished`; in the latter case the
last step fraction tried is the final `lambda`, and the flag tells whether it was below the
floor. -/
theorem loop_outcome (fuel : Nat) (s : LoopState n) (r : Run n)
    (hr : loop sqrt F_vec x_old direction lambda_min f_scalar_old slope f_decrease_factor fuel s
      = some r) :
    r.outcome = .nonfinite ∨
    ∃ (b : Bool) (lambda : ℚ) (x_new F_new : Vec n),
      r.outcome = .finished b lambda x_new F_new ∧ r.lambdas.getLast? = some lambda ∧
      (b = true ↔ (lambda : WithTop ℚ) < lambda_min) := by
  refine loop_invariant sqrt F_vec x_old direction lambda_min f_scalar_old slope
    f_decrease_factor (fun _ => True)
    (fun r => r.outcome = .nonfinite ∨
      ∃ (b : Bool) (lambda : ℚ) (x_new F_new : Vec n),
        r.outcome = .finished b lambda x_new F_new ∧ r.lambdas.getLast? = some lambda ∧
        (b = true ↔ (lambda : WithTop ℚ) < lambda_min))
    ?_ ?_ fuel s r trivial hr
  · intro s r1 _ hbody
    rcases loop_body_cases sqrt F_vec x_old direction lambda_min f_scalar_old slope
      f_decrease_factor s with ⟨hm, h⟩ | ⟨hm, _, h⟩ | ⟨_, _, _, h⟩ | ⟨t, _, _, _, h⟩
    · rw [h] at hbody
      cases hbody
      exact Or.inr ⟨true, s.lambda, _, _, rfl, by simp, by simp [hm]⟩
    · rw [h] at hbody
      cases hbody
      exact Or.inr ⟨false, s.lambda, _, _, rfl, by simp, by simp [hm]⟩
    · rw [h] at hbody
      cases hbody
      exact Or.inl rfl
    · rw [h] at hbody
      cases hbody
  · intro _ _ _ _
    trivial

end Outcomes

section Paths
variable {n : Nat} (sqrt : ℚ → ℚ) (fuel : Nat) (lower_bounds upper_bounds : Vec n)
  (min_step_factor f_decrease_factor : ℚ) (direction F_vec_old : Vec n) (jacobian : Mat n)
  (F_vec : Vec n → Vec n) (x_old F_vec_new : Vec n)

/-- The four paths through `newton_raphson_line_search_boost`. -/
theorem search_cases :
    (¬ within_bounds lower_bounds upper_bounds (full_step x_old direction) ∧
      ∃ clamped : Vec n,
        (∀ i, clamped i =
          if full_step x_old direction i < lower_bounds i then lower_bounds i
          else if upper_bounds i < full_step x_old direction i then upper_bounds i
          else full_step x_old direction i) ∧
        newton_raphson_line_search_boost sqrt fuel lower_bounds upper_bounds min_step_factor
          f_decrease_factor direction F_vec_old jacobian F_vec x_old F_vec_new =
          some { outcome := .out_of_bounds clamped (F_vec clamped), evals := [clamped],
                 lambdas := [] }) ∨
    (within_bounds lower_bounds upper_bounds (full_step x_old direction) ∧
      0 ≤ slope_of direction F_vec_old jacobian ∧
      newton_raphson_line_search_boost sqrt fuel lower_bounds upper_bounds min_step_factor
        f_decrease_factor direction F_vec_old jacobian F_vec x_old F_vec_new =
        some { outcome := .threw roundoff_message, evals := [], lambdas := [] }) ∨
    (within_bounds lower_bounds upper_bounds (full_step x_old direction) ∧
      slope_of direction F_vec_old jacobian < 0 ∧
      ¬ lambda_mins_defined min_step_factor direction x_old ∧
      newton_raphson_line_search_boost sqrt fuel lower_bounds upper_bounds min_step_factor
        f_decrease_factor direction F_vec_old jacobian F_vec x_old F_vec_new =
        some { outcome := .nonfinite, evals := [], lambdas := [] }) ∨
    (within_bounds lower_bounds upper_bounds (full_step x_old direction) ∧
      slope_of direction F_vec_old jacobian < 0 ∧
      lambda_mins_defined min_step_factor direction x_old ∧
      newton_raphson_line_search_boost sqrt fuel lower_bounds upper_bounds min_step_factor
        f_decrease_factor direction F_vec_old jacobian F_vec x_old F_vec_new =
        loop sqrt F_vec x_old direction (lambda_min min_step_factor direction x_old)
          (f_scalar F_vec_old) (slope_of direction F_vec_old jacobian) f_decrease_factor fuel
          (initial_state x_old direction F_vec_new)) := by
  by_cases hw : within_bounds lower_bounds upper_bounds (full_step x_old direction)
  · right
    by_cases hs : slope_of direction F_vec_old jacobian < 0
    · right
      by_cases hd : lambda_mins_defined min_step_factor direction x_old
      · right
        exact ⟨hw, hs, hd, search_loop sqrt fuel lower_bounds upper_bounds min_step_factor
          f_decrease_factor direction F_vec_old jacobian F_vec x_old F_vec_new hw hs hd⟩
      · left
        exact ⟨hw, hs, hd, search_nonfinite sqrt fuel lower_bounds upper_bounds min_step_factor
          f_decrease_factor direction F_vec_old jacobian F_vec x_old F_vec_new hw hs hd⟩
    · left
      exact ⟨hw, not_lt.mp hs, search_roundoff sqrt fuel lower_bounds upper_bounds
        min_step_factor f_decrease_factor direction F_vec_old jacobian F_vec x_old F_vec_new hw
        (not_lt.mp hs)⟩
  · left
    exact ⟨hw, search_outside sqrt fuel lower_bounds upper_bounds min_step_factor
      f_decrease_factor direction F_vec_old jacobian F_vec x_old F_vec_new hw⟩

end Paths

section Backtrack
variable (sqrt : ℚ → ℚ) (slope f_scalar_old f_scalar_new f_scalar_2 lambda lambda_2 c : ℚ)

/-- After a rejected full step the quadratic formula has a non-zero divisor, and for
`f_decrease_factor < 1/2` its value is below `1`. -/
theorem temporary_lambda_first (hs : slope < 0) (hc : c < 1 / 2)
    (hrej : ¬ f_scalar_new ≤ f_scalar_old + c * 1 * slope) :
    ∃ t : ℚ, temporary_lambda sqrt slope f_scalar_old f_scalar_new f_scalar_2 1 lambda_2
      = some t ∧ t < 1 := by
  have h1 : f_scalar_old + c * slope < f_scalar_new := by
    have := not_le.mp hrej
    linarith
  have h2 : -slope < 2 * (f_scalar_new - f_scalar_old - slope) := by nlinarith
  have h3 : 0 < 2 * (f_scalar_new - f_scalar_old - slope) := by linarith
  refine ⟨-slope / (2 * (f_scalar_new - f_scalar_old - slope)), ?_, ?_⟩
  · simp [temporary_lambda, ne_of_gt h3]
  · rw [div_lt_one h3]
    exact h2

/-- When the coefficient `a` vanishes, the coefficient `b` is `rhs1 / lambda^2`. -/
theorem coefficient_b_of_a_zero (rhs1 rhs2 : ℚ) (hne : lambda - lambda_2 ≠ 0)
    (ha : coefficient_a rhs1 rhs2 lambda lambda_2 = 0) :
    coefficient_b rhs1 rhs2 lambda lambda_2 = rhs1 / (lambda * lambda) := by
  unfold coefficient_a at ha
  unfold coefficient_b
  have h1 : rhs1 / (lambda * lambda) - rhs2 / (lambda_2 * lambda_2) = 0 := by
    rcases div_eq_zero_iff.mp ha with h | h
    · exact h
    · exact absurd h hne
  have h2 : rhs2 / (lambda_2 * lambda_2) = rhs1 / (lambda * lambda) := by linarith
  rw [mul_div_assoc, mul_div_assoc, h2, div_eq_iff hne]
  ring

end Backtrack

section Termination
variable {n : Nat} (sqrt : ℚ → ℚ) (F_vec : Vec n → Vec n) (x_old direction : Vec n)
  (lambda_min : WithTop ℚ) (f_scalar_old slope c : ℚ)

end Termination

/-- With a positive `min_step_factor` every component of `lambda_mins` is a positive number
or `+inf`. -/
theorem lambda_mins_defined_of_pos {n : Nat} (min_step_factor : ℚ) (direction x_old : Vec n)
    (hm : 0 < min_step_factor) : lambda_mins_defined min_step_factor direction x_old := by
  intro i _
  exact mul_pos hm (lt_of_lt_of_le one_pos (le_max_right _ _))

/-- Between the wilting point and the field capacity the result of `do_operation` is the
straight line through `(soil_wilting_point, StomataWS_min)` and `(soil_field_capacity, 1)`. -/
theorem do_operation_middle (soil_field_capacity soil_wilting_point soil_water_content
    StomataWS_min : ℚ) (h1 : soil_wilting_point ≤ soil_water_content)
    (h2 : soil_water_content < soil_field_capacity) :
    ed_stomata_water_stress_linear.do_operation soil_field_capacity soil_wilting_point
        soil_water_content StomataWS_min =
      StomataWS_min + (1 - StomataWS_min) * (soil_water_content - soil_wilting_point) /
        (soil_field_capacity - soil_wilting_point) := by
  have h3 : soil_field_capacity - soil_wilting_point ≠ 0 := by
    intro h
    linarith
  unfold ed_stomata_water_stress_linear.do_operation
  rw [if_neg (not_lt.mpr h1), if_pos h2]
  simp only
  field_simp
  ring

/-- At or above the field capacity, itself at or above the wilting point, the result of
`do_operation` is `1`. -/
theorem do_operation_top (soil_field_capacity soil_wilting_point soil_water_content
    StomataWS_min : ℚ) (h1 : soil_wilting_point ≤ soil_field_capacity)
    (h2 : soil_field_capacity ≤ soil_water_content) :
    ed_stomata_water_stress_linear.do_operation soil_field_capacity soil_wilting_point
        soil_water_content StomataWS_min = 1 := by
  unfold ed_stomata_water_stress_linear.do_operation
  rw [if_neg (not_lt.mpr (le_trans h1 h2)), if_neg (not_lt.mpr h2)]
  norm_num

/-- Below the wilting point the result of `do_operation` is `StomataWS_min`. -/
theorem do_operation_below (soil_field_capacity soil_wilting_point soil_water_content
    StomataWS_min : ℚ) (h : soil_water_content < soil_wilting_point) :
    ed_stomata_water_stress_linear.do_operation soil_field_capacity soil_wilting_point
        soil_water_content StomataWS_min =
      StomataWS_min := by
  unfold ed_stomata_water_stress_linear.do_operation
  rw [if_pos h]

/-! ## The interpolation formulas -/

/-- After a rejected full step, with `slope < 0` and `f_decrease_factor <= 1`, the leading
coefficient `f_scalar_new - f_scalar_old - slope` of the interpolating quadratic is positive. -/
theorem leading_coefficient_pos (slope f_scalar_old f_scalar_new c : ℚ) (hs : slope < 0)
    (hc : c ≤ 1) (hrej : ¬ f_scalar_new ≤ f_scalar_old + c * 1 * slope) :
    0 < f_scalar_new - f_scalar_old - slope := by
  have h1 := not_le.mp hrej
  have h2 : 0 ≤ (c - 1) * slope := mul_nonneg_of_nonpos_of_nonpos (by linarith) hs.le
  nlinarith

/-- A polynomial of degree at most two is `coeff 0 + coeff 1 * t + coeff 2 * t^2`. -/
theorem eval_quadratic (q : Polynomial ℚ) (hq : q.natDegree ≤ 2) (t : ℚ) :
    q.eval t = q.coeff 0 + q.coeff 1 * t + q.coeff 2 * t ^ 2 := by
  rw [Polynomial.eval_eq_sum_range' (Nat.lt_succ_of_le hq)]
  simp [Finset.sum_range_succ]

/-- The coefficients of the quadratic with `q(0) = f_scalar_old`, `q'(0) = slope` and
`q(1) = f_scalar_new`. -/
theorem quadratic_coefficients (q : Polynomial ℚ) (hq : q.natDegree ≤ 2)
    (slope f_scalar_old f_scalar_new : ℚ) (h0 : q.eval 0 = f_scalar_old)
    (hd : (Polynomial.derivative q).eval 0 = slope) (h1 : q.eval 1 = f_scalar_new) :
    q.coeff 0 = f_scalar_old ∧ q.coeff 1 = slope ∧
    q.coeff 2 = f_scalar_new - f_scalar_old - slope := by
  have e0 : q.coeff 0 = f_scalar_old := by
    rw [← h0, eval_quadratic q hq]
    ring
  have e1 : q.coeff 1 = slope := by
    rw [← hd, ← Polynomial.coeff_zero_eq_eval_zero, Polynomial.coeff_derivative]
    simp
  refine ⟨e0, e1, ?_⟩
  have := eval_quadratic q hq 1
  rw [h1, e0, e1] at this
  linarith

/-- The square of the distance of two different numbers is positive. -/
theorem pow_pos_of_ne_zero_sq (t u : ℚ) (h : t ≠ u) : 0 < (t - u) ^ 2 := by
  have : t - u ≠ 0 := sub_ne_zero.mpr h
  positivity

/-! ## The step fractions of a run -/

/-- How the step fraction `next` follows the rejected step fraction `prev`: it is at least
`0.1 * prev`; after a fraction other than the full step it is at most `0.5 * prev`; after the
full step, for `f_decrease_factor < 1`, it is at most the larger of `0.1` and
`1 / (2 * (1 - f_decrease_factor))`. -/
theorem next_lambda_bounds (sqrt : ℚ → ℚ)
    (slope f_scalar_old f_scalar_new f_scalar_2 lambda lambda_2 c t : ℚ)
    (hs : slope < 0) (hl : 0 < lambda)
    (hrej : ¬ f_scalar_new ≤ f_scalar_old + c * lambda * slope)
    (ht : temporary_lambda sqrt slope f_scalar_old f_scalar_new f_scalar_2 lambda lambda_2
      = some t) :
    0.1 * lambda ≤ max t (0.1 * lambda) ∧
    (lambda ≠ 1 → max t (0.1 * lambda) ≤ 0.5 * lambda) ∧
    (lambda = 1 → c < 1 → max t (0.1 * lambda) ≤ max 0.1 (1 / (2 * (1 - c)))) := by
  refine ⟨le_max_right _ _, ?_, ?_⟩
  · intro hne
    unfold temporary_lambda at ht
    rw [if_neg hne] at ht
    split at ht
    · cases ht
    · rw [Option.map_eq_some'] at ht
      obtain ⟨u, _, hu⟩ := ht
      rw [← hu]
      exact max_le (min_le_right _ _) (by linarith)
  · intro h1 hc
    subst h1
    have hA := leading_coefficient_pos slope f_scalar_old f_scalar_new c hs hc.le hrej
    have hrej1 := not_le.mp hrej
    unfold temporary_lambda at ht
    rw [if_pos rfl, if_neg (by intro h; linarith)] at ht
    cases ht
    have hc1 : 0 < 2 * (1 - c) := by linarith
    have hden : 0 < 2 * (f_scalar_new - f_scalar_old - slope) := by linarith
    have ht1 : -slope / (2 * (f_scalar_new - f_scalar_old - slope)) ≤ 1 / (2 * (1 - c)) := by
      rw [div_le_div_iff₀ hden hc1]
      nlinarith
    rw [mul_one]
    exact max_le (le_trans ht1 (le_max_right _ _)) (le_max_left _ _)

section Steps
variable {n : Nat} (sqrt : ℚ → ℚ) (fuel : Nat) (lower_bounds upper_bounds : Vec n)
  (min_step_factor f_decrease_factor : ℚ) (direction F_vec_old : Vec n) (jacobian : Mat n)
  (F_vec : Vec n → Vec n) (x_old F_vec_new : Vec n)

/-- The step fractions of a run: each follows the one before within the clamps of
`next_lambda_bounds`, every fraction but the last one is at or above the floor `lambda_min`,
and all are positive. -/
theorem run_steps (r : Run n)
    (hr : newton_raphson_line_search_boost sqrt fuel lower_bounds upper_bounds min_step_factor
      f_decrease_factor direction F_vec_old jacobian F_vec x_old F_vec_new = some r) :
    r.lambdas.Chain' (fun prev next =>
      0.1 * prev ≤ next ∧ (prev ≠ 1 → next ≤ 0.5 * prev) ∧
      (prev = 1 → f_decrease_factor < 1 →
        next ≤ max 0.1 (1 / (2 * (1 - f_decrease_factor))))) ∧
    (∀ l ∈ r.lambdas.dropLast, lambda_min min_step_factor direction x_old ≤ (l : WithTop ℚ)) ∧
    (∀ l ∈ r.lambdas, 0 < l) := by
  rcases search_cases sqrt fuel lower_bounds upper_bounds min_step_factor f_decrease_factor
    direction F_vec_old jacobian F_vec x_old F_vec_new with
    ⟨_, c, _, h⟩ | ⟨_, _, h⟩ | ⟨_, _, _, h⟩ | ⟨_, hs, _, h⟩
  · rw [h] at hr
    cases hr
    simp
  · rw [h] at hr
    cases hr
    simp
  · rw [h] at hr
    cases hr
    simp
  · rw [h] at hr
    refine loop_invariant sqrt F_vec x_old direction (lambda_min min_step_factor direction x_old)
      (f_scalar F_vec_old) (slope_of direction F_vec_old jacobian) f_decrease_factor
      (fun s => 0 < s.lambda ∧
        (s.lambdas ++ [s.lambda]).Chain' (fun prev next =>
          0.1 * prev ≤ next ∧ (prev ≠ 1 → next ≤ 0.5 * prev) ∧
          (prev = 1 → f_decrease_factor < 1 →
            next ≤ max 0.1 (1 / (2 * (1 - f_decrease_factor))))) ∧
        (∀ l ∈ s.lambdas, lambda_min min_step_factor direction x_old ≤ (l : WithTop ℚ)) ∧
        (∀ l ∈ s.lambdas, 0 < l))
      (fun r => r.lambdas.Chain' (fun prev next =>
          0.1 * prev ≤ next ∧ (prev ≠ 1 → next ≤ 0.5 * prev) ∧
          (prev = 1 → f_decrease_factor < 1 →
            next ≤ max 0.1 (1 / (2 * (1 - f_decrease_factor))))) ∧
        (∀ l ∈ r.lambdas.dropLast,
          lambda_min min_step_factor direction x_old ≤ (l : WithTop ℚ)) ∧
        (∀ l ∈ r.lambdas, 0 < l))
      ?_ ?_ fuel (initial_state x_old direction F_vec_new) r ?_ hr
    · intro s r1 ⟨hpos, hchain, hfloor, hall⟩ hbody
      have hlast : ∀ l ∈ s.lambdas ++ [s.lambda], 0 < l := by
        intro l hl
        rw [List.mem_append, List.mem_singleton] at hl
        rcases hl with hl | hl
        · exact hall l hl
        · rw [hl]
          exact hpos
      rcases loop_body_cases sqrt F_vec x_old direction
        (lambda_min min_step_factor direction x_old) (f_scalar F_vec_old)
        (slope_of direction F_vec_old jacobian) f_decrease_factor s with
        ⟨_, h1⟩ | ⟨_, _, h1⟩ | ⟨_, _, _, h1⟩ | ⟨t, _, _, _, h1⟩
      · rw [h1] at hbody
        cases hbody
        exact ⟨hchain, by simpa using hfloor, hlast⟩
      · rw [h1] at hbody
        cases hbody
        exact ⟨hchain, by simpa using hfloor, hlast⟩
      · rw [h1] at hbody
        cases hbody
        exact ⟨hchain, by simpa using hfloor, hlast⟩
      · rw [h1] at hbody
        cases hbody
    · intro s s1 ⟨hpos, hchain, hfloor, hall⟩ hbody
      rcases loop_body_cases sqrt F_vec x_old direction
        (lambda_min min_step_factor direction x_old) (f_scalar F_vec_old)
        (slope_of direction F_vec_old jacobian) f_decrease_factor s with
        ⟨_, h1⟩ | ⟨_, _, h1⟩ | ⟨_, _, _, h1⟩ | ⟨t, hm, hrej, ht, h1⟩
      · rw [h1] at hbody
        cases hbody
      · rw [h1] at hbody
        cases hbody
      · rw [h1] at hbody
        cases hbody
      · rw [h1] at hbody
        cases hbody
        have hb := next_lambda_bounds sqrt (slope_of direction F_vec_old jacobian)
          (f_scalar F_vec_old) _ s.f_scalar_2 s.lambda s.lambda_2 f_decrease_factor t hs hpos
          hrej ht
        refine ⟨next_lambda_pos t s.lambda hpos, ?_, ?_, ?_⟩
        · rw [List.chain'_append]
          refine ⟨hchain, List.chain'_singleton _, ?_⟩
          intro x hx y hy
          rw [List.getLast?_concat] at hx
          simp only [Option.mem_def, Option.some.injEq, List.head?_cons] at hx hy
          subst hx hy
          exact hb
        · intro l hl
          rw [List.mem_append, List.mem_singleton] at hl
          rcases hl with hl | hl
          · exact hfloor l hl
          · rw [hl]
            exact not_lt.mp hm
        · intro l hl
          rw [List.mem_append, List.mem_singleton] at hl
          rcases hl with hl | hl
          · exact hall l hl
          · rw [hl]
            exact hpos
    · simp [initial_state]

end Steps

/-! ## Single passes of the loop -/

section Passes
variable {n : Nat} (sqrt : ℚ → ℚ) (F_vec : Vec n → Vec n) (x_old direction : Vec n)
  (lambda_min : WithTop ℚ) (f_scalar_old slope f_decrease_factor : ℚ) (fuel : Nat)

/-- A pass whose step fraction is below the floor ends the loop with a stall. -/
theorem loop_stall (s : LoopState n) (hm : (s.lambda : WithTop ℚ) < lambda_min) :
    loop sqrt F_vec x_old direction lambda_min f_scalar_old slope f_decrease_factor (fuel + 1) s =
      some { outcome := .finished true s.lambda (candidate x_old direction s.lambda s.x_new)
               (F_vec (candidate x_old direction s.lambda s.x_new)),
             evals := s.evals ++ [candidate x_old direction s.lambda s.x_new],
             lambdas := s.lambdas ++ [s.lambda] } := by
  simp [loop, loop_body, hm]

/-- A pass whose candidate meets the decrease test ends the loop with an accepted step. -/
theorem loop_accept (s : LoopState n) (hm : ¬ (s.lambda : WithTop ℚ) < lambda_min)
    (ha : f_scalar (F_vec (candidate x_old direction s.lambda s.x_new)) ≤
      f_scalar_old + f_decrease_factor * s.lambda * slope) :
    loop sqrt F_vec x_old direction lambda_min f_scalar_old slope f_decrease_factor (fuel + 1) s =
      some { outcome := .finished false s.lambda (candidate x_old direction s.lambda s.x_new)
               (F_vec (candidate x_old direction s.lambda s.x_new)),
             evals := s.evals ++ [candidate x_old direction s.lambda s.x_new],
             lambdas := s.lambdas ++ [s.lambda] } := by
  simp [loop, loop_body, hm, ha]

/-- A pass whose candidate is rejected hands the next step fraction to the next pass. -/
theorem loop_reject (s : LoopState n) (t : ℚ) (hm : ¬ (s.lambda : WithTop ℚ) < lambda_min)
    (hrej : ¬ f_scalar (F_vec (candidate x_old direction s.lambda s.x_new)) ≤
      f_scalar_old + f_decrease_factor * s.lambda * slope)
    (ht : temporary_lambda sqrt slope f_scalar_old
      (f_scalar (F_vec (candidate x_old direction s.lambda s.x_new)))
      s.f_scalar_2 s.lambda s.lambda_2 = some t) :
    loop sqrt F_vec x_old direction lambda_min f_scalar_old slope f_decrease_factor (fuel + 1) s =
      loop sqrt F_vec x_old direction lambda_min f_scalar_old slope f_decrease_factor fuel
        { lambda := max t (0.1 * s.lambda), lambda_2 := s.lambda,
          f_scalar_2 := f_scalar (F_vec (candidate x_old direction s.lambda s.x_new)),
          x_new := candidate x_old direction s.lambda s.x_new,
          F_vec_new := F_vec (candidate x_old direction s.lambda s.x_new),
          evals := s.evals ++ [candidate x_old direction s.lambda s.x_new],
          lambdas := s.lambdas ++ [s.lambda] } := by
  rw [loop]
  simp [loop_body, hm, hrej, ht]

end Passes

/-! ## The loop of c4photoC -/

/-- The net assimilation before pass `k + 1` of a list of passes is the one before pass `k`
of its tail, started from the `Assim` of its head. -/
theorem assim_before_cons (old : ℚ) (p : c4_vars) (ps : List c4_vars) (k : Nat) :
    assim_before old (p :: ps) (k + 1) = assim_before p.Assim ps k := by
  cases k with
  | zero => rfl
  | succ j => rfl

/-- What one pass leaves in the loop variables: the counter is unchanged, `diff` is the
absolute change of `Assim`, `OldAssim` is the new `Assim`, and past the counter value `40` the
conductance is `bb0 * 1e3`. -/
theorem c4_body_facts (e : c4photo_externals) (a : c4photoC_arguments) (v : c4_vars) :
    (c4_body e a v).iterCounter = v.iterCounter ∧
    (c4_body e a v).diff = |v.OldAssim - (c4_body e a v).Assim| ∧
    (c4_body e a v).OldAssim = (c4_body e a v).Assim ∧
    (max_iterations - 10 < v.iterCounter → (c4_body e a v).Gs = a.bb0 * 1e3) := by
  refine ⟨rfl, rfl, rfl, ?_⟩
  intro h
  simp [c4_body, h]

/-- The loop of `c4photoC`, entered with a counter below the cap and with fuel for the passes
that are left: it ends, after at least one pass and without passing the cap; the passes are
numbered by the counter; the variables it leaves are those of its last pass; every pass but
the last changed `Assim` by at least `Tol`; and either the last pass changed `Assim` by less
than `Tol` and the counter is its number, or the last pass changed `Assim` by at least `Tol`,
was the pass with the counter `max_iterations - 1`, and the counter is `max_iterations`. -/
theorem c4_loop_spec (e : c4photo_externals) (a : c4photoC_arguments) :
    ∀ (fuel : Nat) (v : c4_vars), v.iterCounter < max_iterations →
      max_iterations ≤ fuel + v.iterCounter →
      ∃ (vf : c4_vars) (tr : List c4_vars) (m : Nat) (last : c4_vars),
        c4_loop e a fuel v = some (vf, tr) ∧ tr.length = m + 1 ∧
        v.iterCounter + m < max_iterations ∧
        (∀ (k : Nat) (p : c4_vars), tr.get? k = some p →
          p.iterCounter = v.iterCounter + k ∧
          (max_iterations - 10 < p.iterCounter → p.Gs = a.bb0 * 1e3)) ∧
        tr.getLast? = some last ∧
        vf.Assim = last.Assim ∧ vf.Gs = last.Gs ∧
        vf.InterCellularCO2 = last.InterCellularCO2 ∧
        vf.an_conductance = last.an_conductance ∧
        (∀ k, k < m →
          Tol ≤ |assim_before v.OldAssim tr (k + 1) - assim_before v.OldAssim tr k|) ∧
        ((vf.iterCounter = v.iterCounter + m ∧
            |assim_before v.OldAssim tr (m + 1) - assim_before v.OldAssim tr m| < Tol) ∨
          (vf.iterCounter = max_iterations ∧ v.iterCounter + m + 1 = max_iterations ∧
            Tol ≤ |assim_before v.OldAssim tr (m + 1) - assim_before v.OldAssim tr m|)) := by
  intro fuel
  induction fuel with
  | zero =>
    intro v h1 h2
    omega
  | succ fuel ih =>
    intro v h1 h2
    obtain ⟨hc, hdiff, hold, hgs⟩ := c4_body_facts e a v
    have hd0 : |assim_before v.OldAssim [c4_body e a v] (0 + 1) -
        assim_before v.OldAssim [c4_body e a v] 0| = (c4_body e a v).diff := by
      rw [hdiff, abs_sub_comm]
      rfl
    have hrec : ∀ (k : Nat) (p : c4_vars), [c4_body e a v].get? k = some p →
        p.iterCounter = v.iterCounter + k ∧
        (max_iterations - 10 < p.iterCounter → p.Gs = a.bb0 * 1e3) := by
      intro k p hp
      cases k with
      | zero =>
        simp only [List.get?_cons_zero, Option.some.injEq] at hp
        subst hp
        exact ⟨hc, fun h => hgs (hc ▸ h)⟩
      | succ j => simp at hp
    by_cases hT : Tol ≤ (c4_body e a v).diff
    · by_cases hlt : (c4_body e a v).iterCounter + 1 < max_iterations
      · -- the loop goes on
        have h1' : ({ c4_body e a v with iterCounter := (c4_body e a v).iterCounter + 1 } :
            c4_vars).iterCounter < max_iterations := hlt
        have h2' : max_iterations ≤ fuel + ({ c4_body e a v with
            iterCounter := (c4_body e a v).iterCounter + 1 } : c4_vars).iterCounter := by
          show max_iterations ≤ fuel + ((c4_body e a v).iterCounter + 1)
          rw [hc]
          omega
        obtain ⟨vf, tr, m, last, hloop, hlen, hm, hnum, hlast, hA, hG, hI, hN, hall, hend⟩ :=
          ih _ h1' h2'
        have hcnt : ({ c4_body e a v with iterCounter := (c4_body e a v).iterCounter + 1 } :
            c4_vars).iterCounter = v.iterCounter + 1 := by
          show (c4_body e a v).iterCounter + 1 = v.iterCounter + 1
          rw [hc]
        have hO : ({ c4_body e a v with iterCounter := (c4_body e a v).iterCounter + 1 } :
            c4_vars).OldAssim = (c4_body e a v).Assim := hold
        rw [hcnt] at hm hnum hend
        rw [hO] at hall hend
        refine ⟨vf, c4_body e a v :: tr, m + 1, last, ?_, by simp [hlen], by omega, ?_, ?_,
          hA, hG, hI, hN, ?_, ?_⟩
        · rw [c4_loop]
          simp only [hT, hlt, if_true, hloop, Option.map_some']
        · intro k p hp
          cases k with
          | zero =>
            simp only [List.get?_cons_zero, Option.some.injEq] at hp
            subst hp
            exact ⟨hc, fun h => hgs (hc ▸ h)⟩
          | succ j =>
            simp only [List.get?_cons_succ] at hp
            obtain ⟨e1, e2⟩ := hnum j p hp
            exact ⟨by omega, e2⟩
        · cases tr with
          | nil => simp at hlen
          | cons q qs => simpa using hlast
        · intro k hk
          cases k with
          | zero =>
            show Tol ≤ |assim_before v.OldAssim (c4_body e a v :: tr) (0 + 1) -
              assim_before v.OldAssim (c4_body e a v :: tr) 0|
            rw [assim_before_cons]
            show Tol ≤ |(c4_body e a v).Assim - v.OldAssim|
            rw [abs_sub_comm, ← hdiff]
            exact hT
          | succ j =>
            rw [assim_before_cons, assim_before_cons]
            exact hall j (by omega)
        · rw [assim_before_cons, assim_before_cons]
          rcases hend with ⟨e1, e2⟩ | ⟨e1, e2, e3⟩
          · exact Or.inl ⟨by omega, e2⟩
          · exact Or.inr ⟨e1, by omega, e3⟩
      · -- the cap is reached
        refine ⟨{ c4_body e a v with iterCounter := (c4_body e a v).iterCounter + 1 },
          [c4_body e a v], 0, c4_body e a v, ?_, rfl, by omega, hrec, rfl, rfl, rfl, rfl, rfl,
          fun k hk => absurd hk (Nat.not_lt_zero k), Or.inr ⟨?_, ?_, ?_⟩⟩
        · rw [c4_loop]
          simp only [hT, hlt, if_true, if_false]
        · show (c4_body e a v).iterCounter + 1 = max_iterations
          rw [hc] at hlt ⊢
          omega
        · rw [hc] at hlt
          omega
        · rw [hd0]
          exact hT
    · -- the tolerance is met
      refine ⟨c4_body e a v, [c4_body e a v], 0, c4_body e a v, ?_, rfl, by omega, hrec, rfl,
        rfl, rfl, rfl, rfl, fun k hk => absurd hk (Nat.not_lt_zero k), Or.inl ⟨hc, ?_⟩⟩
      · rw [c4_loop]
        simp only [hT, if_false]
      · rw [hd0]
        exact not_le.mp hT

/-- The call of `c4photoC` with fuel for `max_iterations` passes: `c4_loop_spec` for the
initial variables, and the struct that is returned. -/
theorem c4photoC_spec (e : c4photo_externals) (fuel : Nat) (a : c4photoC_arguments)
    (h : max_iterations ≤ fuel) :
    ∃ (r : c4_run) (m : Nat) (last : c4_vars),
      c4photoC e fuel a = some r ∧ r.passes.length = m + 1 ∧ m < max_iterations ∧
      (∀ (k : Nat) (p : c4_vars), r.passes.get? k = some p →
        p.iterCounter = k ∧ (max_iterations - 10 < p.iterCounter → p.Gs = a.bb0 * 1e3)) ∧
      r.passes.getLast? = some last ∧
      r.result.Assim = last.Assim ∧ r.result.Gs = last.Gs ∧
      r.result.Ci = last.InterCellularCO2 / a.atmospheric_pressure * 1e6 ∧
      r.result.GrossAssim = last.Assim + RT e a ∧
      r.result.Assim_conductance = last.an_conductance ∧
      (∀ k, k < m → Tol ≤ |assim_before 0 r.passes (k + 1) - assim_before 0 r.passes k|) ∧
      ((r.result.iterations = m ∧
          |assim_before 0 r.passes (m + 1) - assim_before 0 r.passes m| < Tol) ∨
        (r.result.iterations = max_iterations ∧ m + 1 = max_iterations ∧
          Tol ≤ |assim_before 0 r.passes (m + 1) - assim_before 0 r.passes m|)) := by
  have hcnt : (c4_initial a).iterCounter = 0 := rfl
  have hold : (c4_initial a).OldAssim = 0 := by
    show (0.0 : ℚ) = 0
    norm_num
  have h1 : (c4_initial a).iterCounter < max_iterations := by
    rw [hcnt]
    decide
  have h2 : max_iterations ≤ fuel + (c4_initial a).iterCounter := by
    rw [hcnt]
    exact h
  obtain ⟨vf, tr, m, last, hloop, hlen, hm, hnum, hlast, hA, hG, hI, hN, hall, hend⟩ :=
    c4_loop_spec e a fuel (c4_initial a) h1 h2
  rw [hold] at hall hend
  rw [hcnt] at hm hnum hend
  simp only [zero_add] at hm hnum hend
  have hrun : c4photoC e fuel a = some
      { result := { Assim := vf.Assim, Gs := vf.Gs,
                    Ci := vf.InterCellularCO2 / a.atmospheric_pressure * 1e6,
                    GrossAssim := vf.Assim + RT e a,
                    Assim_conductance := vf.an_conductance, iterations := vf.iterCounter },
        passes := tr } := by
    simp only [c4photoC, hloop, Option.map_some']
  refine ⟨_, m, last, hrun, hlen, hm, hnum, hlast, hA, hG, ?_, ?_, hN, hall, hend⟩
  · show vf.InterCellularCO2 / a.atmospheric_pressure * 1e6 = _
    rw [hI]
  · show vf.Assim + RT e a = _
    rw [hA]

/-! ## The slope -/

/-- The slope is the residual dotted with the Jacobian applied to the direction. -/
theorem slope_of_eq {n : Nat} (direction F_vec_old : Vec n) (jacobian : Mat n) :
    slope_of direction F_vec_old jacobian =
      ∑ i, F_vec_old i * ∑ j, jacobian i j * direction j := by
  unfold slope_of inner_product prod
  simp only [Finset.mul_sum]
  rw [Finset.sum_comm]
  refine Finset.sum_congr rfl fun i _ => Finset.sum_congr rfl fun j _ => ?_
  ring

/-- The sum of the squares of a vector that is not zero is positive. -/
theorem inner_product_self_pos {n : Nat} (F : Vec n) (h : ∃ i, F i ≠ 0) :
    0 < inner_product F F := by
  obtain ⟨i, hi⟩ := h
  unfold inner_product
  have h1 : ∀ j ∈ Finset.univ, 0 ≤ F j * F j := fun j _ => mul_self_nonneg (F j)
  have h2 : 0 < F i * F i := mul_self_pos.mpr hi
  exact Finset.sum_pos' h1 ⟨i, Finset.mem_univ i, h2⟩

/-- With the zero residual the gradient `prod(F_vec_old, jacobian)` is zero. -/
theorem prod_zero {n : Nat} (jacobian : Mat n) :
    prod (fun _ => 0) jacobian = fun _ => 0 := by
  funext j
  simp [prod]

/-- Under `lambda_mins_defined`, the floor is above `1` exactly when every component of the
direction is smaller in absolute value than its minimum step. -/
theorem one_lt_lambda_min_iff {n : Nat} (min_step_factor : ℚ) (direction x_old : Vec n)
    (hd : lambda_mins_defined min_step_factor direction x_old) :
    (1 : WithTop ℚ) < lambda_min min_step_factor direction x_old ↔
      ∀ i, |direction i| < min_step_factor * max |x_old i| 1 := by
  unfold lambda_min
  rw [Finset.lt_inf_iff (WithTop.coe_lt_top 1)]
  constructor
  · intro h i
    have hi := h i (Finset.mem_univ i)
    unfold lambda_mins at hi
    by_cases h0 : direction i = 0
    · rw [h0, abs_zero]
      exact hd i h0
    · rw [if_neg h0] at hi
      have hi1 : (1 : ℚ) < min_step_factor * max |x_old i| 1 / |direction i| := by
        exact_mod_cast hi
      exact (one_lt_div (abs_pos.mpr h0)).mp hi1
  · intro h i _
    unfold lambda_mins
    by_cases h0 : direction i = 0
    · rw [if_pos h0]
      exact WithTop.coe_lt_top 1
    · rw [if_neg h0]
      have hi1 : (1 : ℚ) < min_step_factor * max |x_old i| 1 / |direction i| :=
        (one_lt_div (abs_pos.mpr h0)).mpr (h i)
      exact_mod_cast hi1

/-! ## The cubic of the later backtracks -/

/-- A polynomial of degree at most three is
`coeff 0 + coeff 1 * t + coeff 2 * t^2 + coeff 3 * t^3`. -/
theorem eval_cubic (g : Polynomial ℚ) (hg : g.natDegree ≤ 3) (t : ℚ) :
    g.eval t = g.coeff 0 + g.coeff 1 * t + g.coeff 2 * t ^ 2 + g.coeff 3 * t ^ 3 := by
  rw [Polynomial.eval_eq_sum_range' (Nat.lt_succ_of_le hg)]
  simp [Finset.sum_range_succ]

/-- The two equations that the coefficients `a` and `b` of line 238 and 239 solve. -/
theorem coefficients_solve (rhs1 rhs2 lambda lambda_2 : ℚ) (hl : lambda ≠ 0)
    (hl2 : lambda_2 ≠ 0) (hne : lambda ≠ lambda_2) :
    coefficient_a rhs1 rhs2 lambda lambda_2 * lambda ^ 3 +
        coefficient_b rhs1 rhs2 lambda lambda_2 * lambda ^ 2 = rhs1 ∧
    coefficient_a rhs1 rhs2 lambda lambda_2 * lambda_2 ^ 3 +
        coefficient_b rhs1 rhs2 lambda lambda_2 * lambda_2 ^ 2 = rhs2 := by
  have hd : lambda - lambda_2 ≠ 0 := sub_ne_zero.mpr hne
  unfold coefficient_a coefficient_b
  constructor
  · field_simp
    ring
  · field_simp
    ring

/-- The two equations have no other solution. -/
theorem coefficients_unique (rhs1 rhs2 lambda lambda_2 a b : ℚ) (hl : lambda ≠ 0)
    (hl2 : lambda_2 ≠ 0) (hne : lambda ≠ lambda_2)
    (h1 : a * lambda ^ 3 + b * lambda ^ 2 = rhs1)
    (h2 : a * lambda_2 ^ 3 + b * lambda_2 ^ 2 = rhs2) :
    a = coefficient_a rhs1 rhs2 lambda lambda_2 ∧
    b = coefficient_b rhs1 rhs2 lambda lambda_2 := by
  have hd : lambda - lambda_2 ≠ 0 := sub_ne_zero.mpr hne
  unfold coefficient_a coefficient_b
  rw [← h1, ← h2]
  constructor
  · field_simp
    ring
  · field_simp
    ring

/-- The algebra of the stationary point of `a*t^3 + b*t^2 + slope*t + f_scalar_old`: with
`s * s = b*b - 3*a*slope` and `a` not zero, the value `(-b + s)/(3*a)` is a root of the
derivative `3*a*t^2 + 2*b*t + slope`, the second derivative there is `2*s`, and it is the
value `-slope/(b + s)` wherever that is defined. -/
theorem stationary_point_algebra {K : Type} [LinearOrderedField K] (a b slope s : K)
    (ha : a ≠ 0) (hs2 : s * s = b * b - 3 * a * slope) :
    3 * a * ((-b + s) / (3 * a)) ^ 2 + 2 * b * ((-b + s) / (3 * a)) + slope = 0 ∧
    6 * a * ((-b + s) / (3 * a)) + 2 * b = 2 * s ∧
    (b + s ≠ 0 → (-b + s) / (3 * a) = -slope / (b + s)) := by
  have h3a : 3 * a ≠ 0 := mul_ne_zero (by norm_num) ha
  have ht : 3 * a * ((-b + s) / (3 * a)) = -b + s := mul_div_cancel₀ _ h3a
  refine ⟨?_, ?_, ?_⟩
  · have key : 3 * a * (3 * a * ((-b + s) / (3 * a)) ^ 2 + 2 * b * ((-b + s) / (3 * a)) +
        slope) = 0 := by
      linear_combination (3 * a * ((-b + s) / (3 * a)) + (-b + s) + 2 * b) * ht + hs2
    rcases mul_eq_zero.mp key with h | h
    · exact absurd h h3a
    · exact h
  · linear_combination 2 * ht
  · intro hbs
    rw [div_eq_div_iff h3a hbs]
    linear_combination hs2

/-! ## The outputs of a finished run -/

section Consistent
variable {n : Nat} (sqrt : ℚ → ℚ) (F_vec : Vec n → Vec n) (x_old direction : Vec n)
  (lambda_min : WithTop ℚ) (f_scalar_old slope c : ℚ)

/-- A first backtrack that hands on a step fraction above `1` needs `f_decrease_factor` to be
positive. -/
theorem overshoot_factor_pos (f_scalar_new f_scalar_2 lambda_2 t : ℚ) (hs : slope < 0)
    (hrej : ¬ f_scalar_new ≤ f_scalar_old + c * 1 * slope)
    (ht : temporary_lambda sqrt slope f_scalar_old f_scalar_new f_scalar_2 1 lambda_2 = some t)
    (hover : 1 < max t (0.1 * 1)) : 0 < c := by
  by_contra hc
  obtain ⟨u, hu, hu1⟩ := temporary_lambda_first sqrt slope f_scalar_old f_scalar_new
    f_scalar_2 lambda_2 c hs (by linarith [not_lt.mp hc]) hrej
  have hut : u = t := Option.some.inj (hu.symm.trans ht)
  rw [hut] at hu1
  have : max t (0.1 * 1) < 1 := max_lt hu1 (by norm_num)
  linarith

/-- Every run of the loop that ends in `finished` ends with a step fraction in `(0, 1]`, with
`x_new = x_old + lambda * direction` and with `F_vec_new` the residual at `x_new`. -/
theorem loop_consistent (hs : slope < 0) (fuel : Nat) (s : LoopState n) (r : Run n)
    (hinv : ConsistentState F_vec x_old direction lambda_min f_scalar_old slope c s)
    (hr : loop sqrt F_vec x_old direction lambda_min f_scalar_old slope c fuel s = some r)
    (b : Bool) (lambda : ℚ) (x_new F_new : Vec n)
    (hf : r.outcome = .finished b lambda x_new F_new) :
    0 < lambda ∧ lambda ≤ 1 ∧ r.lambdas.getLast? = some lambda ∧
    (∀ i, x_new i = x_old i + lambda * direction i) ∧ F_new = F_vec x_new := by
  have hcand : ∀ s : LoopState n,
      ConsistentState F_vec x_old direction lambda_min f_scalar_old slope c s →
      s.lambda ≤ 1 →
      ∀ i, candidate x_old direction s.lambda s.x_new i = x_old i + s.lambda * direction i := by
    intro s hi hle i
    unfold candidate
    by_cases hl : s.lambda < 1
    · rw [if_pos hl]
    · have h1 : s.lambda = 1 := le_antisymm hle (not_lt.mp hl)
      rw [if_neg hl, hi.2.1 (not_lt.mp hl), h1]
      simp [full_step]
  have hfull : ∀ s : LoopState n,
      ConsistentState F_vec x_old direction lambda_min f_scalar_old slope c s →
      1 ≤ s.lambda → candidate x_old direction s.lambda s.x_new = full_step x_old direction := by
    intro s hi hle
    unfold candidate
    rw [if_neg (not_lt.mpr hle)]
    exact hi.2.1 hle
  refine loop_invariant sqrt F_vec x_old direction lambda_min f_scalar_old slope c
    (ConsistentState F_vec x_old direction lambda_min f_scalar_old slope c)
    (fun r => ∀ b lambda x_new F_new, r.outcome = .finished b lambda x_new F_new →
      0 < lambda ∧ lambda ≤ 1 ∧ r.lambdas.getLast? = some lambda ∧
      (∀ i, x_new i = x_old i + lambda * direction i) ∧ F_new = F_vec x_new)
    ?_ ?_ fuel s r hinv hr b lambda x_new F_new hf
  · intro s r1 hi hbody b1 l1 x1 F1 h1
    rcases loop_body_cases sqrt F_vec x_old direction lambda_min f_scalar_old slope c s with
      ⟨hm, h⟩ | ⟨_, ha, h⟩ | ⟨_, _, _, h⟩ | ⟨t, _, _, _, h⟩
    · rw [h] at hbody
      cases hbody
      cases h1
      have hle : s.lambda ≤ 1 := by
        by_contra hgt
        have hgt1 : 1 < s.lambda := not_le.mp hgt
        have h2 : (1 : WithTop ℚ) < (s.lambda : WithTop ℚ) := by exact_mod_cast hgt1
        exact (hi.2.2 hgt1).1 (lt_trans h2 hm)
      exact ⟨hi.1, hle, by simp, hcand s hi hle, rfl⟩
    · rw [h] at hbody
      cases hbody
      cases h1
      have hle : s.lambda ≤ 1 := by
        by_contra hgt
        have hgt1 : 1 < s.lambda := not_le.mp hgt
        obtain ⟨_, hrej, hc⟩ := hi.2.2 hgt1
        rw [hfull s hi hgt1.le] at ha
        apply hrej
        have h3 : 0 < c * (s.lambda - 1) * -slope :=
          mul_pos (mul_pos hc (sub_pos.mpr hgt1)) (neg_pos.mpr hs)
        linarith
      exact ⟨hi.1, hle, by simp, hcand s hi hle, rfl⟩
    · rw [h] at hbody
      cases hbody
      cases h1
    · rw [h] at hbody
      cases hbody
  · intro s s1 hi hbody
    rcases loop_body_cases sqrt F_vec x_old direction lambda_min f_scalar_old slope c s with
      ⟨_, h⟩ | ⟨_, _, h⟩ | ⟨_, _, _, h⟩ | ⟨t, hm, hrej, ht, h⟩
    all_goals rw [h] at hbody
    all_goals cases hbody
    obtain ⟨_, hhalf, _⟩ := next_lambda_bounds sqrt slope f_scalar_old _ s.f_scalar_2 s.lambda
      s.lambda_2 c t hs hi.1 hrej ht
    have hold : 1 ≤ max t (0.1 * s.lambda) → 1 ≤ s.lambda := by
      intro h1
      by_contra hlt
      have hlt1 : s.lambda < 1 := not_le.mp hlt
      have := hhalf (ne_of_lt hlt1)
      linarith [hi.1]
    refine ⟨next_lambda_pos t s.lambda hi.1, fun h1 => hfull s hi (hold h1), fun h1 => ?_⟩
    have hge : 1 ≤ s.lambda := hold h1.le
    rcases eq_or_lt_of_le hge with heq | hgt
    · have hm1 : ¬ (1 : WithTop ℚ) < lambda_min := by
        intro h2
        apply hm
        rw [← heq]
        exact h2
      have hrej1 : ¬ f_scalar (F_vec (full_step x_old direction)) ≤
          f_scalar_old + c * 1 * slope := by
        rw [hfull s hi hge, ← heq] at hrej
        exact hrej
      rw [hfull s hi hge, ← heq] at ht
      refine ⟨hm1, hrej1, overshoot_factor_pos sqrt f_scalar_old slope c _ s.f_scalar_2
        s.lambda_2 t hs hrej1 ht ?_⟩
      rw [← heq] at h1
      exact h1
    · exact hi.2.2 hgt

end Consistent

/-! ## The passes of c4photoC -/

/-- Whatever holds of the variables every pass leaves, holds of every entry of the list of
passes. -/
theorem c4_loop_passes (e : c4photo_externals) (a : c4photoC_arguments)
    (P : c4_vars → Prop) (hP : ∀ v, P (c4_body e a v)) :
    ∀ (fuel : Nat) (v vf : c4_vars) (tr : List c4_vars),
      c4_loop e a fuel v = some (vf, tr) → ∀ p ∈ tr, P p := by
  intro fuel
  induction fuel with
  | zero =>
    intro v vf tr h
    simp [c4_loop] at h
  | succ fuel ih =>
    intro v vf tr h p hp
    rw [c4_loop] at h
    simp only at h
    split at h
    · split at h
      · rw [Option.map_eq_some'] at h
        obtain ⟨⟨wf, wtr⟩, hw, heq⟩ := h
        simp only [Prod.mk.injEq] at heq
        obtain ⟨_, htr⟩ := heq
        rw [← htr] at hp
        rcases List.mem_cons.mp hp with h1 | h1
        · rw [h1]
          exact hP v
        · exact ih _ wf wtr hw p h1
      · simp only [Option.some.injEq, Prod.mk.injEq] at h
        rw [← h.2] at hp
        rw [List.mem_singleton.mp hp]
        exact hP v
    · simp only [Option.some.injEq, Prod.mk.injEq] at h
      rw [← h.2] at hp
      rw [List.mem_singleton.mp hp]
      exact hP v

/-- Every pass of a call of `c4photoC` updated `Ci` with the conductance it left in `Gs`. -/
theorem c4photoC_passes (e : c4photo_externals) (fuel : Nat) (a : c4photoC_arguments)
    (r : c4_run) (hr : c4photoC e fuel a = some r) :
    ∀ p ∈ r.passes, p.InterCellularCO2 = Ca_pa a - a.atmospheric_pressure * (p.Assim * 1e-6) *
      (e.dr_boundary / a.gbw + e.dr_stomata / (p.Gs * 1e-3)) := by
  unfold c4photoC at hr
  rw [Option.map_eq_some'] at hr
  obtain ⟨⟨vf, tr⟩, hloop, heq⟩ := hr
  rw [← heq]
  exact c4_loop_passes e a
    (fun p => p.InterCellularCO2 = Ca_pa a - a.atmospheric_pressure * (p.Assim * 1e-6) *
      (e.dr_boundary / a.gbw + e.dr_stomata / (p.Gs * 1e-3)))
    (fun _ => rfl) fuel (c4_initial a) vf tr hloop

/-- The counter that a run of the loop of `c4photoC` leaves is at least `N`, when every pass
with a counter below `N` keeps an invariant under which `Assim` changes by at least `Tol`. -/
theorem c4_loop_counter (e : c4photo_externals) (a : c4photoC_arguments) (N : Nat)
    (hN : N ≤ max_iterations) (Inv : c4_vars → Prop)
    (hstep : ∀ v, v.iterCounter < N → Inv v → Tol ≤ (c4_body e a v).diff ∧
      Inv { c4_body e a v with iterCounter := (c4_body e a v).iterCounter + 1 }) :
    ∀ (fuel : Nat) (v vf : c4_vars) (tr : List c4_vars), (v.iterCounter < N → Inv v) →
      c4_loop e a fuel v = some (vf, tr) → N ≤ vf.iterCounter := by
  intro fuel
  induction fuel with
  | zero =>
    intro v vf tr _ h
    simp [c4_loop] at h
  | succ fuel ih =>
    intro v vf tr hv h
    have hc : (c4_body e a v).iterCounter = v.iterCounter := rfl
    rw [c4_loop] at h
    simp only at h
    split at h
    · split at h
      · rw [Option.map_eq_some'] at h
        obtain ⟨⟨wf, wtr⟩, hw, heq⟩ := h
        simp only [Prod.mk.injEq] at heq
        rw [← heq.1]
        refine ih _ wf wtr (fun hlt => ?_) hw
        have hlt1 : v.iterCounter < N := by
          have : (c4_body e a v).iterCounter + 1 < N := hlt
          omega
        exact (hstep v hlt1 (hv hlt1)).2
      · rename_i hcap
        simp only [Option.some.injEq, Prod.mk.injEq] at h
        rw [← h.1]
        show N ≤ (c4_body e a v).iterCounter + 1
        have : ¬ (c4_body e a v).iterCounter + 1 < max_iterations := hcap
        omega
    · rename_i hT
      simp only [Option.some.injEq, Prod.mk.injEq] at h
      rw [← h.1, hc]
      by_contra hlt
      exact hT (hstep v (not_le.mp hlt) (hv (not_le.mp hlt))).1

/-! ## The Julian date -/

/-- The day and the hour of `time_utc` recombine, and the hour lies in `[0, 24)`. -/
theorem hour_utc_split (time time_zone_offset : ℚ) :
    solar_zenith_angle_michalsky.doy_utc time time_zone_offset +
      solar_zenith_angle_michalsky.hour_utc time time_zone_offset / 24 =
      time - time_zone_offset / 24 ∧
    0 ≤ solar_zenith_angle_michalsky.hour_utc time time_zone_offset ∧
    solar_zenith_angle_michalsky.hour_utc time time_zone_offset < 24 := by
  have h1 := Int.floor_le (solar_zenith_angle_michalsky.time_utc time time_zone_offset)
  have h2 := Int.lt_floor_add_one (solar_zenith_angle_michalsky.time_utc time time_zone_offset)
  have hH : solar_zenith_angle_michalsky.HPD = 24 := by
    unfold solar_zenith_angle_michalsky.HPD
    norm_num
  have ht : solar_zenith_angle_michalsky.time_utc time time_zone_offset =
      time - time_zone_offset / 24 := by
    unfold solar_zenith_angle_michalsky.time_utc
    rw [hH]
  unfold solar_zenith_angle_michalsky.hour_utc solar_zenith_angle_michalsky.doy_utc
  rw [hH]
  refine ⟨?_, ?_, ?_⟩
  · rw [← ht]
    ring
  · linarith
  · linarith

/-- The Julian date as one sum. -/
theorem jd_eq (time time_zone_offset year : ℚ) :
    solar_zenith_angle_michalsky.jd time time_zone_offset year =
      2432916.5 + 365 * (year - 1949) + ((Int.floor (0.25 * (year - 1949)) : Int) : ℚ) +
        time - time_zone_offset / 24 := by
  have h := (hour_utc_split time time_zone_offset).1
  have hH : solar_zenith_angle_michalsky.HPD = 24 := by
    unfold solar_zenith_angle_michalsky.HPD
    norm_num
  have e1 : (1949.0 : ℚ) = 1949 := by norm_num
  have e2 : (365.0 : ℚ) = 365 := by norm_num
  unfold solar_zenith_angle_michalsky.jd solar_zenith_angle_michalsky.jd_ref_1948
  simp only [hH, e1, e2]
  linarith

/-- The Julian date of noon on 1 January 2000. -/
theorem jd_noon_2000 : solar_zenith_angle_michalsky.jd 1.5 0 2000 = 2451545.0 := by
  rw [jd_eq]
  have : Int.floor ((0.25 : ℚ) * (2000 - 1949)) = 12 := by
    rw [Int.floor_eq_iff]
    constructor <;> norm_num
  rw [this]
  norm_num

/-! ## The points of the later backtracks -/

/-- The coefficients of lines 238 and 239 make the cubic pass through the two points, and
they are the only ones: every polynomial of degree at most three with the value
`f_scalar_old` and the derivative `slope` at `0` that passes through the two points has them
as its coefficients of `t^3` and `t^2`. -/
theorem cubic_fit (slope f_scalar_old f_scalar_new f_scalar_2 lambda lambda_2 : ℚ)
    (hl : lambda ≠ 0) (hl2 : lambda_2 ≠ 0) (hne : lambda ≠ lambda_2) :
    coefficient_a (f_scalar_new - f_scalar_old - lambda * slope)
        (f_scalar_2 - f_scalar_old - lambda_2 * slope) lambda lambda_2 * lambda ^ 3 +
      coefficient_b (f_scalar_new - f_scalar_old - lambda * slope)
        (f_scalar_2 - f_scalar_old - lambda_2 * slope) lambda lambda_2 * lambda ^ 2 +
      slope * lambda + f_scalar_old = f_scalar_new ∧
    coefficient_a (f_scalar_new - f_scalar_old - lambda * slope)
        (f_scalar_2 - f_scalar_old - lambda_2 * slope) lambda lambda_2 * lambda_2 ^ 3 +
      coefficient_b (f_scalar_new - f_scalar_old - lambda * slope)
        (f_scalar_2 - f_scalar_old - lambda_2 * slope) lambda lambda_2 * lambda_2 ^ 2 +
      slope * lambda_2 + f_scalar_old = f_scalar_2 ∧
    (∀ g : Polynomial ℚ, g.natDegree ≤ 3 → g.eval 0 = f_scalar_old →
      (Polynomial.derivative g).eval 0 = slope → g.eval lambda = f_scalar_new →
      g.eval lambda_2 = f_scalar_2 →
      g.coeff 3 = coefficient_a (f_scalar_new - f_scalar_old - lambda * slope)
        (f_scalar_2 - f_scalar_old - lambda_2 * slope) lambda lambda_2 ∧
      g.coeff 2 = coefficient_b (f_scalar_new - f_scalar_old - lambda * slope)
        (f_scalar_2 - f_scalar_old - lambda_2 * slope) lambda lambda_2) := by
  obtain ⟨e1, e2⟩ := coefficients_solve (f_scalar_new - f_scalar_old - lambda * slope)
    (f_scalar_2 - f_scalar_old - lambda_2 * slope) lambda lambda_2 hl hl2 hne
  refine ⟨by linarith, by linarith, ?_⟩
  intro g hg h0 hd h1 h2
  have c0 : g.coeff 0 = f_scalar_old := by
    rw [← h0, eval_cubic g hg]
    ring
  have c1 : g.coeff 1 = slope := by
    rw [← hd, ← Polynomial.coeff_zero_eq_eval_zero, Polynomial.coeff_derivative]
    simp
  rw [eval_cubic g hg, c0, c1] at h1 h2
  exact coefficients_unique _ _ lambda lambda_2 (g.coeff 3) (g.coeff 2) hl hl2 hne
    (by linarith) (by linarith)

/-- A later backtrack that has a value went through no zero divisor, and its value is the
minimum of the cubic, capped by `0.5 * lambda`. -/
theorem temporary_lambda_some (sqrt : ℚ → ℚ)
    (slope f_scalar_old f_scalar_new f_scalar_2 lambda lambda_2 t : ℚ) (h1 : lambda ≠ 1)
    (ht : temporary_lambda sqrt slope f_scalar_old f_scalar_new f_scalar_2 lambda lambda_2 =
      some t) :
    lambda ≠ 0 ∧ lambda_2 ≠ 0 ∧ lambda ≠ lambda_2 ∧
    ∃ u : ℚ, cubic_minimum sqrt slope
        (coefficient_a (f_scalar_new - f_scalar_old - lambda * slope)
          (f_scalar_2 - f_scalar_old - lambda_2 * slope) lambda lambda_2)
        (coefficient_b (f_scalar_new - f_scalar_old - lambda * slope)
          (f_scalar_2 - f_scalar_old - lambda_2 * slope) lambda lambda_2) lambda = some u ∧
      t = min u (0.5 * lambda) := by
  unfold temporary_lambda at ht
  rw [if_neg h1] at ht
  split at ht
  · cases ht
  · rename_i hg
    rw [not_or, not_or] at hg
    obtain ⟨g1, g2, g3⟩ := hg
    rw [Option.map_eq_some'] at ht
    obtain ⟨u, hu, hmin⟩ := ht
    refine ⟨fun h => g1 (by rw [h, zero_mul]), fun h => g2 (by rw [h, zero_mul]),
      fun h => g3 (by rw [h, sub_self]), u, hu, hmin.symm⟩

/-- An entry of a list with one more element at its end, at an index within the list. -/
theorem get?_concat_lt {α : Type} (L : List α) (a v : α) (k : Nat) (hk : k < L.length)
    (h : (L ++ [a]).get? k = some v) : L.get? k = some v := by
  rw [List.get?_eq_getElem?] at h ⊢
  rw [List.getElem?_append_left hk] at h
  exact h

/-- The entry of a list with one more element at its end, at the length of the list. -/
theorem get?_concat_length {α : Type} (L : List α) (a v : α) (k : Nat) (hk : k = L.length)
    (h : (L ++ [a]).get? k = some v) : v = a := by
  subst hk
  rw [List.get?_eq_getElem?, List.getElem?_append_right (le_refl _)] at h
  simp at h
  exact h.symm

/-- An index with an entry is within the list. -/
theorem get?_lt_length {α : Type} (L : List α) (v : α) (k : Nat) (h : L.get? k = some v) :
    k < L.length := by
  obtain ⟨hk, _⟩ := List.get?_eq_some.mp h
  exact hk

section FittedLemmas
variable {n : Nat} (sqrt : ℚ → ℚ) (F_vec : Vec n → Vec n) (x_old direction : Vec n)
  (lambda_min : WithTop ℚ) (f_scalar_old slope c : ℚ)

/-- A rejected pass keeps `FittedState`. -/
theorem fitted_step (s : LoopState n) (t : ℚ)
    (hI : FittedState sqrt F_vec x_old direction f_scalar_old slope s)
    (ht : temporary_lambda sqrt slope f_scalar_old
      (f_scalar (F_vec (candidate x_old direction s.lambda s.x_new)))
      s.f_scalar_2 s.lambda s.lambda_2 = some t) :
    FittedState sqrt F_vec x_old direction f_scalar_old slope
      { lambda := max t (0.1 * s.lambda), lambda_2 := s.lambda,
        f_scalar_2 := f_scalar (F_vec (candidate x_old direction s.lambda s.x_new)),
        x_new := candidate x_old direction s.lambda s.x_new,
        F_vec_new := F_vec (candidate x_old direction s.lambda s.x_new),
        evals := s.evals ++ [candidate x_old direction s.lambda s.x_new],
        lambdas := s.lambdas ++ [s.lambda] } := by
  obtain ⟨hlen0, ⟨hfirst, hcand, htri⟩, hlink⟩ := hI
  have hL1 : (s.lambdas ++ [s.lambda]).length = s.lambdas.length + 1 := by simp
  have hX1 : (s.evals ++ [candidate x_old direction s.lambda s.x_new]).length =
      s.lambdas.length + 1 := by simp [hlen0]
  refine ⟨?_, ⟨?_, ?_, ?_⟩, ?_⟩
  · simp [hlen0]
  · intro l x hl hx
    exact hfirst l x (get?_concat_lt _ _ _ 0 (by rw [hL1]; omega) hl)
      (get?_concat_lt _ _ _ 0 (by rw [hX1]; omega) hx)
  · intro k l x hl hx hl1
    have hk := get?_lt_length _ _ _ hl
    simp only [List.length_append, List.length_singleton] at hk
    by_cases hk1 : k < s.lambdas.length + 1
    · exact hcand k l x (get?_concat_lt _ _ _ k (by rw [hL1]; exact hk1) hl)
        (get?_concat_lt _ _ _ k (by rw [hX1]; exact hk1) hx) hl1
    · have hk2 : k = s.lambdas.length + 1 := by omega
      have e1 := get?_concat_length _ _ _ k (by rw [hL1]; exact hk2) hl
      have e2 := get?_concat_length _ _ _ k (by rw [hX1]; exact hk2) hx
      rw [e1] at hl1
      rw [e2, e1]
      simp only [candidate, if_pos hl1]
  · intro k l2 l ln x2 x h2 h1 h3 hx2 hx hne
    have hk := get?_lt_length _ _ _ h3
    simp only [List.length_append, List.length_singleton] at hk
    by_cases hk1 : k + 2 < s.lambdas.length + 1
    · exact htri k l2 l ln x2 x
        (get?_concat_lt _ _ _ k (by rw [hL1]; omega) h2)
        (get?_concat_lt _ _ _ (k + 1) (by rw [hL1]; omega) h1)
        (get?_concat_lt _ _ _ (k + 2) (by rw [hL1]; omega) h3)
        (get?_concat_lt _ _ _ k (by rw [hX1]; omega) hx2)
        (get?_concat_lt _ _ _ (k + 1) (by rw [hX1]; omega) hx) hne
    · have hk2 : k + 2 = s.lambdas.length + 1 := by omega
      have e3 := get?_concat_length _ _ _ (k + 2) (by rw [hL1]; exact hk2) h3
      have h2a := get?_concat_lt _ _ _ k (by rw [hL1]; omega) h2
      have h1a := get?_concat_lt _ _ _ (k + 1) (by rw [hL1]; omega) h1
      have hx2a := get?_concat_lt _ _ _ k (by rw [hX1]; omega) hx2
      have hxa := get?_concat_lt _ _ _ (k + 1) (by rw [hX1]; omega) hx
      have h2b := get?_concat_lt _ _ _ k (by omega) h2a
      have hx2b := get?_concat_lt _ _ _ k (by omega) hx2a
      have e1 := get?_concat_length _ _ _ (k + 1) (by omega) h1a
      have ex := get?_concat_length _ _ _ (k + 1) (by omega) hxa
      obtain ⟨el, ef⟩ := hlink k l2 x2 (by omega) h2b hx2b
      rw [e1, ex, e3]
      rw [el, ef] at ht
      exact ⟨t, ht, rfl⟩
  · intro k l x hk hl hx
    have hk2 : k = s.lambdas.length := by
      simp only [List.length_append, List.length_singleton] at hk
      omega
    have e1 := get?_concat_length _ _ _ k hk2 hl
    have e2 := get?_concat_length _ _ _ k (by omega) hx
    rw [e1, e2]
    exact ⟨rfl, rfl⟩

/-- The trace of every run of the loop from a state with `FittedState` fits together. -/
theorem loop_fitted (fuel : Nat) (s : LoopState n) (r : Run n)
    (hI : FittedState sqrt F_vec x_old direction f_scalar_old slope s)
    (hr : loop sqrt F_vec x_old direction lambda_min f_scalar_old slope c fuel s = some r) :
    FittedTrace sqrt F_vec x_old direction f_scalar_old slope r.lambdas r.evals := by
  refine loop_invariant sqrt F_vec x_old direction lambda_min f_scalar_old slope c
    (FittedState sqrt F_vec x_old direction f_scalar_old slope)
    (fun r => FittedTrace sqrt F_vec x_old direction f_scalar_old slope r.lambdas r.evals)
    ?_ ?_ fuel s r hI hr
  · intro s r1 hi hbody
    rcases loop_body_cases sqrt F_vec x_old direction lambda_min f_scalar_old slope c s with
      ⟨_, h⟩ | ⟨_, _, h⟩ | ⟨_, _, _, h⟩ | ⟨t, _, _, _, h⟩
    all_goals rw [h] at hbody
    all_goals cases hbody
    all_goals exact hi.2.1
  · intro s s1 hi hbody
    rcases loop_body_cases sqrt F_vec x_old direction lambda_min f_scalar_old slope c s with
      ⟨_, h⟩ | ⟨_, _, h⟩ | ⟨_, _, _, h⟩ | ⟨t, _, _, ht, h⟩
    all_goals rw [h] at hbody
    all_goals cases hbody
    exact fitted_step sqrt F_vec x_old direction f_scalar_old slope s t hi ht

/-- The state in which the loop is entered has `FittedState`. -/
theorem fitted_initial (F_vec_new : Vec n) :
    FittedState sqrt F_vec x_old direction f_scalar_old slope
      (initial_state x_old direction F_vec_new) := by
  refine ⟨by simp [initial_state], ⟨?_, ?_, ?_⟩, ?_⟩
  · intro l x hl hx
    have e1 := get?_concat_length _ _ _ 0 (by simp [initial_state]) hl
    have e2 := get?_concat_length _ _ _ 0 (by simp [initial_state]) hx
    rw [e1, e2]
    exact ⟨rfl, candidate_one x_old direction _⟩
  · intro k l x hl hx hl1
    have hk := get?_lt_length _ _ _ hl
    have e1 := get?_concat_length _ _ _ k (by simp [initial_state] at hk ⊢; omega) hl
    rw [e1] at hl1
    simp [initial_state] at hl1
  · intro k l2 l ln x2 x _ _ h3 _ _ _
    have hk := get?_lt_length _ _ _ h3
    simp [initial_state] at hk
  · intro k l x hk _ _
    simp [initial_state] at hk

end FittedLemmas

/-- The trace of every call of `newton_raphson_line_search_boost` fits together. -/
theorem search_fitted {n : Nat} (sqrt : ℚ → ℚ) (fuel : Nat) (lower_bounds upper_bounds : Vec n)
    (min_step_factor f_decrease_factor : ℚ) (direction F_vec_old : Vec n) (jacobian : Mat n)
    (F_vec : Vec n → Vec n) (x_old F_vec_new : Vec n) (r : Run n)
    (hr : newton_raphson_line_search_boost sqrt fuel lower_bounds upper_bounds min_step_factor
      f_decrease_factor direction F_vec_old jacobian F_vec x_old F_vec_new = some r) :
    FittedTrace sqrt F_vec x_old direction (f_scalar F_vec_old)
      (slope_of direction F_vec_old jacobian) r.lambdas r.evals := by
  rcases search_cases sqrt fuel lower_bounds upper_bounds min_step_factor f_decrease_factor
    direction F_vec_old jacobian F_vec x_old F_vec_new with
    ⟨_, c, _, h⟩ | ⟨_, _, h⟩ | ⟨_, _, _, h⟩ | ⟨_, _, _, h⟩
  · rw [h] at hr
    cases hr
    exact ⟨fun l x hl => by simp at hl, fun k l x hl => by simp at hl,
      fun k l2 l ln x2 x hl => by simp at hl⟩
  · rw [h] at hr
    cases hr
    exact ⟨fun l x hl => by simp at hl, fun k l x hl => by simp at hl,
      fun k l2 l ln x2 x hl => by simp at hl⟩
  · rw [h] at hr
    cases hr
    exact ⟨fun l x hl => by simp at hl, fun k l x hl => by simp at hl,
      fun k l2 l ln x2 x hl => by simp at hl⟩
  · rw [h] at hr
    exact loop_fitted sqrt F_vec x_old direction _ _ _ f_decrease_factor fuel _ r
      (fitted_initial sqrt F_vec x_old direction _ _ F_vec_new) hr

/-! ## Termination in finite numbers -/

section DoubleLemmas

end DoubleLemmas

section NanLoop
variable {n : Nat} (sqrt : Double → Double) (F_vec : VecD n → VecD n) (x_old direction : VecD n)
  (lambda_min f_scalar_old slope f_decrease_factor : Double)

end NanLoop

section Simulation
variable {n : Nat}

end Simulation

section Simulation2
variable {n : Nat}

end Simulation2

section Simulation3
variable {n : Nat} (sqrt : ℚ → ℚ) (sqrt_ieee : Double → Double)
  (F_vec : Vec n → Vec n) (F_ieee : VecD n → VecD n) (x_old direction : Vec n)
  (lambda_min : WithTop ℚ) (f_scalar_old slope c : ℚ)

end Simulation3

/-! ## The runs of the examples -/

/-- Scenario A: the full step from `0` along `5` lies within `[-100, 100]`. -/
theorem scenario_A_within :
    within_bounds (![-100] : Vec 1) ![100] (full_step ![0] ![5]) := by
  intro i; fin_cases i; simp [full_step]; norm_num

/-- Scenario A: the slope at `0` is `-25`. -/
theorem scenario_A_slope : slope_of (![5] : Vec 1) ![-5] (fun _ _ => 1) = -25 := by
  simp [slope_of, inner_product, prod]; norm_num

/-- Scenario A: the floor of the step fraction is `1e-7 / 5`. -/
theorem scenario_A_lambda_min :
    lambda_min 1.0e-7 (![5] : Vec 1) ![0] = ((1/50000000 : ℚ) : WithTop ℚ) := by
  simp [lambda_min, lambda_mins]
  norm_num

/-- Scenario A: the full Newton step from `0` is accepted in the first pass. -/
theorem scenario_A_run (fuel : Nat) :
    newton_raphson_line_search_boost (fun _ => 0) (fuel + 1) (![-100] : Vec 1) ![100] 1.0e-7
      1.0e-4 ![5] ![-5] (fun _ _ => 1) scenario_A ![0] ![-5] =
      some { outcome := .finished false 1 (full_step ![0] ![5])
               (scenario_A (full_step ![0] ![5])),
             evals := [full_step ![0] ![5]], lambdas := [1] } := by
  apply search_accept_full_step
  · exact scenario_A_within
  · rw [scenario_A_slope]; norm_num
  · intro i; fin_cases i; simp
  · rw [scenario_A_lambda_min]
    norm_cast
    norm_num
  · rw [scenario_A_slope]
    simp [f_scalar, inner_product, scenario_A, full_step]
    norm_num

/-- The forward difference of `steep_equation` at `0` is `10^8`. -/
theorem steep_jacobian :
    forward_difference_jacobian 1.0e-8 steep_equation ![0] ![1] = fun _ _ => 100000000 := by
  funext i j
  fin_cases i; fin_cases j
  simp [forward_difference_jacobian, steep_equation]
  norm_num [abs_of_pos]

/-- The Newton step of `steep_equation` at `0` is `-10^-8`. -/
theorem steep_step : newton_step_1 ![1] (fun _ _ => 100000000) = ![-1/100000000] := by
  simp [newton_step_1]

/-- The call of `get_next_guess` for `steep_equation` at `0` stalls in its first pass, at the
full step. -/
theorem steep_run :
    get_next_guess (fun _ => 0) 1 (forward_difference_jacobian 1.0e-8) newton_step_1
      steep_equation ![-100] ![100] ![0] ![1] =
      some { outcome := .finished true 1 (full_step ![0] ![-1/100000000])
               (steep_equation (full_step ![0] ![-1/100000000])),
             evals := [full_step ![0] ![-1/100000000]], lambdas := [1] } := by
  unfold get_next_guess
  simp only [steep_jacobian, steep_step]
  apply search_stall_full_step
  · intro i; fin_cases i; simp [full_step]; norm_num
  · simp [slope_of, inner_product, prod]
  · intro i; fin_cases i; simp
  · simp [lambda_min, lambda_mins]
    norm_num [abs_of_pos]

/-- The slope of `slow_equation` at `0` along its Newton step `-1` is `-1`. -/
theorem slow_slope : slope_of (![-1] : Vec 1) ![1] (fun _ _ => 1) = -1 := by
  simp [slope_of, inner_product, prod]

/-- The floor of the step fraction for `slow_equation` is `1e-7`. -/
theorem slow_lambda_min :
    lambda_min 1.0e-7 (![-1] : Vec 1) ![0] = ((1 / 10000000 : ℚ) : WithTop ℚ) := by
  simp [lambda_min, lambda_mins]
  norm_num

/-- The merit value of `slow_equation` at the full step `-1`. -/
theorem slow_f_full :
    f_scalar (slow_equation (full_step ![0] ![-1])) = 399960001 / 800000000 := by
  simp [f_scalar, inner_product, slow_equation, full_step]
  norm_num

/-- The first backtrack of `slow_equation`: the quadratic formula gives a step fraction
above one half. -/
theorem slow_temporary_lambda :
    temporary_lambda (fun _ => 0) (-1) (f_scalar (![1] : Vec 1)) (399960001 / 800000000) 0 1 0 =
      some (400000000 / 799960001) := by
  simp [temporary_lambda, f_scalar, inner_product]
  norm_num

/-- The run of the line search for `slow_equation` at `0`: the full step is rejected, and the
step fraction `400000000/799960001` that follows is accepted. -/
theorem slow_run :
    newton_raphson_line_search_boost (fun _ => 0) 2 (![-100] : Vec 1) ![100] 1.0e-7 1.0e-4
      ![-1] ![1] (fun _ _ => 1) slow_equation ![0] ![1] =
      some { outcome := .finished false (400000000 / 799960001)
               (fun i => (![0] : Vec 1) i + 400000000 / 799960001 * (![-1] : Vec 1) i)
               (slow_equation
                 (fun i => (![0] : Vec 1) i + 400000000 / 799960001 * (![-1] : Vec 1) i)),
             evals := [full_step ![0] ![-1],
               fun i => (![0] : Vec 1) i + 400000000 / 799960001 * (![-1] : Vec 1) i],
             lambdas := [1, 400000000 / 799960001] } := by
  rw [search_loop _ _ _ _ _ _ _ _ _ _ _ _
    (by intro i; fin_cases i; simp [full_step]; norm_num)
    (by rw [slow_slope]; norm_num)
    (lambda_mins_defined_of_pos _ _ _ (by norm_num))]
  rw [slow_slope, slow_lambda_min]
  have hnext : max (400000000 / 799960001 : ℚ) (0.1 * 1) = 400000000 / 799960001 := by
    norm_num
  rw [loop_reject _ _ _ _ _ _ _ _ 1 (initial_state ![0] ![-1] ![1]) (400000000 / 799960001)
    (by simp [initial_state]; norm_num)
    (by
      simp only [initial_state, candidate_one]
      rw [slow_f_full]
      simp [f_scalar, inner_product]
      norm_num)
    (by
      simp only [initial_state, candidate_one]
      rw [slow_f_full]
      exact slow_temporary_lambda)]
  simp only [initial_state, candidate_one, hnext]
  rw [loop_accept _ _ _ _ _ _ _ _ 0 _
    (by simp; norm_num)
    (by
      simp [candidate, f_scalar, inner_product, slow_equation]
      norm_num)]
  simp [candidate]
  norm_num

/-- The constants of the oscillating example. -/
theorem oscillating_constants :
    M oscillating_externals oscillating_arguments = 39 ∧
    kT oscillating_externals oscillating_arguments = 0.7 ∧
    RT oscillating_externals oscillating_arguments = 0.8 ∧
    Ca_pa oscillating_arguments = 40 := by
  have h1 : Rat.sqrt 1 = 1 := by
    have := Rat.sqrt_eq 1
    rw [mul_one, abs_one] at this
    exact this
  refine ⟨?_, ?_, ?_, ?_⟩
  · simp [M, VT, oscillating_externals, oscillating_arguments]
    norm_num [h1]
  · simp [kT, oscillating_externals, oscillating_arguments]
  · simp [RT, oscillating_externals, oscillating_arguments]
  · simp [Ca_pa, oscillating_arguments]
    norm_num

/-- A pass of the oscillating example, before the fallback sets in, from an intercellular
pressure of `16` or `28.2`: the assimilation is `38.2`, and the pressure becomes `1.8`. -/
theorem oscillating_body_high (v : c4_vars) (hc : v.iterCounter < 41)
    (hCi : v.InterCellularCO2 = 16 ∨ v.InterCellularCO2 = 28.2) :
    (c4_body oscillating_externals oscillating_arguments v).Assim = 38.2 ∧
    (c4_body oscillating_externals oscillating_arguments v).InterCellularCO2 = 1.8 := by
  obtain ⟨hM, hk, hR, hCa⟩ := oscillating_constants
  have hc1 : ¬ (v.iterCounter > max_iterations - 10) := by
    have : max_iterations - 10 = 40 := by decide
    omega
  have s1 : Rat.sqrt 5329 = 73 := by
    have h : (5329 : ℚ) = 73 * 73 := by norm_num
    rw [h, Rat.sqrt_eq]
    norm_num [abs_of_pos]
  have s2 : Rat.sqrt (627264 / 25) = 792 / 5 := by
    have h : (627264 / 25 : ℚ) = 792 / 5 * (792 / 5) := by norm_num
    rw [h, Rat.sqrt_eq]
    norm_num [abs_of_pos]
  unfold c4_body
  simp only [hM, hk, hR, hCa, if_neg hc1]
  rcases hCi with h | h
  · rw [h]
    simp [oscillating_externals, oscillating_arguments]
    norm_num [s1]
  · rw [h]
    simp [oscillating_externals, oscillating_arguments]
    norm_num [s2]

/-- A pass of the oscillating example, before the fallback sets in, from an intercellular
pressure of `1.8`: the assimilation is `11.8`, and the pressure becomes `28.2`. -/
theorem oscillating_body_low (v : c4_vars) (hc : v.iterCounter < 41)
    (hCi : v.InterCellularCO2 = 1.8) :
    (c4_body oscillating_externals oscillating_arguments v).Assim = 11.8 ∧
    (c4_body oscillating_externals oscillating_arguments v).InterCellularCO2 = 28.2 := by
  obtain ⟨hM, hk, hR, hCa⟩ := oscillating_constants
  have hc1 : ¬ (v.iterCounter > max_iterations - 10) := by
    have : max_iterations - 10 = 40 := by decide
    omega
  have s1 : Rat.sqrt (17424 / 25) = 132 / 5 := by
    have h : (17424 / 25 : ℚ) = 132 / 5 * (132 / 5) := by norm_num
    rw [h, Rat.sqrt_eq]
    norm_num [abs_of_pos]
  unfold c4_body
  simp only [hM, hk, hR, hCa, if_neg hc1]
  rw [hCi]
  simp [oscillating_externals, oscillating_arguments]
  norm_num [s1]

/-- Before the fallback sets in, every pass of the oscillating example changes the
assimilation by at least `Tol` and leaves the variables in one of the three states. -/
theorem oscillating_step (v : c4_vars) (hc : v.iterCounter < 41) (hv : OscillatingState v) :
    Tol ≤ (c4_body oscillating_externals oscillating_arguments v).diff ∧
    OscillatingState { c4_body oscillating_externals oscillating_arguments v with
      iterCounter := (c4_body oscillating_externals oscillating_arguments v).iterCounter + 1 } := by
  obtain ⟨_, hdiff, hold, _⟩ := c4_body_facts oscillating_externals oscillating_arguments v
  rcases hv with ⟨h1, h2⟩ | ⟨h1, h2⟩ | ⟨h1, h2⟩
  · obtain ⟨hA, hC⟩ := oscillating_body_high v hc (Or.inl h1)
    refine ⟨?_, Or.inr (Or.inl ⟨hC, hold.trans hA⟩)⟩
    rw [hdiff, hA, h2]
    norm_num [Tol, abs_of_pos]
  · obtain ⟨hA, hC⟩ := oscillating_body_low v hc h1
    refine ⟨?_, Or.inr (Or.inr ⟨hC, hold.trans hA⟩)⟩
    rw [hdiff, hA, h2]
    norm_num [Tol, abs_of_pos]
  · obtain ⟨hA, hC⟩ := oscillating_body_high v hc (Or.inr h1)
    refine ⟨?_, Or.inr (Or.inl ⟨hC, hold.trans hA⟩)⟩
    rw [hdiff, hA, h2]
    norm_num [Tol, abs_of_neg]

/-- The call of `c4photoC` for the oscillating example runs into the passes of the fallback:
the returned `iterations` is above `40`. -/
theorem oscillating_run (r : c4_run)
    (hr : c4photoC oscillating_externals 50 oscillating_arguments = some r) :
    40 < r.result.iterations := by
  unfold c4photoC at hr
  rw [Option.map_eq_some'] at hr
  obtain ⟨⟨vf, tr⟩, hloop, heq⟩ := hr
  rw [← heq]
  show 41 ≤ vf.iterCounter
  refine c4_loop_counter oscillating_externals oscillating_arguments 41 (by decide)
    OscillatingState (fun v hc hv => oscillating_step v hc hv) 50 (c4_initial oscillating_arguments)
    vf tr (fun _ => Or.inl ⟨?_, ?_⟩) hloop
  · simp [c4_initial, Ca_pa, oscillating_arguments]
    norm_num
  · show (0.0 : ℚ) = 0
    norm_num

/-- The slope of `curved_equation` at `0` along its Newton step `-2` is `-4`. -/
theorem curved_slope : slope_of (![-2] : Vec 1) ![2] (fun _ _ => 1) = -4 := by
  simp [slope_of, inner_product, prod]
  norm_num

/-- The floor of the step fraction for `curved_equation` is `5e-8`. -/
theorem curved_lambda_min :
    lambda_min 1.0e-7 (![-2] : Vec 1) ![0] = ((1 / 20000000 : ℚ) : WithTop ℚ) := by
  simp [lambda_min, lambda_mins]
  norm_num

/-- The merit value of `curved_equation` at the three points of its run. -/
theorem curved_f :
    f_scalar (curved_equation (full_step ![0] ![-2])) = 800 ∧
    f_scalar (curved_equation (fun i => (![0] : Vec 1) i + 1 / 10 * (![-2] : Vec 1) i)) =
      121 / 50 ∧
    f_scalar (curved_equation (fun i => (![0] : Vec 1) i + 1 / 25 * (![-2] : Vec 1) i)) =
      61504 / 31250 := by
  refine ⟨?_, ?_, ?_⟩
  · simp [f_scalar, inner_product, curved_equation, full_step]
    norm_num
  · simp [f_scalar, inner_product, curved_equation]
    norm_num
  · simp [f_scalar, inner_product, curved_equation]
    norm_num

/-- The two backtracks of `curved_equation`: the quadratic formula gives `1/401`, and the
cubic through the points of the step fractions `1` and `1/10` has `a = 800`, `b = 2` and its
minimum at `1/25`. -/
theorem curved_temporary_lambda :
    temporary_lambda Rat.sqrt (-4) (f_scalar (![2] : Vec 1)) 800 0 1 0 = some (1 / 401) ∧
    temporary_lambda Rat.sqrt (-4) (f_scalar (![2] : Vec 1)) (121 / 50) 800 (1 / 10) 1 =
      some (1 / 25) := by
  have s1 : Rat.sqrt 9604 = 98 := by
    have h : (9604 : ℚ) = 98 * 98 := by norm_num
    rw [h, Rat.sqrt_eq]
    norm_num [abs_of_pos]
  have hf : f_scalar (![2] : Vec 1) = 2 := by
    simp [f_scalar, inner_product]
    norm_num
  rw [hf]
  refine ⟨?_, ?_⟩
  · simp [temporary_lambda]
    norm_num
  · have ha : coefficient_a ((121 / 50 : ℚ) - 2 - 1 / 10 * -4) (800 - 2 - 1 * -4) (1 / 10) 1 =
        800 := by
      norm_num [coefficient_a]
    have hb : coefficient_b ((121 / 50 : ℚ) - 2 - 1 / 10 * -4) (800 - 2 - 1 * -4) (1 / 10) 1 =
        2 := by
      norm_num [coefficient_b]
    have hg : ¬ ((1 / 10 : ℚ) * (1 / 10) = 0 ∨ (1 : ℚ) * 1 = 0 ∨ (1 / 10 : ℚ) - 1 = 0) := by
      norm_num
    have h1 : ¬ ((1 / 10 : ℚ) = 1) := by norm_num
    unfold temporary_lambda
    rw [if_neg h1, if_neg hg]
    simp only [ha, hb]
    unfold cubic_minimum
    norm_num [s1]

/-- The run of the line search for `curved_equation` at `0`: the full step and the step
fraction `1/10` are rejected, and the step fraction `1/25` that the cubic gives is accepted. -/
theorem curved_run :
    newton_raphson_line_search_boost Rat.sqrt 3 (![-100] : Vec 1) ![100] 1.0e-7 1.0e-4
      ![-2] ![2] (fun _ _ => 1) curved_equation ![0] ![2] =
      some { outcome := .finished false (1 / 25)
               (fun i => (![0] : Vec 1) i + 1 / 25 * (![-2] : Vec 1) i)
               (curved_equation (fun i => (![0] : Vec 1) i + 1 / 25 * (![-2] : Vec 1) i)),
             evals := [full_step ![0] ![-2],
               fun i => (![0] : Vec 1) i + 1 / 10 * (![-2] : Vec 1) i,
               fun i => (![0] : Vec 1) i + 1 / 25 * (![-2] : Vec 1) i],
             lambdas := [1, 1 / 10, 1 / 25] } := by
  obtain ⟨f1, f2, f3⟩ := curved_f
  obtain ⟨t1, t2⟩ := curved_temporary_lambda
  have hf : f_scalar (![2] : Vec 1) = 2 := by
    simp [f_scalar, inner_product]
    norm_num
  rw [search_loop _ _ _ _ _ _ _ _ _ _ _ _
    (by intro i; fin_cases i; simp [full_step]; norm_num)
    (by rw [curved_slope]; norm_num)
    (lambda_mins_defined_of_pos _ _ _ (by norm_num))]
  rw [curved_slope, curved_lambda_min]
  have hn1 : max (1 / 401 : ℚ) (0.1 * 1) = 1 / 10 := by norm_num
  have hn2 : max (1 / 25 : ℚ) (0.1 * (1 / 10)) = 1 / 25 := by norm_num
  have hc1 : candidate (![0] : Vec 1) ![-2] (1 / 10) (full_step ![0] ![-2]) =
      fun i => (![0] : Vec 1) i + 1 / 10 * (![-2] : Vec 1) i := by
    simp [candidate]
    norm_num
  have hc2 : candidate (![0] : Vec 1) ![-2] (1 / 25)
      (fun i => (![0] : Vec 1) i + 1 / 10 * (![-2] : Vec 1) i) =
      fun i => (![0] : Vec 1) i + 1 / 25 * (![-2] : Vec 1) i := by
    simp [candidate]
    norm_num
  rw [loop_reject _ _ _ _ _ _ _ _ 2 (initial_state ![0] ![-2] ![2]) (1 / 401)
    (by simp [initial_state]; norm_num)
    (by
      simp only [initial_state, candidate_one]
      rw [f1, hf]
      norm_num)
    (by
      simp only [initial_state, candidate_one]
      rw [f1]
      exact t1)]
  simp only [initial_state, candidate_one, hn1]
  rw [loop_reject _ _ _ _ _ _ _ _ 1 _ (1 / 25)
    (by simp; norm_num)
    (by
      simp only [hc1]
      rw [f2, hf]
      norm_num)
    (by
      simp only [hc1]
      rw [f2, f1]
      exact t2)]
  simp only [hc1, hn2]
  rw [loop_accept _ _ _ _ _ _ _ _ 0 _
    (by simp; norm_num)
    (by
      simp only [hc2]
      rw [f3, hf]
      norm_num)]
  simp only [hc2]
  simp

/-- C1: box invariant of the Newton-Raphson step.  With `lower_bounds[i] <= upper_bounds[i]`
for all `i` and `x_old` inside the box, every call of `newton_raphson_line_search_boost`,
and every call of `get_next_guess`, that returns leaves an `x_new` with
`lower_bounds[i] <= x_new[i] <= upper_bounds[i]` for all `i`: after the clamped early return,
after an accepted step and after a stall alike. -/
theorem C1_box_invariant {n : Nat} (sqrt : ℚ → ℚ) (fuel : Nat)
    (lower_bounds upper_bounds : Vec n) (min_step_factor f_decrease_factor : ℚ)
    (direction F_vec_old : Vec n) (jacobian : Mat n) (F_vec : Vec n → Vec n)
    (x_old F_vec_new : Vec n)
    (calculate_jacobian_nt : (Vec n → Vec n) → Vec n → Vec n → Mat n)
    (get_newton_raphson_step_boost : Vec n → Mat n → Vec n)
    (hb : ∀ i, lower_bounds i ≤ upper_bounds i)
    (hx : within_bounds lower_bounds upper_bounds x_old) :
    (∀ (r : Run n) (x_new : Vec n),
      newton_raphson_line_search_boost sqrt fuel lower_bounds upper_bounds min_step_factor
        f_decrease_factor direction F_vec_old jacobian F_vec x_old F_vec_new = some r →
      r.outcome.x_new? = some x_new → within_bounds lower_bounds upper_bounds x_new) ∧
    (∀ (r : Run n) (output_guess : Vec n),
      get_next_guess sqrt fuel calculate_jacobian_nt get_newton_raphson_step_boost F_vec
        lower_bounds upper_bounds x_old F_vec_old = some r →
      r.outcome.x_new? = some output_guess →
      within_bounds lower_bounds upper_bounds output_guess) := by
  have key : ∀ (c m : ℚ) (d Fo Fn : Vec n) (J : Mat n) (r : Run n) (x_new : Vec n),
      newton_raphson_line_search_boost sqrt fuel lower_bounds upper_bounds m c d Fo J F_vec
        x_old Fn = some r →
      r.outcome.x_new? = some x_new → within_bounds lower_bounds upper_bounds x_new := by
    intro c m d Fo Fn J r x_new hr hxn
    by_cases hw : within_bounds lower_bounds upper_bounds (full_step x_old d)
    · by_cases hs : slope_of d Fo J < 0
      · by_cases hd : lambda_mins_defined m d x_old
        · rw [search_loop sqrt fuel lower_bounds upper_bounds m c d Fo J F_vec x_old Fn hw hs hd]
            at hr
          refine loop_invariant sqrt F_vec x_old d (lambda_min m d x_old) (f_scalar Fo)
            (slope_of d Fo J) c
            (fun s => 0 < s.lambda ∧ within_bounds lower_bounds upper_bounds s.x_new)
            (fun r => ∀ x, r.outcome.x_new? = some x → within_bounds lower_bounds upper_bounds x)
            ?_ ?_ fuel (initial_state x_old d Fn) r ⟨?_, ?_⟩ hr x_new hxn
          · intro s r1 ⟨hl, hn⟩ hbody x hx1
            have hcand := candidate_within lower_bounds upper_bounds x_old d hx hw s.lambda hl
              s.x_new hn
            rcases loop_body_cases sqrt F_vec x_old d (lambda_min m d x_old) (f_scalar Fo)
              (slope_of d Fo J) c s with ⟨_, h⟩ | ⟨_, _, h⟩ | ⟨_, _, _, h⟩ | ⟨t, _, _, _, h⟩
            all_goals rw [h] at hbody
            all_goals cases hbody
            all_goals simp [Outcome.x_new?] at hx1
            all_goals subst hx1
            all_goals exact hcand
          · intro s s1 ⟨hl, hn⟩ hbody
            have hcand := candidate_within lower_bounds upper_bounds x_old d hx hw s.lambda hl
              s.x_new hn
            rcases loop_body_cases sqrt F_vec x_old d (lambda_min m d x_old) (f_scalar Fo)
              (slope_of d Fo J) c s with ⟨_, h⟩ | ⟨_, _, h⟩ | ⟨_, _, _, h⟩ | ⟨t, _, _, _, h⟩
            all_goals rw [h] at hbody
            all_goals cases hbody
            refine ⟨?_, hcand⟩
            have : 0 < 0.1 * s.lambda := by linarith
            exact lt_of_lt_of_le this (le_max_right _ _)
          · simp [initial_state]
          · exact hw
        · rw [search_nonfinite sqrt fuel lower_bounds upper_bounds m c d Fo J F_vec x_old Fn hw
            hs hd] at hr
          cases hr
          simp [Outcome.x_new?] at hxn
      · rw [search_roundoff sqrt fuel lower_bounds upper_bounds m c d Fo J F_vec x_old Fn hw
          (not_lt.mp hs)] at hr
        cases hr
        simp [Outcome.x_new?] at hxn
    · obtain ⟨clamped, hc, he⟩ := search_outside sqrt fuel lower_bounds upper_bounds m c d Fo J
        F_vec x_old Fn hw
      rw [he] at hr
      cases hr
      simp [Outcome.x_new?] at hxn
      subst hxn
      exact clamped_within lower_bounds upper_bounds hb _ _ hc
  refine ⟨key _ _ _ _ _ _, ?_⟩
  intro r x_new hr hxn
  exact key _ _ _ _ _ _ r x_new hr hxn

/-- Scenario A, an instance of C1: the accepted full step `0 + 5` lies in `[-100, 100]`. -/
theorem C1_box_invariant_witness :
    within_bounds (![-100] : Vec 1) ![100] (full_step ![0] ![5]) :=
  (C1_box_invariant (fun _ => 0) 1 (![-100] : Vec 1) ![100] 1.0e-7 1.0e-4 ![5] ![-5]
    (fun _ _ => 1) scenario_A ![0] ![-5] (fun _ _ _ _ _ => 1) (fun _ _ => ![5])
    (by intro i; fin_cases i; simp) (by intro i; fin_cases i; simp)).1 _ _
    (scenario_A_run 0) rfl

/-- C2: sufficient decrease of accepted steps.  When a call of
`newton_raphson_line_search_boost` ends through the acceptance branch with the final step
fraction `lambda`, then `0.5*|F_vec_new|^2 <= 0.5*|F_vec_old|^2 + f_decrease_factor*lambda*slope`
with `slope = (F_vec_old * jacobian) . direction`; moreover `slope < 0` and `lambda > 0`, so
for `f_decrease_factor >= 0` the accepted step has `f(new) <= f(old)`. -/
theorem C2_sufficient_decrease {n : Nat} (sqrt : ℚ → ℚ) (fuel : Nat)
    (lower_bounds upper_bounds : Vec n) (min_step_factor f_decrease_factor : ℚ)
    (direction F_vec_old : Vec n) (jacobian : Mat n) (F_vec : Vec n → Vec n)
    (x_old F_vec_new : Vec n) (r : Run n) (lambda : ℚ) (x_new F_new : Vec n)
    (hr : newton_raphson_line_search_boost sqrt fuel lower_bounds upper_bounds min_step_factor
      f_decrease_factor direction F_vec_old jacobian F_vec x_old F_vec_new = some r)
    (hacc : r.outcome = .finished false lambda x_new F_new) :
    0.5 * inner_product F_new F_new ≤ 0.5 * inner_product F_vec_old F_vec_old +
      f_decrease_factor * lambda * inner_product direction (prod F_vec_old jacobian) ∧
    inner_product direction (prod F_vec_old jacobian) < 0 ∧ 0 < lambda ∧
    (0 ≤ f_decrease_factor →
      0.5 * inner_product F_new F_new ≤ 0.5 * inner_product F_vec_old F_vec_old) := by
  obtain ⟨hs, hl, ha⟩ := finished_run sqrt fuel lower_bounds upper_bounds min_step_factor
    f_decrease_factor direction F_vec_old jacobian F_vec x_old F_vec_new r false lambda x_new
    F_new hr hacc
  have ha1 := ha rfl
  simp only [f_scalar, slope_of] at ha1 hs
  refine ⟨ha1, hs, hl, fun hc => ?_⟩
  have : f_decrease_factor * lambda * inner_product direction (prod F_vec_old jacobian) ≤ 0 :=
    mul_nonpos_of_nonneg_of_nonpos (mul_nonneg hc hl.le) hs.le
  linarith

/-- Scenario A, an instance of C2: the accepted full step meets the decrease test. -/
theorem C2_sufficient_decrease_witness :
    0.5 * inner_product (scenario_A (full_step ![0] ![5])) (scenario_A (full_step ![0] ![5])) ≤
      0.5 * inner_product (![-5] : Vec 1) ![-5] +
        1.0e-4 * 1 * inner_product (![5] : Vec 1) (prod ![-5] (fun _ _ => 1)) ∧
    inner_product (![5] : Vec 1) (prod ![-5] (fun _ _ => 1)) < 0 ∧ (0 : ℚ) < 1 ∧
    ((0 : ℚ) ≤ 1.0e-4 →
      0.5 * inner_product (scenario_A (full_step ![0] ![5])) (scenario_A (full_step ![0] ![5])) ≤
        0.5 * inner_product (![-5] : Vec 1) ![-5]) :=
  C2_sufficient_decrease (fun _ => 0) 1 (![-100] : Vec 1) ![100] 1.0e-7 1.0e-4 ![5] ![-5]
    (fun _ _ => 1) scenario_A ![0] ![-5] _ 1 _ _ (scenario_A_run 0) rfl

/-- C3, refuted as stated: a call of `get_next_guess` that returns `true` (a stall) can leave
a larger merit value than it was given.  For `F(x) = 1 + 10^8 * |x|` at the guess `0`, with the
forward-difference Jacobian `10^8` and the Newton step `-10^-8`, the floor `lambda_min` is
`10`, so the first pass stalls at the full step, where `F = 2`: the merit value rises from
`0.5` to `2`. -/
theorem C3_counterexample :
    steep_equation ![0] = ![1] ∧
    ∃ (r : Run 1) (F_out : Vec 1),
      get_next_guess (fun _ => 0) 1 (forward_difference_jacobian 1.0e-8) newton_step_1
        steep_equation ![-100] ![100] ![0] ![1] = some r ∧
      r.outcome.ret = some true ∧ r.outcome.F_vec_new? = some F_out ∧
      ¬ (0.5 * inner_product F_out F_out ≤ 0.5 * inner_product (![1] : Vec 1) ![1]) := by
  refine ⟨by simp [steep_equation], _, _, steep_run, rfl, rfl, ?_⟩
  simp [inner_product, steep_equation, full_step]
  norm_num [abs_of_pos]

/-- C3, amended: for every call of `get_next_guess` that ends through the acceptance branch of
the line search, the merit value at the output guess does not exceed the merit value at the
input guess: `0.5*|difference_vector_at_output_guess|^2 <=
0.5*|difference_vector_at_input_guess|^2`. -/
theorem C3_accepted_merit_nonincreasing {n : Nat} (sqrt : ℚ → ℚ) (fuel : Nat)
    (calculate_jacobian_nt : (Vec n → Vec n) → Vec n → Vec n → Mat n)
    (get_newton_raphson_step_boost : Vec n → Mat n → Vec n)
    (se : Vec n → Vec n) (lower_bounds upper_bounds input_guess
      difference_vector_at_input_guess : Vec n)
    (r : Run n) (lambda : ℚ) (output_guess difference_vector_at_output_guess : Vec n)
    (hr : get_next_guess sqrt fuel calculate_jacobian_nt get_newton_raphson_step_boost se
      lower_bounds upper_bounds input_guess difference_vector_at_input_guess = some r)
    (hacc : r.outcome =
      .finished false lambda output_guess difference_vector_at_output_guess) :
    0.5 * inner_product difference_vector_at_output_guess difference_vector_at_output_guess ≤
      0.5 * inner_product difference_vector_at_input_guess difference_vector_at_input_guess := by
  unfold get_next_guess at hr
  obtain ⟨hs, hl, ha⟩ := finished_run _ _ _ _ _ _ _ _ _ _ _ _ r false lambda output_guess
    difference_vector_at_output_guess hr hacc
  have ha1 := ha rfl
  simp only [f_scalar] at ha1
  have : (1.0e-4 : ℚ) * lambda * slope_of _ _ _ ≤ 0 :=
    mul_nonpos_of_nonneg_of_nonpos (mul_nonneg (by norm_num) hl.le) hs.le
  linarith

/-- Scenario A, an instance of the amended C3: the accepted step does not raise the merit value. -/
theorem C3_accepted_merit_nonincreasing_witness :
    0.5 * inner_product (scenario_A (full_step ![0] ![5])) (scenario_A (full_step ![0] ![5])) ≤
      0.5 * inner_product (![-5] : Vec 1) ![-5] :=
  C3_accepted_merit_nonincreasing (fun _ => 0) 1 (fun _ _ _ _ _ => 1) (fun _ _ => ![5])
    scenario_A ![-100] ![100] ![0] ![-5] _ 1 _ _ (scenario_A_run 0) rfl

/-- C4: the round-off failure is raised exactly on a non-negative slope.  A call of
`newton_raphson_line_search_boost` throws "roundoff problem occurred" if and only if the full
step `x_old + direction` lies within the bounds and `slope = (F_vec_old * jacobian) . direction`
is `>= 0`; a call that throws has not evaluated the residual function at any point and has
tried no step fraction, and it throws nothing but this error. -/
theorem C4_roundoff_iff_nonnegative_slope {n : Nat} (sqrt : ℚ → ℚ) (fuel : Nat)
    (lower_bounds upper_bounds : Vec n) (min_step_factor f_decrease_factor : ℚ)
    (direction F_vec_old : Vec n) (jacobian : Mat n) (F_vec : Vec n → Vec n)
    (x_old F_vec_new : Vec n) :
    ((∃ r : Run n,
        newton_raphson_line_search_boost sqrt fuel lower_bounds upper_bounds min_step_factor
          f_decrease_factor direction F_vec_old jacobian F_vec x_old F_vec_new = some r ∧
        r.outcome = .threw roundoff_message) ↔
      ((∀ i, lower_bounds i ≤ x_old i + direction i ∧ x_old i + direction i ≤ upper_bounds i) ∧
        0 ≤ inner_product direction (prod F_vec_old jacobian))) ∧
    (∀ (r : Run n) (msg : String),
      newton_raphson_line_search_boost sqrt fuel lower_bounds upper_bounds min_step_factor
        f_decrease_factor direction F_vec_old jacobian F_vec x_old F_vec_new = some r →
      r.outcome = .threw msg →
      msg = roundoff_message ∧ r.evals = [] ∧ r.lambdas = []) := by
  have hthrow : ∀ (r : Run n) (msg : String),
      newton_raphson_line_search_boost sqrt fuel lower_bounds upper_bounds min_step_factor
        f_decrease_factor direction F_vec_old jacobian F_vec x_old F_vec_new = some r →
      r.outcome = .threw msg →
      (within_bounds lower_bounds upper_bounds (full_step x_old direction) ∧
        0 ≤ slope_of direction F_vec_old jacobian) ∧
      msg = roundoff_message ∧ r.evals = [] ∧ r.lambdas = [] := by
    intro r msg hr ht
    rcases search_cases sqrt fuel lower_bounds upper_bounds min_step_factor f_decrease_factor
      direction F_vec_old jacobian F_vec x_old F_vec_new with
      ⟨_, c, _, h⟩ | ⟨hw, hs, h⟩ | ⟨_, _, _, h⟩ | ⟨_, _, _, h⟩
    · rw [h] at hr
      cases hr
      cases ht
    · rw [h] at hr
      cases hr
      cases ht
      exact ⟨⟨hw, hs⟩, rfl, rfl, rfl⟩
    · rw [h] at hr
      cases hr
      cases ht
    · rw [h] at hr
      rcases loop_outcome sqrt F_vec x_old direction _ _ _ _ fuel _ r hr with
        h1 | ⟨b, l, x, F, h1, _⟩
      · rw [h1] at ht
        cases ht
      · rw [h1] at ht
        cases ht
  refine ⟨⟨?_, ?_⟩, fun r msg hr ht => (hthrow r msg hr ht).2⟩
  · rintro ⟨r, hr, ht⟩
    exact (hthrow r _ hr ht).1
  · rintro ⟨hw, hs⟩
    exact ⟨_, search_roundoff sqrt fuel lower_bounds upper_bounds min_step_factor
      f_decrease_factor direction F_vec_old jacobian F_vec x_old F_vec_new hw hs, rfl⟩

/-- C5: an out-of-bounds full step is clamped and rejected without error.  When some
component of `x_old + direction` lies outside `[lower_bounds[i], upper_bounds[i]]`, the call
returns `false` without throwing, whatever the slope is, and without a pass through the loop
(no step fraction is tried); in the output `x_new` every component of `x_old + direction`
that is in range is unchanged and every other one is replaced by a bound it violated. -/
theorem C5_out_of_bounds_clamped {n : Nat} (sqrt : ℚ → ℚ) (fuel : Nat)
    (lower_bounds upper_bounds : Vec n) (min_step_factor f_decrease_factor : ℚ)
    (direction F_vec_old : Vec n) (jacobian : Mat n) (F_vec : Vec n → Vec n)
    (x_old F_vec_new : Vec n)
    (h : ∃ i, x_old i + direction i < lower_bounds i ∨ upper_bounds i < x_old i + direction i) :
    ∃ (r : Run n) (x_new : Vec n),
      newton_raphson_line_search_boost sqrt fuel lower_bounds upper_bounds min_step_factor
        f_decrease_factor direction F_vec_old jacobian F_vec x_old F_vec_new = some r ∧
      r.outcome.ret = some false ∧ r.lambdas = [] ∧ r.outcome.x_new? = some x_new ∧
      ∀ i,
        (lower_bounds i ≤ x_old i + direction i → x_old i + direction i ≤ upper_bounds i →
          x_new i = x_old i + direction i) ∧
        (x_old i + direction i < lower_bounds i ∨ upper_bounds i < x_old i + direction i →
          (x_old i + direction i < lower_bounds i ∧ x_new i = lower_bounds i) ∨
          (upper_bounds i < x_old i + direction i ∧ x_new i = upper_bounds i)) := by
  have hw : ¬ within_bounds lower_bounds upper_bounds (full_step x_old direction) :=
    (not_within_bounds_iff lower_bounds upper_bounds (full_step x_old direction)).mpr h
  obtain ⟨clamped, hc, he⟩ := search_outside sqrt fuel lower_bounds upper_bounds
    min_step_factor f_decrease_factor direction F_vec_old jacobian F_vec x_old F_vec_new hw
  refine ⟨_, clamped, he, rfl, rfl, rfl, ?_⟩
  intro i
  have hci := hc i
  simp only [full_step] at hci
  constructor
  · intro h1 h2
    rw [hci, if_neg (not_lt.mpr h1), if_neg (not_lt.mpr h2)]
  · intro h1
    by_cases h2 : x_old i + direction i < lower_bounds i
    · left
      exact ⟨h2, by rw [hci, if_pos h2]⟩
    · right
      have h3 : upper_bounds i < x_old i + direction i := h1.resolve_left h2
      exact ⟨h3, by rw [hci, if_neg h2, if_pos h3]⟩

/-- An instance of C5: the full step `0 + 200` is clamped to the upper bound `100`. -/
theorem C5_out_of_bounds_clamped_witness :
    ∃ (r : Run 1) (x_new : Vec 1),
      newton_raphson_line_search_boost (fun _ => 0) 0 ![-100] ![100] 1.0e-7 1.0e-4 ![200] ![-5]
        (fun _ _ => 1) scenario_A ![0] ![-5] = some r ∧
      r.outcome.ret = some false ∧ r.lambdas = [] ∧ r.outcome.x_new? = some x_new ∧
      ∀ i : Fin 1,
        ((![-100] : Vec 1) i ≤ (![0] : Vec 1) i + (![200] : Vec 1) i →
          (![0] : Vec 1) i + (![200] : Vec 1) i ≤ (![100] : Vec 1) i →
          x_new i = (![0] : Vec 1) i + (![200] : Vec 1) i) ∧
        ((![0] : Vec 1) i + (![200] : Vec 1) i < (![-100] : Vec 1) i ∨
            (![100] : Vec 1) i < (![0] : Vec 1) i + (![200] : Vec 1) i →
          ((![0] : Vec 1) i + (![200] : Vec 1) i < (![-100] : Vec 1) i ∧
            x_new i = (![-100] : Vec 1) i) ∨
          ((![100] : Vec 1) i < (![0] : Vec 1) i + (![200] : Vec 1) i ∧
            x_new i = (![100] : Vec 1) i)) :=
  C5_out_of_bounds_clamped (fun _ => 0) 0 ![-100] ![100] 1.0e-7 1.0e-4 ![200] ![-5]
    (fun _ _ => 1) scenario_A ![0] ![-5] ⟨0, Or.inr (by simp; norm_num)⟩

/-- C6: a point exactly on a bound is not out of bounds.  When every component of
`x_old + direction` satisfies `lower_bounds[i] <= x_old[i] + direction[i] <= upper_bounds[i]`,
equality included, the early return is not taken: the call goes on to the slope test, throws
for `slope >= 0`, and for `slope < 0` enters the loop with `x_new` equal to
`x_old + direction`. -/
theorem C6_on_bound_not_out_of_bounds {n : Nat} (sqrt : ℚ → ℚ) (fuel : Nat)
    (lower_bounds upper_bounds : Vec n) (min_step_factor f_decrease_factor : ℚ)
    (direction F_vec_old : Vec n) (jacobian : Mat n) (F_vec : Vec n → Vec n)
    (x_old F_vec_new : Vec n)
    (h : ∀ i, lower_bounds i ≤ x_old i + direction i ∧ x_old i + direction i ≤ upper_bounds i) :
    (∀ (r : Run n) (x_new F_new : Vec n),
      newton_raphson_line_search_boost sqrt fuel lower_bounds upper_bounds min_step_factor
        f_decrease_factor direction F_vec_old jacobian F_vec x_old F_vec_new = some r →
      r.outcome ≠ .out_of_bounds x_new F_new) ∧
    (0 ≤ inner_product direction (prod F_vec_old jacobian) →
      newton_raphson_line_search_boost sqrt fuel lower_bounds upper_bounds min_step_factor
        f_decrease_factor direction F_vec_old jacobian F_vec x_old F_vec_new =
        some { outcome := .threw roundoff_message, evals := [], lambdas := [] }) ∧
    (inner_product direction (prod F_vec_old jacobian) < 0 →
      lambda_mins_defined min_step_factor direction x_old →
      newton_raphson_line_search_boost sqrt fuel lower_bounds upper_bounds min_step_factor
        f_decrease_factor direction F_vec_old jacobian F_vec x_old F_vec_new =
        loop sqrt F_vec x_old direction (lambda_min min_step_factor direction x_old)
          (0.5 * inner_product F_vec_old F_vec_old)
          (inner_product direction (prod F_vec_old jacobian)) f_decrease_factor fuel
          { lambda := 1, lambda_2 := 0, f_scalar_2 := 0,
            x_new := fun i => x_old i + direction i, F_vec_new := F_vec_new,
            evals := [], lambdas := [] }) := by
  have hw : within_bounds lower_bounds upper_bounds (full_step x_old direction) := h
  refine ⟨?_, ?_, ?_⟩
  · intro r x_new F_new hr ho
    rcases search_cases sqrt fuel lower_bounds upper_bounds min_step_factor f_decrease_factor
      direction F_vec_old jacobian F_vec x_old F_vec_new with
      ⟨hn, _⟩ | ⟨_, _, h1⟩ | ⟨_, _, _, h1⟩ | ⟨_, _, _, h1⟩
    · exact hn hw
    · rw [h1] at hr
      cases hr
      cases ho
    · rw [h1] at hr
      cases hr
      cases ho
    · rw [h1] at hr
      rcases loop_outcome sqrt F_vec x_old direction _ _ _ _ fuel _ r hr with
        h2 | ⟨b, l, x, F, h2, _⟩
      · rw [h2] at ho
        cases ho
      · rw [h2] at ho
        cases ho
  · intro hs
    exact search_roundoff sqrt fuel lower_bounds upper_bounds min_step_factor f_decrease_factor
      direction F_vec_old jacobian F_vec x_old F_vec_new hw hs
  · intro hs hd
    exact search_loop sqrt fuel lower_bounds upper_bounds min_step_factor f_decrease_factor
      direction F_vec_old jacobian F_vec x_old F_vec_new hw hs hd

/-- An instance of C6: the full step `0 + 5` lies exactly on the upper bound `5`, and the call
enters the loop with it. -/
theorem C6_on_bound_not_out_of_bounds_witness :
    newton_raphson_line_search_boost (fun _ => 0) 1 (![-100] : Vec 1) ![5] 1.0e-7 1.0e-4 ![5]
      ![-5] (fun _ _ => 1) scenario_A ![0] ![-5] =
      loop (fun _ => 0) scenario_A ![0] ![5] (lambda_min 1.0e-7 (![5] : Vec 1) ![0])
        (0.5 * inner_product (![-5] : Vec 1) ![-5])
        (inner_product (![5] : Vec 1) (prod ![-5] (fun _ _ => 1))) 1.0e-4 1
        { lambda := 1, lambda_2 := 0, f_scalar_2 := 0,
          x_new := fun i => (![0] : Vec 1) i + (![5] : Vec 1) i, F_vec_new := ![-5],
          evals := [], lambdas := [] } :=
  (C6_on_bound_not_out_of_bounds (fun _ => 0) 1 (![-100] : Vec 1) ![5] 1.0e-7 1.0e-4 ![5] ![-5]
    (fun _ _ => 1) scenario_A ![0] ![-5] (by intro i; fin_cases i; simp; norm_num)).2.2
    (by have := scenario_A_slope; unfold slope_of at this; rw [this]; norm_num)
    (lambda_mins_defined_of_pos _ _ _ (by norm_num))

/-- C7: stall signalling.  A call of `newton_raphson_line_search_boost` returns `true` if and
only if the loop ended because the step fraction `lambda` just tried was strictly smaller than
`lambda_min`, the minimum over `i` of
`min_step_factor * max(|x_old[i]|, 1) / |direction[i]|`; every other call that returns (an
accepted step, a clamped out-of-bounds full step) returns `false`. -/
theorem C7_stall_signalling {n : Nat} (sqrt : ℚ → ℚ) (fuel : Nat)
    (lower_bounds upper_bounds : Vec n) (min_step_factor f_decrease_factor : ℚ)
    (direction F_vec_old : Vec n) (jacobian : Mat n) (F_vec : Vec n → Vec n)
    (x_old F_vec_new : Vec n) (r : Run n) (b : Bool)
    (hr : newton_raphson_line_search_boost sqrt fuel lower_bounds upper_bounds min_step_factor
      f_decrease_factor direction F_vec_old jacobian F_vec x_old F_vec_new = some r)
    (hb : r.outcome.ret = some b) :
    (b = true ↔
      ∃ lambda : ℚ, r.lambdas.getLast? = some lambda ∧
        (lambda : WithTop ℚ) < lambda_min min_step_factor direction x_old) := by
  rcases search_cases sqrt fuel lower_bounds upper_bounds min_step_factor f_decrease_factor
    direction F_vec_old jacobian F_vec x_old F_vec_new with
    ⟨_, c, _, h1⟩ | ⟨_, _, h1⟩ | ⟨_, _, _, h1⟩ | ⟨_, _, _, h1⟩
  · rw [h1] at hr
    cases hr
    simp [Outcome.ret] at hb
    subst hb
    simp
  · rw [h1] at hr
    cases hr
    simp [Outcome.ret] at hb
  · rw [h1] at hr
    cases hr
    simp [Outcome.ret] at hb
  · rw [h1] at hr
    rcases loop_outcome sqrt F_vec x_old direction _ _ _ _ fuel _ r hr with
      h2 | ⟨b1, l, x, F, h2, h3, h4⟩
    · rw [h2] at hb
      simp [Outcome.ret] at hb
    · rw [h2] at hb
      simp [Outcome.ret] at hb
      subst hb
      rw [h3]
      constructor
      · intro hb1
        exact ⟨l, rfl, h4.mp hb1⟩
      · rintro ⟨l1, hl1, hlt⟩
        cases hl1
        exact h4.mpr hlt

/-- Scenario A, an instance of C7: the call returns `false`, and its last step fraction `1` is
not below the floor. -/
theorem C7_stall_signalling_witness :
    (false = true ↔
      ∃ lambda : ℚ, ([1] : List ℚ).getLast? = some lambda ∧
        (lambda : WithTop ℚ) < lambda_min 1.0e-7 (![5] : Vec 1) ![0]) :=
  C7_stall_signalling (fun _ => 0) 1 (![-100] : Vec 1) ![100] 1.0e-7 1.0e-4 ![5] ![-5]
    (fun _ _ => 1) scenario_A ![0] ![-5] _ false (scenario_A_run 0) rfl

/-- C9: a zero Newton direction is reported as a failure before any pass through the loop.
When `direction` is the zero vector and `x_old` lies within the bounds, the call of
`newton_raphson_line_search_boost` throws (the slope is zero) instead of returning a guess,
without having evaluated the residual function at any point. -/
theorem C9_zero_direction_fails {n : Nat} (sqrt : ℚ → ℚ) (fuel : Nat)
    (lower_bounds upper_bounds : Vec n) (min_step_factor f_decrease_factor : ℚ)
    (F_vec_old : Vec n) (jacobian : Mat n) (F_vec : Vec n → Vec n)
    (x_old F_vec_new : Vec n)
    (hx : ∀ i, lower_bounds i ≤ x_old i ∧ x_old i ≤ upper_bounds i) :
    newton_raphson_line_search_boost sqrt fuel lower_bounds upper_bounds min_step_factor
      f_decrease_factor (fun _ => 0) F_vec_old jacobian F_vec x_old F_vec_new =
      some { outcome := .threw roundoff_message, evals := [], lambdas := [] } := by
  apply search_roundoff
  · intro i
    simpa [full_step] using hx i
  · simp [slope_of, inner_product]

/-- An instance of C9: the zero direction at the guess `0` within `[-100, 100]`. -/
theorem C9_zero_direction_fails_witness :
    newton_raphson_line_search_boost (fun _ => 0) 1 (![-100] : Vec 1) ![100] 1.0e-7 1.0e-4
      (fun _ => 0) ![-5] (fun _ _ => 1) scenario_A ![0] ![-5] =
      some { outcome := .threw roundoff_message, evals := [], lambdas := [] } :=
  C9_zero_direction_fails (fun _ => 0) 1 (![-100] : Vec 1) ![100] 1.0e-7 1.0e-4 ![-5]
    (fun _ _ => 1) scenario_A ![0] ![-5] (by intro i; fin_cases i; simp)

/-- C10: unknown solver names are reported, known ones are constructed.  For every choice of
the tolerances and of `max_it`, `se_solver_factory::create` fails with `std::out_of_range` if
and only if the name is no key of `se_solver_creators`; the message is then the name in double
quotes followed by " was given as an se_solver name, but no se_solver with that name could be
found.\n." and no solver is constructed; for a key, the solver its creator makes is
returned. -/
theorem C10_unknown_name_reported {Solver : Type} (create_fixed_point : se_solver_creator Solver)
    (se_solver_name : String) (rel_error_tol abs_error_tol : ℚ) (max_it : Int) :
    ((∃ what : String,
        create create_fixed_point se_solver_name rel_error_tol abs_error_tol max_it =
          .error (.out_of_range what)) ↔
      se_solver_name ∉ get_solvers create_fixed_point) ∧
    (se_solver_name ∉ get_solvers create_fixed_point →
      create create_fixed_point se_solver_name rel_error_tol abs_error_tol max_it =
        .error (.out_of_range ("\"" ++ se_solver_name ++
          "\" was given as an se_solver name, but no se_solver with that name could be found.\n."))) ∧
    (se_solver_name ∈ get_solvers create_fixed_point →
      ∃ creator : se_solver_creator Solver,
        (se_solver_name, creator) ∈ se_solver_creators create_fixed_point ∧
        create create_fixed_point se_solver_name rel_error_tol abs_error_tol max_it =
          .ok (creator rel_error_tol abs_error_tol max_it)) := by
  have hmsg : "\"" ++ se_solver_name ++ "\"" ++ " was given as an se_solver name, "
      ++ "but no se_solver with that name could be found.\n." =
      "\"" ++ se_solver_name ++
        "\" was given as an se_solver name, but no se_solver with that name could be found.\n." := by
    rw [String.append_assoc, String.append_assoc]
    rfl
  by_cases h : se_solver_name = "fixed_point"
  · subst h
    have hin : "fixed_point" ∈ get_solvers create_fixed_point := by
      simp [get_solvers, se_solver_creators]
    have hc : create create_fixed_point "fixed_point" rel_error_tol abs_error_tol max_it =
        .ok (create_fixed_point rel_error_tol abs_error_tol max_it) := by
      simp [create, se_solver_creators, List.lookup]
    refine ⟨⟨?_, fun hn => absurd hin hn⟩, fun hn => absurd hin hn, fun _ => ?_⟩
    · rintro ⟨what, hw⟩
      rw [hc] at hw
      cases hw
    · exact ⟨create_fixed_point, by simp [se_solver_creators], hc⟩
  · have hnin : se_solver_name ∉ get_solvers create_fixed_point := by
      simp [get_solvers, se_solver_creators, h]
    have hc : create create_fixed_point se_solver_name rel_error_tol abs_error_tol max_it =
        .error (.out_of_range ("\"" ++ se_solver_name ++
          "\" was given as an se_solver name, but no se_solver with that name could be found.\n.")) := by
      rw [← hmsg]
      have hb : (se_solver_name == "fixed_point") = false := by simpa using h
      simp [create, se_solver_creators, List.lookup, hb]
    exact ⟨⟨fun _ => hnin, fun _ => ⟨_, hc⟩⟩, fun _ => hc, fun hin => absurd hin hnin⟩

/-- C11, refuted as stated: the registry has no entry for the Newton-Raphson backtracking
strategy.  The name that the class `newton_raphson_backtrack_boost` passes to `se_solver` is
not among the names that `get_solvers` lists, and `create` fails for it with
`std::out_of_range`. -/
theorem C11_counterexample :
    newton_raphson_backtrack_boost_name ∉
      get_solvers (fun _ _ _ => "a fixed_point solver" : se_solver_creator String) ∧
    create (fun _ _ _ => "a fixed_point solver" : se_solver_creator String)
      newton_raphson_backtrack_boost_name 1.0e-3 1.0e-6 50 =
      .error (.out_of_range ("\"newton_raphson_backtrack_boost\" was given as an se_solver " ++
        "name, but no se_solver with that name could be found.\n.")) := by
  constructor
  · simp [get_solvers, se_solver_creators, newton_raphson_backtrack_boost_name]
  · rfl

/-- C11, amended: of the two strategies only the fixed-point one is obtainable from the
registry.  `se_solver_factory::get_solvers()` lists exactly the name "fixed_point", and
`se_solver_factory::create` succeeds for it, for every choice of the tolerances and of
`max_it`, with the solver that `create_se_solver<fixed_point>` makes; the name
"newton_raphson_backtrack_boost" is no key of the table, and `create` fails for it with
`std::out_of_range`. -/
theorem C11_fixed_point_obtainable {Solver : Type}
    (create_fixed_point : se_solver_creator Solver) (rel_error_tol abs_error_tol : ℚ)
    (max_it : Int) :
    get_solvers create_fixed_point = ["fixed_point"] ∧
    create create_fixed_point "fixed_point" rel_error_tol abs_error_tol max_it =
      .ok (create_fixed_point rel_error_tol abs_error_tol max_it) ∧
    newton_raphson_backtrack_boost_name ∉ get_solvers create_fixed_point ∧
    ∃ what : String,
      create create_fixed_point newton_raphson_backtrack_boost_name rel_error_tol abs_error_tol
        max_it = .error (.out_of_range what) := by
  refine ⟨rfl, rfl, ?_, ⟨_, rfl⟩⟩
  simp [get_solvers, se_solver_creators, newton_raphson_backtrack_boost_name]

/-- C12: the fixed-point loop of `c4photoC` always stops at its iteration cap and returns a
result.  For every input (and every `pow`, `exp`, `sqrt`, `ball_berry` and
`conductance_limited_assim` that return), with fuel for `max_iterations = 50` passes: the call
returns, the loop body was executed at least once and at most 50 times, the returned
`iterations` is at most 50, and the returned `Assim`, `Gs`, `Ci`, `GrossAssim` and
`Assim_conductance` are those of the variables as the last pass left them, whether or not the
tolerance was met. -/
theorem C12_loop_stops_at_cap (e : c4photo_externals) (fuel : Nat) (a : c4photoC_arguments)
    (h : max_iterations ≤ fuel) :
    ∃ (r : c4_run) (last : c4_vars),
      c4photoC e fuel a = some r ∧
      1 ≤ r.passes.length ∧ r.passes.length ≤ 50 ∧
      0 ≤ r.result.iterations ∧ r.result.iterations ≤ 50 ∧
      r.passes.getLast? = some last ∧
      r.result.Assim = last.Assim ∧ r.result.Gs = last.Gs ∧
      r.result.Ci = last.InterCellularCO2 / a.atmospheric_pressure * 1e6 ∧
      r.result.GrossAssim = last.Assim + RT e a ∧
      r.result.Assim_conductance = last.an_conductance := by
  obtain ⟨r, m, last, hr, hlen, hm, _, hlast, hA, hG, hC, hGA, hN, _, hend⟩ :=
    c4photoC_spec e fuel a h
  have hm50 : m < 50 := hm
  refine ⟨r, last, hr, by omega, by omega, Nat.zero_le _, ?_, hlast, hA, hG, hC, hGA, hN⟩
  rcases hend with ⟨e1, _⟩ | ⟨e1, _, _⟩
  · omega
  · rw [e1]
    exact le_refl _

/-- An instance of C12: the example arguments, with fuel for 50 passes. -/
theorem C12_loop_stops_at_cap_witness :
    ∃ (r : c4_run) (last : c4_vars),
      c4photoC example_externals 50 example_arguments = some r ∧
      1 ≤ r.passes.length ∧ r.passes.length ≤ 50 ∧
      0 ≤ r.result.iterations ∧ r.result.iterations ≤ 50 ∧
      r.passes.getLast? = some last ∧
      r.result.Assim = last.Assim ∧ r.result.Gs = last.Gs ∧
      r.result.Ci = last.InterCellularCO2 / example_arguments.atmospheric_pressure * 1e6 ∧
      r.result.GrossAssim = last.Assim + RT example_externals example_arguments ∧
      r.result.Assim_conductance = last.an_conductance :=
  C12_loop_stops_at_cap example_externals 50 example_arguments (by decide)

/-- C14: saturation of the linear water-stress factor.  For `soil_wilting_point <=
soil_field_capacity` and `soil_water_content >= soil_field_capacity` the output `StomataWS` is
exactly `1`, and for `soil_water_content < soil_wilting_point` it is exactly
`StomataWS_min`. -/
theorem C14_saturation (soil_field_capacity soil_wilting_point soil_water_content
    StomataWS_min : ℚ) :
    (soil_wilting_point ≤ soil_field_capacity → soil_field_capacity ≤ soil_water_content →
      ed_stomata_water_stress_linear.do_operation soil_field_capacity soil_wilting_point
        soil_water_content StomataWS_min = 1) ∧
    (soil_water_content < soil_wilting_point →
      ed_stomata_water_stress_linear.do_operation soil_field_capacity soil_wilting_point
        soil_water_content StomataWS_min = StomataWS_min) := by
  exact ⟨do_operation_top _ _ _ _, do_operation_below _ _ _ _⟩

/-- C15: between the wilting point and the field capacity the stress factor is the straight
line joining the two saturation values.  For `soil_wilting_point <= soil_water_content <
soil_field_capacity` the output is `StomataWS_min + (1 - StomataWS_min) * (soil_water_content -
soil_wilting_point) / (soil_field_capacity - soil_wilting_point)`; it is `StomataWS_min` at the
wilting point, it is `1` at the field capacity, and it comes as close to `1` as one likes for
water contents close enough below the field capacity: there is no jump at either
breakpoint. -/
theorem C15_straight_line (soil_field_capacity soil_wilting_point soil_water_content
    StomataWS_min : ℚ) (h1 : soil_wilting_point ≤ soil_water_content)
    (h2 : soil_water_content < soil_field_capacity) :
    ed_stomata_water_stress_linear.do_operation soil_field_capacity soil_wilting_point
        soil_water_content StomataWS_min =
      StomataWS_min + (1 - StomataWS_min) * (soil_water_content - soil_wilting_point) /
        (soil_field_capacity - soil_wilting_point) ∧
    ed_stomata_water_stress_linear.do_operation soil_field_capacity soil_wilting_point
        soil_wilting_point StomataWS_min = StomataWS_min ∧
    ed_stomata_water_stress_linear.do_operation soil_field_capacity soil_wilting_point
        soil_field_capacity StomataWS_min = 1 ∧
    (∀ ε : ℚ, 0 < ε → ∃ δ : ℚ, 0 < δ ∧ ∀ w : ℚ, soil_wilting_point ≤ w →
      w < soil_field_capacity → soil_field_capacity - w < δ →
      |ed_stomata_water_stress_linear.do_operation soil_field_capacity soil_wilting_point w
        StomataWS_min - 1| < ε) := by
  have hlt : soil_wilting_point < soil_field_capacity := lt_of_le_of_lt h1 h2
  have hpos : 0 < soil_field_capacity - soil_wilting_point := by linarith
  refine ⟨do_operation_middle _ _ _ _ h1 h2, ?_, ?_, ?_⟩
  · rw [do_operation_middle _ _ _ _ (le_refl _) hlt]
    simp
  · exact do_operation_top _ _ _ _ hlt.le (le_refl _)
  · intro ε hε
    refine ⟨ε * (soil_field_capacity - soil_wilting_point) / (|1 - StomataWS_min| + 1),
      by positivity, ?_⟩
    intro w hw1 hw2 hw3
    rw [do_operation_middle _ _ _ _ hw1 hw2]
    have hk : 0 < |1 - StomataWS_min| + 1 := by positivity
    have e1 : StomataWS_min + (1 - StomataWS_min) * (w - soil_wilting_point) /
        (soil_field_capacity - soil_wilting_point) - 1 =
        -((1 - StomataWS_min) * ((soil_field_capacity - w) /
          (soil_field_capacity - soil_wilting_point))) := by
      field_simp
      ring
    rw [e1, abs_neg, abs_mul]
    have hq : 0 ≤ (soil_field_capacity - w) / (soil_field_capacity - soil_wilting_point) :=
      div_nonneg (by linarith) hpos.le
    rw [abs_of_nonneg hq]
    have hq2 : (soil_field_capacity - w) / (soil_field_capacity - soil_wilting_point) <
        ε / (|1 - StomataWS_min| + 1) := by
      rw [div_lt_div_iff₀ hpos hk]
      have := (lt_div_iff₀ hk).mp hw3
      nlinarith
    have h3 : |1 - StomataWS_min| * ((soil_field_capacity - w) /
        (soil_field_capacity - soil_wilting_point)) ≤
        |1 - StomataWS_min| * (ε / (|1 - StomataWS_min| + 1)) :=
      mul_le_mul_of_nonneg_left hq2.le (abs_nonneg _)
    have h4 : |1 - StomataWS_min| * (ε / (|1 - StomataWS_min| + 1)) < ε := by
      rw [← mul_div_assoc, div_lt_iff₀ hk]
      nlinarith [abs_nonneg (1 - StomataWS_min)]
    linarith

/-- An instance of C15: wilting point `0.1`, field capacity `0.3`, water content `0.2` and
minimum `0.5` give the stress factor `0.75`. -/
theorem C15_straight_line_witness :
    ed_stomata_water_stress_linear.do_operation 0.3 0.1 0.2 0.5 =
      0.5 + (1 - 0.5) * (0.2 - 0.1) / (0.3 - 0.1) :=
  (C15_straight_line 0.3 0.1 0.2 0.5 (by norm_num) (by norm_num)).1

/-- C16: `StomataWS_min` is the minimum and `1` is the maximum of the linear water-stress
factor.  For `soil_wilting_point < soil_field_capacity` and `StomataWS_min <= 1`, and every
`soil_water_content`, the output satisfies `StomataWS_min <= StomataWS <= 1`. -/
theorem C16_bounds (soil_field_capacity soil_wilting_point soil_water_content
    StomataWS_min : ℚ) (h1 : soil_wilting_point < soil_field_capacity)
    (h2 : StomataWS_min ≤ 1) :
    StomataWS_min ≤ ed_stomata_water_stress_linear.do_operation soil_field_capacity
        soil_wilting_point soil_water_content StomataWS_min ∧
    ed_stomata_water_stress_linear.do_operation soil_field_capacity soil_wilting_point
        soil_water_content StomataWS_min ≤ 1 := by
  by_cases hb : soil_water_content < soil_wilting_point
  · rw [do_operation_below _ _ _ _ hb]
    exact ⟨le_refl _, h2⟩
  · by_cases hm : soil_water_content < soil_field_capacity
    · rw [do_operation_middle _ _ _ _ (not_lt.mp hb) hm]
      have hpos : 0 < soil_field_capacity - soil_wilting_point := by linarith
      have ht0 : 0 ≤ (soil_water_content - soil_wilting_point) /
          (soil_field_capacity - soil_wilting_point) :=
        div_nonneg (by linarith [not_lt.mp hb]) hpos.le
      have ht1 : (soil_water_content - soil_wilting_point) /
          (soil_field_capacity - soil_wilting_point) ≤ 1 := by
        rw [div_le_one hpos]
        linarith
      rw [mul_div_assoc]
      constructor
      · nlinarith [mul_nonneg (sub_nonneg.mpr h2) ht0]
      · nlinarith [mul_nonneg (sub_nonneg.mpr h2) (sub_nonneg.mpr ht1)]
    · rw [do_operation_top _ _ _ _ h1.le (not_lt.mp hm)]
      exact ⟨h2, le_refl _⟩

/-- An instance of C16: wilting point `0.1`, field capacity `0.3`, water content `0.2` and
minimum `0.5`. -/
theorem C16_bounds_witness :
    (0.5 : ℚ) ≤ ed_stomata_water_stress_linear.do_operation 0.3 0.1 0.2 0.5 ∧
    ed_stomata_water_stress_linear.do_operation 0.3 0.1 0.2 0.5 ≤ 1 :=
  C16_bounds 0.3 0.1 0.2 0.5 (by norm_num) (by norm_num)

/-- C17: the full Newton step is tried first and taken when acceptable.  When `x_old +
direction` is within the bounds, `slope < 0`, `lambda_min <= 1` (every component of
`lambda_mins` being a number or `+inf`), and `0.5*|F(x_old + direction)|^2 <=
0.5*|F_vec_old|^2 + f_decrease_factor*slope`, the call returns `false` with `x_new = x_old +
direction` and `F_vec_new = F(x_old + direction)`, after one pass through the loop with the
step fraction `1` and exactly one evaluation of the residual function. -/
theorem C17_full_step_accepted {n : Nat} (sqrt : ℚ → ℚ) (fuel : Nat)
    (lower_bounds upper_bounds : Vec n) (min_step_factor f_decrease_factor : ℚ)
    (direction F_vec_old : Vec n) (jacobian : Mat n) (F_vec : Vec n → Vec n)
    (x_old F_vec_new : Vec n)
    (hw : ∀ i, lower_bounds i ≤ x_old i + direction i ∧ x_old i + direction i ≤ upper_bounds i)
    (hs : inner_product direction (prod F_vec_old jacobian) < 0)
    (hd : lambda_mins_defined min_step_factor direction x_old)
    (hm : lambda_min min_step_factor direction x_old ≤ 1)
    (ha : 0.5 * inner_product (F_vec (fun i => x_old i + direction i))
        (F_vec (fun i => x_old i + direction i)) ≤
      0.5 * inner_product F_vec_old F_vec_old +
        f_decrease_factor * inner_product direction (prod F_vec_old jacobian)) :
    ∃ r : Run n,
      newton_raphson_line_search_boost sqrt (fuel + 1) lower_bounds upper_bounds
        min_step_factor f_decrease_factor direction F_vec_old jacobian F_vec x_old F_vec_new =
        some r ∧
      r.outcome = .finished false 1 (fun i => x_old i + direction i)
        (F_vec (fun i => x_old i + direction i)) ∧
      r.outcome.ret = some false ∧
      r.evals = [fun i => x_old i + direction i] ∧ r.lambdas = [1] := by
  refine ⟨_, search_accept_full_step sqrt fuel lower_bounds upper_bounds min_step_factor
    f_decrease_factor direction F_vec_old jacobian F_vec x_old F_vec_new hw hs hd
    (not_lt.mpr hm) ?_, rfl, rfl, rfl, rfl⟩
  rw [mul_one]
  exact ha

/-- Scenario A, an instance of C17: the full step from `0` to `5` is accepted in the first
pass. -/
theorem C17_full_step_accepted_witness :
    ∃ r : Run 1,
      newton_raphson_line_search_boost (fun _ => 0) (0 + 1) (![-100] : Vec 1) ![100] 1.0e-7
        1.0e-4 ![5] ![-5] (fun _ _ => 1) scenario_A ![0] ![-5] = some r ∧
      r.outcome = .finished false 1 (fun i => (![0] : Vec 1) i + (![5] : Vec 1) i)
        (scenario_A (fun i => (![0] : Vec 1) i + (![5] : Vec 1) i)) ∧
      r.outcome.ret = some false ∧
      r.evals = [fun i => (![0] : Vec 1) i + (![5] : Vec 1) i] ∧ r.lambdas = [1] :=
  C17_full_step_accepted (fun _ => 0) 0 (![-100] : Vec 1) ![100] 1.0e-7 1.0e-4 ![5] ![-5]
    (fun _ _ => 1) scenario_A ![0] ![-5] scenario_A_within
    (by have := scenario_A_slope; unfold slope_of at this; rw [this]; norm_num)
    (lambda_mins_defined_of_pos _ _ _ (by norm_num))
    (by rw [scenario_A_lambda_min]; norm_cast; norm_num)
    (by
      have := scenario_A_slope
      unfold slope_of at this
      rw [this]
      simp [inner_product, scenario_A]
      norm_num)

/-- C18, refuted as stated: after the rejection of the full step the next step fraction can
exceed `0.5 * lambda_prev`.  For `F(x) = 1 + x + 0.99995 * x^2` at `x_old = 0`, with the
Jacobian `1`, the Newton step `-1`, `min_step_factor = 1e-7` and `f_decrease_factor = 1e-4`, the
full step lowers the merit value from `0.5` to about `0.49995`, which is more than `0.5 - 1e-4`:
it is rejected, and the quadratic formula gives the next step fraction
`400000000/799960001`, about `0.500025`, which is then accepted. -/
theorem C18_counterexample :
    ∃ r : Run 1,
      newton_raphson_line_search_boost (fun _ => 0) 2 (![-100] : Vec 1) ![100] 1.0e-7 1.0e-4
        ![-1] ![1] (fun _ _ => 1) slow_equation ![0] ![1] = some r ∧
      r.lambdas = [1, 400000000 / 799960001] ∧
      ¬ ((400000000 / 799960001 : ℚ) ≤ 0.5 * 1) :=
  ⟨_, slow_run, rfl, by norm_num⟩

/-- C18, amended: every time a candidate is rejected in `newton_raphson_line_search_boost`,
the next step fraction satisfies `0.1*lambda_prev <= lambda_next`; when the rejected fraction
is not the full step (the second and every later backtrack) also `lambda_next <=
0.5*lambda_prev`; after the rejection of the full step (the first backtrack), for
`f_decrease_factor < 1`, `lambda_next` is at most the larger of `0.1` and
`1 / (2*(1 - f_decrease_factor))`.  Stated for the list of the step fractions a call tried,
each compared with the one before. -/
theorem C18_clamped_step_fractions {n : Nat} (sqrt : ℚ → ℚ) (fuel : Nat)
    (lower_bounds upper_bounds : Vec n) (min_step_factor f_decrease_factor : ℚ)
    (direction F_vec_old : Vec n) (jacobian : Mat n) (F_vec : Vec n → Vec n)
    (x_old F_vec_new : Vec n) (r : Run n)
    (hr : newton_raphson_line_search_boost sqrt fuel lower_bounds upper_bounds min_step_factor
      f_decrease_factor direction F_vec_old jacobian F_vec x_old F_vec_new = some r) :
    r.lambdas.Chain' (fun lambda_prev lambda_next =>
      0.1 * lambda_prev ≤ lambda_next ∧
      (lambda_prev ≠ 1 → lambda_next ≤ 0.5 * lambda_prev) ∧
      (lambda_prev = 1 → f_decrease_factor < 1 →
        lambda_next ≤ max 0.1 (1 / (2 * (1 - f_decrease_factor))))) :=
  (run_steps sqrt fuel lower_bounds upper_bounds min_step_factor f_decrease_factor direction
    F_vec_old jacobian F_vec x_old F_vec_new r hr).1

/-- The run of `slow_equation`, an instance of the amended C18: the step fractions `1` and
`400000000/799960001`. -/
theorem C18_clamped_step_fractions_witness :
    ([1, 400000000 / 799960001] : List ℚ).Chain' (fun lambda_prev lambda_next =>
      0.1 * lambda_prev ≤ lambda_next ∧
      (lambda_prev ≠ 1 → lambda_next ≤ 0.5 * lambda_prev) ∧
      (lambda_prev = 1 → (1.0e-4 : ℚ) < 1 →
        lambda_next ≤ max 0.1 (1 / (2 * (1 - 1.0e-4))))) :=
  C18_clamped_step_fractions (fun _ => 0) 2 (![-100] : Vec 1) ![100] 1.0e-7 1.0e-4
    ![-1] ![1] (fun _ _ => 1) slow_equation ![0] ![1] _ slow_run

/-- C19: at most one candidate below the floor is ever evaluated.  In every run of the loop of
`newton_raphson_line_search_boost`, every step fraction tried before the last one was at or
above `lambda_min` (so a fraction strictly below the floor ends the loop in its own pass), and
when at least one backtrack happened, the final fraction is at least `0.1` times the fraction
tried before it, which was at or above the floor: the final fraction is at least
`0.1*lambda_min`. -/
theorem C19_one_candidate_below_floor {n : Nat} (sqrt : ℚ → ℚ) (fuel : Nat)
    (lower_bounds upper_bounds : Vec n) (min_step_factor f_decrease_factor : ℚ)
    (direction F_vec_old : Vec n) (jacobian : Mat n) (F_vec : Vec n → Vec n)
    (x_old F_vec_new : Vec n) (r : Run n)
    (hr : newton_raphson_line_search_boost sqrt fuel lower_bounds upper_bounds min_step_factor
      f_decrease_factor direction F_vec_old jacobian F_vec x_old F_vec_new = some r) :
    (∀ lambda ∈ r.lambdas.dropLast,
      ¬ (lambda : WithTop ℚ) < lambda_min min_step_factor direction x_old) ∧
    (∀ (earlier : List ℚ) (lambda_prev lambda_last : ℚ),
      r.lambdas = earlier ++ [lambda_prev, lambda_last] →
      lambda_min min_step_factor direction x_old ≤ (lambda_prev : WithTop ℚ) ∧
      0.1 * lambda_prev ≤ lambda_last ∧
      ∀ floor : ℚ, lambda_min min_step_factor direction x_old = (floor : WithTop ℚ) →
        0.1 * floor ≤ lambda_last) := by
  obtain ⟨hchain, hfloor, _⟩ := run_steps sqrt fuel lower_bounds upper_bounds min_step_factor
    f_decrease_factor direction F_vec_old jacobian F_vec x_old F_vec_new r hr
  refine ⟨fun l hl => not_lt.mpr (hfloor l hl), ?_⟩
  intro earlier lambda_prev lambda_last hl
  rw [hl] at hchain hfloor
  have hprev : lambda_min min_step_factor direction x_old ≤ (lambda_prev : WithTop ℚ) := by
    apply hfloor
    rw [show earlier ++ [lambda_prev, lambda_last] = (earlier ++ [lambda_prev]) ++ [lambda_last]
      by simp, List.dropLast_concat]
    simp
  have hstep : 0.1 * lambda_prev ≤ lambda_last := by
    rw [List.chain'_split] at hchain
    exact (List.chain'_pair.mp hchain.2).1
  refine ⟨hprev, hstep, ?_⟩
  intro floor hf
  rw [hf] at hprev
  have : floor ≤ lambda_prev := by exact_mod_cast hprev
  linarith

/-- The run of `slow_equation`, an instance of C19: the first step fraction `1` is at or above
the floor, and the last one is at least a tenth of it. -/
theorem C19_one_candidate_below_floor_witness :
    (∀ lambda ∈ ([1, 400000000 / 799960001] : List ℚ).dropLast,
      ¬ (lambda : WithTop ℚ) < lambda_min 1.0e-7 (![-1] : Vec 1) ![0]) ∧
    (∀ (earlier : List ℚ) (lambda_prev lambda_last : ℚ),
      ([1, 400000000 / 799960001] : List ℚ) = earlier ++ [lambda_prev, lambda_last] →
      lambda_min 1.0e-7 (![-1] : Vec 1) ![0] ≤ (lambda_prev : WithTop ℚ) ∧
      0.1 * lambda_prev ≤ lambda_last ∧
      ∀ floor : ℚ, lambda_min 1.0e-7 (![-1] : Vec 1) ![0] = (floor : WithTop ℚ) →
        0.1 * floor ≤ lambda_last) :=
  C19_one_candidate_below_floor (fun _ => 0) 2 (![-100] : Vec 1) ![100] 1.0e-7 1.0e-4
    ![-1] ![1] (fun _ _ => 1) slow_equation ![0] ![1] _ slow_run

/-- C20: the first backtrack is quadratic interpolation.  When the full step (`lambda = 1`) is
rejected with `slope < 0` and `f_decrease_factor <= 1`, the leading coefficient
`f_scalar_new - f_scalar_old - slope` is strictly positive, the value of `temporary_lambda` is
`-slope / (2*(f_scalar_new - f_scalar_old - slope))`, and for the quadratic `q` with `q(0) =
f_scalar_old`, `q'(0) = slope` and `q(1) = f_scalar_new` (whose leading coefficient this is)
that value is the unique minimiser: `q` is strictly larger at every other point. -/
theorem C20_first_backtrack_quadratic (sqrt : ℚ → ℚ)
    (slope f_scalar_old f_scalar_new f_scalar_2 lambda_2 f_decrease_factor : ℚ)
    (hs : slope < 0) (hc : f_decrease_factor ≤ 1)
    (hrej : ¬ f_scalar_new ≤ f_scalar_old + f_decrease_factor * 1 * slope) :
    0 < f_scalar_new - f_scalar_old - slope ∧
    temporary_lambda sqrt slope f_scalar_old f_scalar_new f_scalar_2 1 lambda_2 =
      some (-slope / (2 * (f_scalar_new - f_scalar_old - slope))) ∧
    ∀ q : Polynomial ℚ, q.natDegree ≤ 2 → q.eval 0 = f_scalar_old →
      (Polynomial.derivative q).eval 0 = slope → q.eval 1 = f_scalar_new →
      q.coeff 2 = f_scalar_new - f_scalar_old - slope ∧
      ∀ t : ℚ, t ≠ -slope / (2 * (f_scalar_new - f_scalar_old - slope)) →
        q.eval (-slope / (2 * (f_scalar_new - f_scalar_old - slope))) < q.eval t := by
  have hA := leading_coefficient_pos slope f_scalar_old f_scalar_new f_decrease_factor hs hc hrej
  have hA2 : 2 * (f_scalar_new - f_scalar_old - slope) ≠ 0 := by
    intro h
    linarith
  refine ⟨hA, by simp [temporary_lambda, hA2], ?_⟩
  intro q hq h0 hd h1
  obtain ⟨e0, e1, e2⟩ := quadratic_coefficients q hq slope f_scalar_old f_scalar_new h0 hd h1
  refine ⟨e2, ?_⟩
  intro t ht
  rw [eval_quadratic q hq, eval_quadratic q hq, e0, e1, e2]
  have hsq : 0 < (t - -slope / (2 * (f_scalar_new - f_scalar_old - slope))) ^ 2 :=
    pow_pos_of_ne_zero_sq t _ ht
  have key : f_scalar_old + slope * t + (f_scalar_new - f_scalar_old - slope) * t ^ 2 -
      (f_scalar_old + slope * (-slope / (2 * (f_scalar_new - f_scalar_old - slope))) +
        (f_scalar_new - f_scalar_old - slope) *
          (-slope / (2 * (f_scalar_new - f_scalar_old - slope))) ^ 2) =
      (f_scalar_new - f_scalar_old - slope) *
        (t - -slope / (2 * (f_scalar_new - f_scalar_old - slope))) ^ 2 := by
    field_simp
    ring
  have := mul_pos hA hsq
  linarith

/-- An instance of C20: `f_scalar_old = 1/2`, `slope = -1`, `f_decrease_factor = 1e-4` and the
rejected `f_scalar_new = 2`; the next step fraction is `1/5`. -/
theorem C20_first_backtrack_quadratic_witness :
    temporary_lambda (fun _ => 0) (-1) (1 / 2) 2 0 1 0 =
      some (-(-1) / (2 * (2 - 1 / 2 - (-1)))) :=
  (C20_first_backtrack_quadratic (fun _ => 0) (-1) (1 / 2) 2 0 0 1.0e-4 (by norm_num)
    (by norm_num) (by norm_num)).2.1

/-- C21: later backtracks fit a cubic through the two most recent rejected points.  In every
call of `newton_raphson_line_search_boost`, take three step fractions tried one after the
other, `lambda_2`, `lambda` and `lambda_next` (passes `k`, `k + 1` and `k + 2`), with the
points `x_2` and `x` at which the passes `k` and `k + 1` evaluated the residual function, the
pass `k + 1` being a later backtrack (`lambda != 1`).  Then `lambda` and `lambda_2` are
non-zero and different, the points are the candidates of these step fractions, and with
`f_scalar_new = 0.5*|F(x)|^2` and `f_scalar_2 = 0.5*|F(x_2)|^2`, the merit values of the
candidate just rejected and of the one rejected immediately before it, the coefficients `a`
and `b` of lines 238 and 239 make `g(t) = a*t^3 + b*t^2 + slope*t + f_scalar_old` satisfy
`g(lambda) = f_scalar_new` and `g(lambda_2) = f_scalar_2`; every polynomial `g` of degree at
most three with `g(0) = f_scalar_old`, `g'(0) = slope` and these two values has these two as
its coefficients of `t^3` and `t^2`; and `lambda_next` is
`max(min(u, 0.5*lambda), 0.1*lambda)` for the minimum `u` that `cubic_minimum` computes from
`a` and `b`.  The fit and its uniqueness also hold for any two points with `lambda` and
`lambda_2` non-zero and different. -/
theorem C21_cubic_through_two_points {n : Nat} (sqrt : ℚ → ℚ) (fuel : Nat)
    (lower_bounds upper_bounds : Vec n) (min_step_factor f_decrease_factor : ℚ)
    (direction F_vec_old : Vec n) (jacobian : Mat n) (F_vec : Vec n → Vec n)
    (x_old F_vec_new : Vec n) (r : Run n) (k : Nat) (lambda_2 lambda lambda_next : ℚ)
    (x_2 x : Vec n)
    (hr : newton_raphson_line_search_boost sqrt fuel lower_bounds upper_bounds min_step_factor
      f_decrease_factor direction F_vec_old jacobian F_vec x_old F_vec_new = some r)
    (h2 : r.lambdas.get? k = some lambda_2) (h1 : r.lambdas.get? (k + 1) = some lambda)
    (h3 : r.lambdas.get? (k + 2) = some lambda_next)
    (hx2 : r.evals.get? k = some x_2) (hx : r.evals.get? (k + 1) = some x)
    (hlater : lambda ≠ 1) :
    lambda ≠ 0 ∧ lambda_2 ≠ 0 ∧ lambda ≠ lambda_2 ∧
    (lambda < 1 → x = fun i => x_old i + lambda * direction i) ∧
    (lambda_2 < 1 → x_2 = fun i => x_old i + lambda_2 * direction i) ∧
    (k = 0 → lambda_2 = 1 ∧ x_2 = fun i => x_old i + direction i) ∧
    coefficient_a
        (f_scalar (F_vec x) - f_scalar F_vec_old - lambda * slope_of direction F_vec_old jacobian)
        (f_scalar (F_vec x_2) - f_scalar F_vec_old -
          lambda_2 * slope_of direction F_vec_old jacobian) lambda lambda_2 * lambda ^ 3 +
      coefficient_b
        (f_scalar (F_vec x) - f_scalar F_vec_old - lambda * slope_of direction F_vec_old jacobian)
        (f_scalar (F_vec x_2) - f_scalar F_vec_old -
          lambda_2 * slope_of direction F_vec_old jacobian) lambda lambda_2 * lambda ^ 2 +
      slope_of direction F_vec_old jacobian * lambda + f_scalar F_vec_old =
      f_scalar (F_vec x) ∧
    coefficient_a
        (f_scalar (F_vec x) - f_scalar F_vec_old - lambda * slope_of direction F_vec_old jacobian)
        (f_scalar (F_vec x_2) - f_scalar F_vec_old -
          lambda_2 * slope_of direction F_vec_old jacobian) lambda lambda_2 * lambda_2 ^ 3 +
      coefficient_b
        (f_scalar (F_vec x) - f_scalar F_vec_old - lambda * slope_of direction F_vec_old jacobian)
        (f_scalar (F_vec x_2) - f_scalar F_vec_old -
          lambda_2 * slope_of direction F_vec_old jacobian) lambda lambda_2 * lambda_2 ^ 2 +
      slope_of direction F_vec_old jacobian * lambda_2 + f_scalar F_vec_old =
      f_scalar (F_vec x_2) ∧
    (∀ g : Polynomial ℚ, g.natDegree ≤ 3 → g.eval 0 = f_scalar F_vec_old →
      (Polynomial.derivative g).eval 0 = slope_of direction F_vec_old jacobian →
      g.eval lambda = f_scalar (F_vec x) → g.eval lambda_2 = f_scalar (F_vec x_2) →
      g.coeff 3 = coefficient_a
        (f_scalar (F_vec x) - f_scalar F_vec_old - lambda * slope_of direction F_vec_old jacobian)
        (f_scalar (F_vec x_2) - f_scalar F_vec_old -
          lambda_2 * slope_of direction F_vec_old jacobian) lambda lambda_2 ∧
      g.coeff 2 = coefficient_b
        (f_scalar (F_vec x) - f_scalar F_vec_old - lambda * slope_of direction F_vec_old jacobian)
        (f_scalar (F_vec x_2) - f_scalar F_vec_old -
          lambda_2 * slope_of direction F_vec_old jacobian) lambda lambda_2) ∧
    (∃ u : ℚ, cubic_minimum sqrt (slope_of direction F_vec_old jacobian)
        (coefficient_a
          (f_scalar (F_vec x) - f_scalar F_vec_old -
            lambda * slope_of direction F_vec_old jacobian)
          (f_scalar (F_vec x_2) - f_scalar F_vec_old -
            lambda_2 * slope_of direction F_vec_old jacobian) lambda lambda_2)
        (coefficient_b
          (f_scalar (F_vec x) - f_scalar F_vec_old -
            lambda * slope_of direction F_vec_old jacobian)
          (f_scalar (F_vec x_2) - f_scalar F_vec_old -
            lambda_2 * slope_of direction F_vec_old jacobian) lambda lambda_2) lambda = some u ∧
      lambda_next = max (min u (0.5 * lambda)) (0.1 * lambda)) ∧
    (∀ slope f_scalar_old f_scalar_new f_scalar_2 mu mu_2 : ℚ, mu ≠ 0 → mu_2 ≠ 0 → mu ≠ mu_2 →
      coefficient_a (f_scalar_new - f_scalar_old - mu * slope)
          (f_scalar_2 - f_scalar_old - mu_2 * slope) mu mu_2 * mu ^ 3 +
        coefficient_b (f_scalar_new - f_scalar_old - mu * slope)
          (f_scalar_2 - f_scalar_old - mu_2 * slope) mu mu_2 * mu ^ 2 +
        slope * mu + f_scalar_old = f_scalar_new ∧
      coefficient_a (f_scalar_new - f_scalar_old - mu * slope)
          (f_scalar_2 - f_scalar_old - mu_2 * slope) mu mu_2 * mu_2 ^ 3 +
        coefficient_b (f_scalar_new - f_scalar_old - mu * slope)
          (f_scalar_2 - f_scalar_old - mu_2 * slope) mu mu_2 * mu_2 ^ 2 +
        slope * mu_2 + f_scalar_old = f_scalar_2 ∧
      (∀ g : Polynomial ℚ, g.natDegree ≤ 3 → g.eval 0 = f_scalar_old →
        (Polynomial.derivative g).eval 0 = slope → g.eval mu = f_scalar_new →
        g.eval mu_2 = f_scalar_2 →
        g.coeff 3 = coefficient_a (f_scalar_new - f_scalar_old - mu * slope)
          (f_scalar_2 - f_scalar_old - mu_2 * slope) mu mu_2 ∧
        g.coeff 2 = coefficient_b (f_scalar_new - f_scalar_old - mu * slope)
          (f_scalar_2 - f_scalar_old - mu_2 * slope) mu mu_2)) := by
  obtain ⟨hfirst, hcand, htri⟩ := search_fitted sqrt fuel lower_bounds upper_bounds
    min_step_factor f_decrease_factor direction F_vec_old jacobian F_vec x_old F_vec_new r hr
  obtain ⟨t, ht, hnext⟩ := htri k lambda_2 lambda lambda_next x_2 x h2 h1 h3 hx2 hx hlater
  obtain ⟨hl, hl2, hne, u, hu, hmin⟩ := temporary_lambda_some sqrt _ _ _ _ lambda lambda_2 t
    hlater ht
  obtain ⟨e1, e2, e3⟩ := cubic_fit (slope_of direction F_vec_old jacobian) (f_scalar F_vec_old)
    (f_scalar (F_vec x)) (f_scalar (F_vec x_2)) lambda lambda_2 hl hl2 hne
  refine ⟨hl, hl2, hne, hcand (k + 1) lambda x h1 hx, hcand k lambda_2 x_2 h2 hx2, ?_, e1, e2,
    e3, ⟨u, hu, by rw [hnext, hmin]⟩, ?_⟩
  · intro hk
    subst hk
    exact hfirst lambda_2 x_2 h2 hx2
  · intro slope f_scalar_old f_scalar_new f_scalar_2 mu mu_2 hm hm2 hmne
    exact cubic_fit slope f_scalar_old f_scalar_new f_scalar_2 mu mu_2 hm hm2 hmne

/-- The run of `curved_equation`, an instance of C21: the step fractions `1`, `1/10` and
`1/25`.  The cubic through the points of the first two passes, with the merit values `800`
and `121/50`, has its minimum at `1/25`, which is the third step fraction. -/
theorem C21_cubic_through_two_points_witness :
    ∃ u : ℚ, cubic_minimum Rat.sqrt (slope_of (![-2] : Vec 1) ![2] (fun _ _ => 1))
        (coefficient_a
          (f_scalar (curved_equation (fun i => (![0] : Vec 1) i + 1 / 10 * (![-2] : Vec 1) i)) -
            f_scalar (![2] : Vec 1) - 1 / 10 * slope_of (![-2] : Vec 1) ![2] (fun _ _ => 1))
          (f_scalar (curved_equation (full_step ![0] ![-2])) - f_scalar (![2] : Vec 1) -
            1 * slope_of (![-2] : Vec 1) ![2] (fun _ _ => 1)) (1 / 10) 1)
        (coefficient_b
          (f_scalar (curved_equation (fun i => (![0] : Vec 1) i + 1 / 10 * (![-2] : Vec 1) i)) -
            f_scalar (![2] : Vec 1) - 1 / 10 * slope_of (![-2] : Vec 1) ![2] (fun _ _ => 1))
          (f_scalar (curved_equation (full_step ![0] ![-2])) - f_scalar (![2] : Vec 1) -
            1 * slope_of (![-2] : Vec 1) ![2] (fun _ _ => 1)) (1 / 10) 1) (1 / 10) = some u ∧
      (1 / 25 : ℚ) = max (min u (0.5 * (1 / 10))) (0.1 * (1 / 10)) :=
  (C21_cubic_through_two_points Rat.sqrt 3 (![-100] : Vec 1) ![100] 1.0e-7 1.0e-4 ![-2] ![2]
    (fun _ _ => 1) curved_equation ![0] ![2] _ 0 1 (1 / 10) (1 / 25) (full_step ![0] ![-2])
    (fun i => (![0] : Vec 1) i + 1 / 10 * (![-2] : Vec 1) i) curved_run rfl rfl rfl rfl rfl
    (by norm_num)).2.2.2.2.2.2.2.2.2.1

/-- C22: the cubic branch returns the minimiser of the fitted cubic, by either formula.  For
`a != 0`, `slope < 0` and `disc = b*b - 3*a*slope >= 0`, and a `sqrt` that is exact and
non-negative at `disc`: the value `t` chosen before clamping, `(-b + sqrt(disc))/(3a)` when
`b <= 0` and `-slope/(b + sqrt(disc))` when `b > 0`, satisfies `3*a*t^2 + 2*b*t + slope = 0`
and `6*a*t + 2*b = 2*sqrt(disc) >= 0`, and the two formulas give the same value wherever both
are defined.  The same holds for all real `a`, `b`, `slope` with the square root of the real
numbers. -/
theorem C22_cubic_minimiser (sqrt : ℚ → ℚ) (slope a b lambda : ℚ) (ha : a ≠ 0)
    (_hs : slope < 0) (hdisc : 0 ≤ b * b - 3 * a * slope)
    (hexact : sqrt (b * b - 3 * a * slope) * sqrt (b * b - 3 * a * slope) =
      b * b - 3 * a * slope)
    (hnonneg : 0 ≤ sqrt (b * b - 3 * a * slope)) :
    (∃ t : ℚ, cubic_minimum sqrt slope a b lambda = some t ∧
      t = (if b ≤ 0 then (-b + sqrt (b * b - 3 * a * slope)) / (3 * a)
        else -slope / (b + sqrt (b * b - 3 * a * slope))) ∧
      3 * a * t ^ 2 + 2 * b * t + slope = 0 ∧
      6 * a * t + 2 * b = 2 * sqrt (b * b - 3 * a * slope) ∧
      0 ≤ 2 * sqrt (b * b - 3 * a * slope)) ∧
    (b + sqrt (b * b - 3 * a * slope) ≠ 0 →
      (-b + sqrt (b * b - 3 * a * slope)) / (3 * a) =
        -slope / (b + sqrt (b * b - 3 * a * slope))) ∧
    (∀ a_r b_r slope_r : ℝ, a_r ≠ 0 → 0 ≤ b_r * b_r - 3 * a_r * slope_r →
      (∀ t : ℝ,
        t = (if b_r ≤ 0 then (-b_r + Real.sqrt (b_r * b_r - 3 * a_r * slope_r)) / (3 * a_r)
          else -slope_r / (b_r + Real.sqrt (b_r * b_r - 3 * a_r * slope_r))) →
        3 * a_r * t ^ 2 + 2 * b_r * t + slope_r = 0 ∧
        6 * a_r * t + 2 * b_r = 2 * Real.sqrt (b_r * b_r - 3 * a_r * slope_r) ∧
        0 ≤ 2 * Real.sqrt (b_r * b_r - 3 * a_r * slope_r)) ∧
      (b_r + Real.sqrt (b_r * b_r - 3 * a_r * slope_r) ≠ 0 →
        (-b_r + Real.sqrt (b_r * b_r - 3 * a_r * slope_r)) / (3 * a_r) =
          -slope_r / (b_r + Real.sqrt (b_r * b_r - 3 * a_r * slope_r)))) := by
  have general : ∀ (K : Type) [LinearOrderedField K] (a b slope s : K), a ≠ 0 →
      s * s = b * b - 3 * a * slope → 0 ≤ s →
      ∀ t : K, t = (if b ≤ 0 then (-b + s) / (3 * a) else -slope / (b + s)) →
        3 * a * t ^ 2 + 2 * b * t + slope = 0 ∧ 6 * a * t + 2 * b = 2 * s ∧ 0 ≤ 2 * s := by
    intro K _ a b slope s ha hs2 hs t ht
    obtain ⟨e1, e2, e3⟩ := stationary_point_algebra a b slope s ha hs2
    have h2s : 0 ≤ 2 * s := by linarith
    by_cases hb : b ≤ 0
    · rw [if_pos hb] at ht
      rw [ht]
      exact ⟨e1, e2, h2s⟩
    · rw [if_neg hb] at ht
      have hbs : b + s ≠ 0 := by
        have := not_le.mp hb
        intro h
        linarith
      rw [ht, ← e3 hbs]
      exact ⟨e1, e2, h2s⟩
  refine ⟨?_, (stationary_point_algebra a b slope _ ha hexact).2.2, ?_⟩
  · have hcm : cubic_minimum sqrt slope a b lambda =
        some (if b ≤ 0 then (-b + sqrt (b * b - 3 * a * slope)) / (3 * a)
          else -slope / (b + sqrt (b * b - 3 * a * slope))) := by
      unfold cubic_minimum
      rw [if_neg ha]
      simp only
      rw [if_neg (not_lt.mpr hdisc)]
      by_cases hb : b ≤ 0
      · rw [if_pos hb, if_pos hb]
      · have hbs : b + sqrt (b * b - 3 * a * slope) ≠ 0 := by
          have := not_le.mp hb
          intro h
          linarith
        rw [if_neg hb, if_neg hb, if_neg hbs]
    exact ⟨_, hcm, rfl, general ℚ a b slope _ ha hexact hnonneg _ rfl⟩
  · intro a_r b_r slope_r ha_r hdisc_r
    have hs2 := Real.mul_self_sqrt hdisc_r
    exact ⟨general ℝ a_r b_r slope_r _ ha_r hs2 (Real.sqrt_nonneg _),
      (stationary_point_algebra a_r b_r slope_r _ ha_r hs2).2.2⟩

/-- An instance of C22: `a = 1`, `b = -2`, `slope = -4`, so that `disc = 16`, with a `sqrt`
that gives `4` at `16`; the minimiser is `2`. -/
theorem C22_cubic_minimiser_witness :
    ∃ t : ℚ, cubic_minimum (fun x => if x = 16 then 4 else 0) (-4) 1 (-2) (1 / 2) = some t ∧
      t = (if (-2 : ℚ) ≤ 0
        then (-(-2) + (fun x : ℚ => if x = 16 then (4 : ℚ) else 0)
          ((-2) * (-2) - 3 * 1 * (-4))) / (3 * 1)
        else -(-4) / ((-2) + (fun x : ℚ => if x = 16 then (4 : ℚ) else 0)
          ((-2) * (-2) - 3 * 1 * (-4)))) ∧
      3 * 1 * t ^ 2 + 2 * (-2) * t + (-4) = 0 ∧
      6 * 1 * t + 2 * (-2) =
        2 * (fun x : ℚ => if x = 16 then (4 : ℚ) else 0) ((-2) * (-2) - 3 * 1 * (-4)) ∧
      0 ≤ 2 * (fun x : ℚ => if x = 16 then (4 : ℚ) else 0) ((-2) * (-2) - 3 * 1 * (-4)) :=
  (C22_cubic_minimiser (fun x => if x = 16 then 4 else 0) (-4) 1 (-2) (1 / 2) (by norm_num)
    (by norm_num) (by norm_num) (by norm_num) (by norm_num)).1

/-- C23: the slope is negative by definition for an exact Newton step.  For every residual
vector `F_vec_old`, Jacobian `J` and direction `d` with `J*d = -F_vec_old`, the slope
`(F_vec_old * J) . d` that `newton_raphson_line_search_boost` computes equals
`-(F_vec_old . F_vec_old) = -2*f_scalar_old`, and it is strictly negative whenever
`F_vec_old` is not the zero vector. -/
theorem C23_slope_of_newton_step {n : Nat} (direction F_vec_old : Vec n) (jacobian : Mat n)
    (hnewton : ∀ i, ∑ j, jacobian i j * direction j = -F_vec_old i) :
    inner_product direction (prod F_vec_old jacobian) = -inner_product F_vec_old F_vec_old ∧
    inner_product direction (prod F_vec_old jacobian) =
      -2 * (0.5 * inner_product F_vec_old F_vec_old) ∧
    ((∃ i, F_vec_old i ≠ 0) → inner_product direction (prod F_vec_old jacobian) < 0) := by
  have h1 : inner_product direction (prod F_vec_old jacobian) =
      -inner_product F_vec_old F_vec_old := by
    have := slope_of_eq direction F_vec_old jacobian
    unfold slope_of at this
    rw [this]
    unfold inner_product
    rw [← Finset.sum_neg_distrib]
    refine Finset.sum_congr rfl fun i _ => ?_
    rw [hnewton i]
    ring
  refine ⟨h1, ?_, ?_⟩
  · rw [h1]
    ring
  · intro hF
    rw [h1]
    have := inner_product_self_pos F_vec_old hF
    linarith

/-- An instance of C23: the residual `1`, the Jacobian `1` and the Newton step `-1` of
`slow_equation` at `0`; the slope is `-1`. -/
theorem C23_slope_of_newton_step_witness :
    inner_product (![-1] : Vec 1) (prod ![1] (fun _ _ => 1)) =
        -inner_product (![1] : Vec 1) ![1] ∧
    inner_product (![-1] : Vec 1) (prod ![1] (fun _ _ => 1)) =
      -2 * (0.5 * inner_product (![1] : Vec 1) ![1]) ∧
    ((∃ i, (![1] : Vec 1) i ≠ 0) →
      inner_product (![-1] : Vec 1) (prod ![1] (fun _ _ => 1)) < 0) :=
  C23_slope_of_newton_step (![-1] : Vec 1) ![1] (fun _ _ => 1)
    (by intro i; fin_cases i; simp)

/-- C24: the minimum-conductance fallback of `c4photoC`.  With `max_iterations - 10 = 40`: a
pass of the loop body entered with a counter above `40` leaves `Gs = bb0 * 1e3` and updates
`Ci` with that conductance, for every `ball_berry` and every water-stress setting; in a call
(with fuel for `max_iterations` passes) the passes are numbered by the counter from `0`, so
every pass with a number above `40` did so; and when the returned `iterations` is greater than
`40`, the returned `Gs` equals `bb0 * 1e3`. -/
theorem C24_minimum_conductance_fallback (e : c4photo_externals) (fuel : Nat)
    (a : c4photoC_arguments) (h : max_iterations ≤ fuel) :
    max_iterations - 10 = 40 ∧
    (∀ v : c4_vars, 40 < v.iterCounter →
      (c4_body e a v).Gs = a.bb0 * 1e3 ∧
      (c4_body e a v).InterCellularCO2 =
        Ca_pa a - a.atmospheric_pressure * ((c4_body e a v).Assim * 1e-6) *
          (e.dr_boundary / a.gbw + e.dr_stomata / (a.bb0 * 1e3 * 1e-3))) ∧
    ∃ r : c4_run,
      c4photoC e fuel a = some r ∧
      (∀ (k : Nat) (p : c4_vars), r.passes.get? k = some p →
        p.iterCounter = k ∧
        (40 < k →
          p.Gs = a.bb0 * 1e3 ∧
          p.InterCellularCO2 = Ca_pa a - a.atmospheric_pressure * (p.Assim * 1e-6) *
            (e.dr_boundary / a.gbw + e.dr_stomata / (a.bb0 * 1e3 * 1e-3)))) ∧
      (40 < r.result.iterations → r.result.Gs = a.bb0 * 1e3) := by
  have h40 : max_iterations - 10 = 40 := by decide
  have hbody : ∀ v : c4_vars, 40 < v.iterCounter → (c4_body e a v).Gs = a.bb0 * 1e3 := by
    intro v hv
    exact (c4_body_facts e a v).2.2.2 (by rw [h40]; exact hv)
  refine ⟨h40, ?_, ?_⟩
  · intro v hv
    refine ⟨hbody v hv, ?_⟩
    rw [← hbody v hv]
    rfl
  · obtain ⟨r, m, last, hr, hlen, hm, hnum, hlast, _, hG, _, _, _, _, hend⟩ :=
      c4photoC_spec e fuel a h
    have hpass := c4photoC_passes e fuel a r hr
    refine ⟨r, hr, ?_, ?_⟩
    · intro k p hp
      obtain ⟨hk, hgs⟩ := hnum k p hp
      refine ⟨hk, fun h1 => ?_⟩
      have hg : p.Gs = a.bb0 * 1e3 := hgs (by rw [h40, hk]; exact h1)
      refine ⟨hg, ?_⟩
      rw [← hg]
      exact hpass p (List.get?_mem hp)
    · intro hit
      have hget : r.passes.get? m = some last := by
        rw [List.getLast?_eq_getElem?, hlen] at hlast
        rw [List.get?_eq_getElem?]
        simpa using hlast
      obtain ⟨hk, hgs⟩ := hnum m last hget
      rw [hG]
      apply hgs
      rw [h40, hk]
      rcases hend with ⟨e1, _⟩ | ⟨_, e2, _⟩
      · omega
      · have : max_iterations = 50 := rfl
        omega

/-- An instance of C24: the oscillating example, with fuel for 50 passes.  The assimilation
alternates between `38.2` and `11.8` through the passes `0` to `40`, so the call runs into the
passes of the fallback: the returned `iterations` is above `40` and the returned `Gs` is
`bb0 * 1e3`. -/
theorem C24_minimum_conductance_fallback_witness :
    ∃ r : c4_run,
      c4photoC oscillating_externals 50 oscillating_arguments = some r ∧
      40 < r.result.iterations ∧ r.result.Gs = oscillating_arguments.bb0 * 1e3 := by
  obtain ⟨r, hr, _, hG⟩ := (C24_minimum_conductance_fallback oscillating_externals 50
    oscillating_arguments (by decide)).2.2
  exact ⟨r, hr, oscillating_run r hr, hG (oscillating_run r hr)⟩

/-- C25: the Julian date computed by `solar_zenith_angle_michalsky` agrees with its two
reference epochs.  For every input, `julian_date = 2432916.5 + 365*(year - 1949) +
floor(0.25*(year - 1949)) + time - time_zone_offset/24`: the split into `doy_utc` and
`hour_utc` recombines, with `0 <= hour_utc < 24`.  For `year = 2000`, `time = 1.5` and
`time_zone_offset = 0` the output is `2451545.0 = jd_ref_2000`, and `n = 0`.  The numbers are
rationals here: the rounding of `double` is not part of the statement. -/
theorem C25_julian_date (e : solar_externals) (lat longitude time time_zone_offset year : ℚ) :
    (solar_zenith_angle_michalsky.do_operation e lat longitude time time_zone_offset
      year).julian_date =
      2432916.5 + 365 * (year - 1949) + ((Int.floor (0.25 * (year - 1949)) : Int) : ℚ) +
        time - time_zone_offset / 24 ∧
    solar_zenith_angle_michalsky.doy_utc time time_zone_offset +
      solar_zenith_angle_michalsky.hour_utc time time_zone_offset / 24 =
      time - time_zone_offset / 24 ∧
    0 ≤ solar_zenith_angle_michalsky.hour_utc time time_zone_offset ∧
    solar_zenith_angle_michalsky.hour_utc time time_zone_offset < 24 ∧
    (solar_zenith_angle_michalsky.do_operation e lat longitude 1.5 0 2000).julian_date =
      2451545.0 ∧
    (2451545.0 : ℚ) = solar_zenith_angle_michalsky.jd_ref_2000 ∧
    solar_zenith_angle_michalsky.n 1.5 0 2000 = 0 := by
  obtain ⟨h1, h2, h3⟩ := hour_utc_split time time_zone_offset
  refine ⟨jd_eq time time_zone_offset year, h1, h2, h3, jd_noon_2000, rfl, ?_⟩
  unfold solar_zenith_angle_michalsky.n
  rw [jd_noon_2000]
  unfold solar_zenith_angle_michalsky.jd_ref_2000
  norm_num

/-- C26: output guess and output residual are consistent.  For every call of
`newton_raphson_line_search_boost` that returns after entering the backtracking loop (accepted
step or stall), the final step fraction `lambda`, which is the last one tried, satisfies
`0 < lambda <= 1`, the output `x_new` equals `x_old + lambda*direction` componentwise, and the
output `F_vec_new` is the residual function evaluated at that `x_new`. -/
theorem C26_outputs_consistent {n : Nat} (sqrt : ℚ → ℚ) (fuel : Nat)
    (lower_bounds upper_bounds : Vec n) (min_step_factor f_decrease_factor : ℚ)
    (direction F_vec_old : Vec n) (jacobian : Mat n) (F_vec : Vec n → Vec n)
    (x_old F_vec_new : Vec n) (r : Run n) (b : Bool) (lambda : ℚ) (x_new F_new : Vec n)
    (hr : newton_raphson_line_search_boost sqrt fuel lower_bounds upper_bounds min_step_factor
      f_decrease_factor direction F_vec_old jacobian F_vec x_old F_vec_new = some r)
    (hf : r.outcome = .finished b lambda x_new F_new) :
    0 < lambda ∧ lambda ≤ 1 ∧ r.lambdas.getLast? = some lambda ∧
    (∀ i, x_new i = x_old i + lambda * direction i) ∧ F_new = F_vec x_new ∧
    r.outcome.x_new? = some x_new ∧ r.outcome.F_vec_new? = some F_new := by
  have hout : r.outcome.x_new? = some x_new ∧ r.outcome.F_vec_new? = some F_new := by
    rw [hf]
    exact ⟨rfl, rfl⟩
  rcases search_cases sqrt fuel lower_bounds upper_bounds min_step_factor f_decrease_factor
    direction F_vec_old jacobian F_vec x_old F_vec_new with
    ⟨_, c, _, h⟩ | ⟨_, _, h⟩ | ⟨_, _, _, h⟩ | ⟨_, hs, _, h⟩
  · rw [h] at hr
    cases hr
    cases hf
  · rw [h] at hr
    cases hr
    cases hf
  · rw [h] at hr
    cases hr
    cases hf
  · rw [h] at hr
    have hinit : ConsistentState F_vec x_old direction
        (lambda_min min_step_factor direction x_old) (f_scalar F_vec_old)
        (slope_of direction F_vec_old jacobian) f_decrease_factor
        (initial_state x_old direction F_vec_new) := by
      refine ⟨by simp [initial_state], fun _ => rfl, fun h1 => ?_⟩
      simp [initial_state] at h1
    obtain ⟨h1, h2, h3, h4, h5⟩ := loop_consistent sqrt F_vec x_old direction
      (lambda_min min_step_factor direction x_old) (f_scalar F_vec_old)
      (slope_of direction F_vec_old jacobian) f_decrease_factor hs fuel
      (initial_state x_old direction F_vec_new) r hinit hr b lambda x_new F_new hf
    exact ⟨h1, h2, h3, h4, h5, hout.1, hout.2⟩

/-- The run of `slow_equation`, an instance of C26: the call returns after one backtrack with
the step fraction `400000000/799960001`, the guess `x_old + lambda*direction` and the residual
at that guess. -/
theorem C26_outputs_consistent_witness :
    (0 : ℚ) < 400000000 / 799960001 ∧ (400000000 / 799960001 : ℚ) ≤ 1 ∧
    ([1, 400000000 / 799960001] : List ℚ).getLast? = some (400000000 / 799960001) ∧
    (∀ i, (fun i => (![0] : Vec 1) i + 400000000 / 799960001 * (![-1] : Vec 1) i) i =
      (![0] : Vec 1) i + 400000000 / 799960001 * (![-1] : Vec 1) i) ∧
    slow_equation (fun i => (![0] : Vec 1) i + 400000000 / 799960001 * (![-1] : Vec 1) i) =
      slow_equation (fun i => (![0] : Vec 1) i + 400000000 / 799960001 * (![-1] : Vec 1) i) ∧
    (Outcome.finished false (400000000 / 799960001)
      (fun i => (![0] : Vec 1) i + 400000000 / 799960001 * (![-1] : Vec 1) i)
      (slow_equation
        (fun i => (![0] : Vec 1) i + 400000000 / 799960001 * (![-1] : Vec 1) i))).x_new? =
      some (fun i => (![0] : Vec 1) i + 400000000 / 799960001 * (![-1] : Vec 1) i) ∧
    (Outcome.finished false (400000000 / 799960001)
      (fun i => (![0] : Vec 1) i + 400000000 / 799960001 * (![-1] : Vec 1) i)
      (slow_equation
        (fun i => (![0] : Vec 1) i + 400000000 / 799960001 * (![-1] : Vec 1) i))).F_vec_new? =
      some (slow_equation
        (fun i => (![0] : Vec 1) i + 400000000 / 799960001 * (![-1] : Vec 1) i)) :=
  C26_outputs_consistent (fun _ => 0) 2 (![-100] : Vec 1) ![100] 1.0e-7 1.0e-4
    ![-1] ![1] (fun _ _ => 1) slow_equation ![0] ![1] _ false (400000000 / 799960001) _ _
    slow_run rfl

/-- C27: calling the line search at an exact root raises instead of returning.  When
`F_vec_old` is the zero vector and `x_old + direction` lies within the bounds, then for every
Jacobian and every direction the gradient `F_vec_old * jacobian` is zero, `slope = 0`, and the
call fails with the round-off error, without an evaluation of the residual function. -/
theorem C27_exact_root_raises {n : Nat} (sqrt : ℚ → ℚ) (fuel : Nat)
    (lower_bounds upper_bounds : Vec n) (min_step_factor f_decrease_factor : ℚ)
    (direction : Vec n) (jacobian : Mat n) (F_vec : Vec n → Vec n) (x_old F_vec_new : Vec n)
    (hw : ∀ i, lower_bounds i ≤ x_old i + direction i ∧ x_old i + direction i ≤ upper_bounds i) :
    prod (fun _ => 0) jacobian = (fun _ => 0) ∧
    inner_product direction (prod (fun _ => 0) jacobian) = 0 ∧
    newton_raphson_line_search_boost sqrt fuel lower_bounds upper_bounds min_step_factor
      f_decrease_factor direction (fun _ => 0) jacobian F_vec x_old F_vec_new =
      some { outcome := .threw roundoff_message, evals := [], lambdas := [] } := by
  have hs : inner_product direction (prod (fun _ => 0) jacobian) = 0 := by
    rw [prod_zero]
    simp [inner_product]
  refine ⟨prod_zero jacobian, hs, ?_⟩
  apply search_roundoff
  · exact hw
  · unfold slope_of
    rw [hs]

/-- An instance of C27: the guess `5` of scenario A, at which the residual is zero, with the
direction `1`. -/
theorem C27_exact_root_raises_witness :
    prod (fun _ => 0) (fun _ _ => 1 : Mat 1) = (fun _ => 0) ∧
    inner_product (![1] : Vec 1) (prod (fun _ => 0) (fun _ _ => 1)) = 0 ∧
    newton_raphson_line_search_boost (fun _ => 0) 1 (![-100] : Vec 1) ![100] 1.0e-7 1.0e-4
      ![1] (fun _ => 0) (fun _ _ => 1) scenario_A ![5] ![0] =
      some { outcome := .threw roundoff_message, evals := [], lambdas := [] } :=
  C27_exact_root_raises (fun _ => 0) 1 (![-100] : Vec 1) ![100] 1.0e-7 1.0e-4 ![1]
    (fun _ _ => 1) scenario_A ![5] ![0] (by intro i; fin_cases i; simp; norm_num)

/-- C28: a very small Newton step is reported as a stall even if it is a good step.  With the
full step in bounds, `slope < 0` and `lambda_min > 1`, which (every component of
`lambda_mins` being a number or `+inf`) holds exactly when
`|direction[i]| < min_step_factor*max(|x_old[i]|, 1)` for all `i`: the call returns `true` with `x_new = x_old + direction` and `F_vec_new = F(x_new)`
after one pass with exactly one evaluation of the residual function, whether or not the full
step meets the decrease test, which comes after the test `lambda < lambda_min`. -/
theorem C28_small_step_stalls {n : Nat} (sqrt : ℚ → ℚ) (fuel : Nat)
    (lower_bounds upper_bounds : Vec n) (min_step_factor f_decrease_factor : ℚ)
    (direction F_vec_old : Vec n) (jacobian : Mat n) (F_vec : Vec n → Vec n)
    (x_old F_vec_new : Vec n)
    (hw : ∀ i, lower_bounds i ≤ x_old i + direction i ∧ x_old i + direction i ≤ upper_bounds i)
    (hs : inner_product direction (prod F_vec_old jacobian) < 0)
    (hd : lambda_mins_defined min_step_factor direction x_old)
    (hm : 1 < lambda_min min_step_factor direction x_old) :
    (1 < lambda_min min_step_factor direction x_old ↔
      ∀ i, |direction i| < min_step_factor * max |x_old i| 1) ∧
    ∃ r : Run n,
      newton_raphson_line_search_boost sqrt (fuel + 1) lower_bounds upper_bounds
        min_step_factor f_decrease_factor direction F_vec_old jacobian F_vec x_old F_vec_new =
        some r ∧
      r.outcome = .finished true 1 (fun i => x_old i + direction i)
        (F_vec (fun i => x_old i + direction i)) ∧
      r.outcome.ret = some true ∧
      r.evals = [fun i => x_old i + direction i] ∧ r.lambdas = [1] :=
  ⟨one_lt_lambda_min_iff min_step_factor direction x_old hd,
    _, search_stall_full_step sqrt fuel lower_bounds upper_bounds min_step_factor
      f_decrease_factor direction F_vec_old jacobian F_vec x_old F_vec_new hw hs hd hm,
    rfl, rfl, rfl, rfl⟩

/-- An instance of C28: the line search for `steep_equation` at `0`, whose Newton step
`-10^-8` is below the minimum step `10^-7`; the full step raises the merit value and is
returned with `true`. -/
theorem C28_small_step_stalls_witness :
    (1 < lambda_min 1.0e-7 (![-1/100000000] : Vec 1) ![0] ↔
      ∀ i, |(![-1/100000000] : Vec 1) i| < 1.0e-7 * max |(![0] : Vec 1) i| 1) ∧
    ∃ r : Run 1,
      newton_raphson_line_search_boost (fun _ => 0) (0 + 1) (![-100] : Vec 1) ![100] 1.0e-7
        1.0e-4 ![-1/100000000] ![1] (fun _ _ => 100000000) steep_equation ![0] ![1] = some r ∧
      r.outcome = .finished true 1
        (fun i => (![0] : Vec 1) i + (![-1/100000000] : Vec 1) i)
        (steep_equation (fun i => (![0] : Vec 1) i + (![-1/100000000] : Vec 1) i)) ∧
      r.outcome.ret = some true ∧
      r.evals = [fun i => (![0] : Vec 1) i + (![-1/100000000] : Vec 1) i] ∧
      r.lambdas = [1] :=
  C28_small_step_stalls (fun _ => 0) 0 (![-100] : Vec 1) ![100] 1.0e-7 1.0e-4
    ![-1/100000000] ![1] (fun _ _ => 100000000) steep_equation ![0] ![1]
    (by intro i; fin_cases i; simp; norm_num)
    (by simp [inner_product, prod])
    (lambda_mins_defined_of_pos _ _ _ (by norm_num))
    (by
      simp [lambda_min, lambda_mins]
      norm_num [abs_of_pos])

/-- C29: the quadratic shortcut of the cubic branch never divides by zero.  In a second or
later backtrack (the candidate at `0 < lambda < lambda_2` rejected, `slope < 0`,
`0 <= f_decrease_factor <= 1`), if the fitted coefficient `a` equals `0` then
`b = (f_scalar_new - f_scalar_old - lambda*slope)/lambda^2 > 0`, so that the divisor `2*b` is
not zero, and the value `-slope/(2*b)` that the branch `a == 0.0` takes is strictly
positive. -/
theorem C29_quadratic_shortcut_defined (sqrt : ℚ → ℚ)
    (slope f_scalar_old f_scalar_new f_scalar_2 lambda lambda_2 f_decrease_factor : ℚ)
    (hl : 0 < lambda) (hl2 : lambda < lambda_2) (hs : slope < 0)
    (_hc0 : 0 ≤ f_decrease_factor) (hc1 : f_decrease_factor ≤ 1)
    (hrej : ¬ f_scalar_new ≤ f_scalar_old + f_decrease_factor * lambda * slope)
    (ha : coefficient_a (f_scalar_new - f_scalar_old - lambda * slope)
      (f_scalar_2 - f_scalar_old - lambda_2 * slope) lambda lambda_2 = 0) :
    coefficient_b (f_scalar_new - f_scalar_old - lambda * slope)
        (f_scalar_2 - f_scalar_old - lambda_2 * slope) lambda lambda_2 =
      (f_scalar_new - f_scalar_old - lambda * slope) / lambda ^ 2 ∧
    0 < coefficient_b (f_scalar_new - f_scalar_old - lambda * slope)
        (f_scalar_2 - f_scalar_old - lambda_2 * slope) lambda lambda_2 ∧
    cubic_minimum sqrt slope
        (coefficient_a (f_scalar_new - f_scalar_old - lambda * slope)
          (f_scalar_2 - f_scalar_old - lambda_2 * slope) lambda lambda_2)
        (coefficient_b (f_scalar_new - f_scalar_old - lambda * slope)
          (f_scalar_2 - f_scalar_old - lambda_2 * slope) lambda lambda_2) lambda =
      some (-slope / (2 * coefficient_b (f_scalar_new - f_scalar_old - lambda * slope)
        (f_scalar_2 - f_scalar_old - lambda_2 * slope) lambda lambda_2)) ∧
    0 < -slope / (2 * coefficient_b (f_scalar_new - f_scalar_old - lambda * slope)
      (f_scalar_2 - f_scalar_old - lambda_2 * slope) lambda lambda_2) := by
  have hne : lambda - lambda_2 ≠ 0 := by
    intro h
    linarith
  have hb := coefficient_b_of_a_zero lambda lambda_2 _ _ hne ha
  have hrhs1 : 0 < f_scalar_new - f_scalar_old - lambda * slope := by
    have h1 := not_le.mp hrej
    have h2 : 0 ≤ (1 - f_decrease_factor) * (lambda * -slope) :=
      mul_nonneg (by linarith) (mul_nonneg hl.le (by linarith))
    nlinarith
  have hbpos : 0 < coefficient_b (f_scalar_new - f_scalar_old - lambda * slope)
      (f_scalar_2 - f_scalar_old - lambda_2 * slope) lambda lambda_2 := by
    rw [hb]
    exact div_pos hrhs1 (mul_pos hl hl)
  refine ⟨by rw [hb, pow_two], hbpos, ?_, div_pos (by linarith) (by linarith)⟩
  unfold cubic_minimum
  rw [if_pos ha, if_neg (by linarith)]

/-- An instance of C29: the rejected points `(1/2, 1/2)` and `(1, 3/2)` with
`f_scalar_old = 1/2`, `slope = -1` and `f_decrease_factor = 1e-4`; here `a = 0`, `b = 2` and
the shortcut gives `1/4`. -/
theorem C29_quadratic_shortcut_defined_witness :
    0 < coefficient_b ((1 / 2 : ℚ) - 1 / 2 - 1 / 2 * (-1)) (3 / 2 - 1 / 2 - 1 * (-1)) (1 / 2) 1 :=
  (C29_quadratic_shortcut_defined (fun _ => 0) (-1) (1 / 2) (1 / 2) (3 / 2) (1 / 2) 1 1.0e-4
    (by norm_num) (by norm_num) (by norm_num) (by norm_num) (by norm_num) (by norm_num)
    (by norm_num [coefficient_a])).2.1

end BioCro
